import Mathlib

/-!
Verification of the ogmigo v5/v6 compatibility layer.

This file shallowly embeds the parts of the ogmigo repository relevant to the
claims under audit: the shared multi-asset value model (ouroboros/shared),
the chain-sync point model (ouroboros/chainsync/types.go), the v5 wire types
and the v5-to-v6 structural translators (ouroboros/chainsync/v5/types.go),
the adaptive dual-schema decoders (ouroboros/chainsync/compatibility/types.go),
the chain-sync handshake builder (chainsync.go, getInit) and the
mempool-monitor reader step (mempool.go, doMonitorMempool).

Modelling conventions:
- Go machine integers are modelled as Nat or Int with explicit wrap-around
  (mod 2^64 and friends) at the few places the source converts between widths.
- Arbitrary-precision num.Int (a wrapper around big.Int) is modelled as Int.
- Go byte slices are modelled as List Nat (each entry a byte value); a Go
  string holding binary data produced by a byte-to-string conversion is
  modelled through an explicit byte-to-char embedding.
- Go maps are modelled as association lists; map update replaces the first
  binding of the key and otherwise appends, and map lookup finds the first
  binding, so lists built purely by updates behave exactly as Go maps with
  unspecified iteration order fixed to insertion order.  Claims proved here
  about maps are stated so that they do not depend on that fixed order.
- encoding/json is modelled by an executable byte-level JSON value renderer
  and parser over List Char plus tree-level Go decoding semantics:
  json.Unmarshal first syntax-checks the input (no assignment on a syntax
  error), then walks the value, assigning matching well-typed fields,
  recording the first type error and continuing with the remaining fields.
  Number tokens with a fraction or exponent part are not modelled and are
  treated as syntax errors; none of the audited properties involves them.
- A Go panic (nil dereference, out-of-range index, failed type assertion)
  is modelled by an explicit panic-like constructor or an Option result.
-/

/-! ## Basic helpers: hex, base64, bytes, association lists, integer casts -/

/-- Bytes of a Go byte slice; each entry is a byte value below 256. -/
abbrev GoBytes := List Nat

/-- Errors returned by Go functions are modelled by their message text. -/
abbrev GoErr := String

/-- Lowercase hexadecimal digit, as produced by encoding/hex. -/
def hexDigitChar (n : Nat) : Char :=
  if n < 10 then Char.ofNat (48 + n) else Char.ofNat (87 + n)

/-- Value of a hexadecimal digit character; encoding/hex accepts both cases. -/
def hexDigitVal (c : Char) : Option Nat :=
  if 48 ≤ c.toNat ∧ c.toNat ≤ 57 then some (c.toNat - 48)
  else if 97 ≤ c.toNat ∧ c.toNat ≤ 102 then some (c.toNat - 87)
  else if 65 ≤ c.toNat ∧ c.toNat ≤ 70 then some (c.toNat - 55)
  else none

/-- hex.EncodeToString: two lowercase digits per byte. -/
def hexEncodeChars : GoBytes → List Char
  | [] => []
  | b :: bs => hexDigitChar (b / 16 % 16) :: hexDigitChar (b % 16) :: hexEncodeChars bs

/-- hex.EncodeToString as a Go string. -/
def hexEncode (bs : GoBytes) : String := String.mk (hexEncodeChars bs)

/-- hex.DecodeString on a character list: fails on odd length or non-digits. -/
def hexDecodeChars : List Char → Option GoBytes
  | [] => some []
  | [_] => none
  | c1 :: c2 :: cs =>
    match hexDigitVal c1, hexDigitVal c2, hexDecodeChars cs with
    | some h, some l, some rest => some ((16 * h + l) :: rest)
    | _, _, _ => none

/-- hex.DecodeString. -/
def hexDecode (s : String) : Option GoBytes := hexDecodeChars s.data

/-- Index of a character in the standard base64 alphabet. -/
def b64Val (c : Char) : Option Nat :=
  if 65 ≤ c.toNat ∧ c.toNat ≤ 90 then some (c.toNat - 65)
  else if 97 ≤ c.toNat ∧ c.toNat ≤ 122 then some (c.toNat - 71)
  else if 48 ≤ c.toNat ∧ c.toNat ≤ 57 then some (c.toNat + 4)
  else if c = '+' then some 62
  else if c = '/' then some 63
  else none

/-- Core of base64.StdEncoding.DecodeString: processes four-character groups
and returns the bytes decoded before any error together with a success flag,
matching the partial output Go's decoder leaves behind on failure. -/
def b64Core : List Char → GoBytes × Bool
  | [] => ([], true)
  | c1 :: c2 :: c3 :: c4 :: rest =>
    match b64Val c1, b64Val c2 with
    | some v1, some v2 =>
      if c3 = '=' then
        if c4 = '=' ∧ rest = [] then ([(v1 * 4 + v2 / 16) % 256], true)
        else ([], false)
      else
        match b64Val c3 with
        | some v3 =>
          if c4 = '=' then
            if rest = [] then
              ([(v1 * 4 + v2 / 16) % 256, (v2 * 16 + v3 / 4) % 256], true)
            else ([], false)
          else
            match b64Val c4 with
            | some v4 =>
              let bs := [(v1 * 4 + v2 / 16) % 256, (v2 * 16 + v3 / 4) % 256,
                         (v3 * 64 + v4) % 256]
              let (tl, ok) := b64Core rest
              (bs ++ tl, ok)
            | none => ([], false)
        | none => ([], false)
    | _, _ => ([], false)
  | _ => ([], false)

/-- base64.StdEncoding.DecodeString ignores carriage returns and newlines. -/
def b64Filter (cs : List Char) : List Char :=
  cs.filter (fun c => ¬(c = '\r' ∨ c = '\n'))

/-- base64.StdEncoding.DecodeString, successful case. -/
def base64Decode (s : String) : Option GoBytes :=
  let (bs, ok) := b64Core (b64Filter s.data)
  if ok then some bs else none

/-- base64.StdEncoding.DecodeString with the error ignored: the bytes decoded
before the error, as used by callers that discard the error result. -/
def base64DecodeLoose (s : String) : GoBytes :=
  (b64Core (b64Filter s.data)).1

/-- Go's byte-slice-to-string conversion, for slices that may hold arbitrary
binary data: each byte becomes the character of its value. -/
def bytesToStr (bs : GoBytes) : String :=
  String.mk (bs.map (fun b => Char.ofNat (b % 256)))

/-- Go's string-to-byte-slice conversion (UTF-8 bytes). -/
def strToBytes (s : String) : GoBytes :=
  s.toUTF8.toList.map (fun b => b.toNat)

/-- big.Int.Uint64: the low 64 bits of the absolute value. -/
def goUint64 (n : Int) : Nat := n.natAbs % 2 ^ 64

/-- big.Int.Int64, modelled as the value modulo 2^64 read as a signed word. -/
def goInt64 (n : Int) : Int :=
  let m := n.emod (2 ^ 64)
  if m < 2 ^ 63 then m else m - 2 ^ 64

/-- Go conversion from uint64 to int64: reinterpret the 64-bit word. -/
def u64ToInt64 (n : Nat) : Int :=
  let m : Nat := n % 2 ^ 64
  if m < 2 ^ 63 then (m : Int) else (m : Int) - 2 ^ 64

/-- Go conversion of an integer-valued float64 to uint64 (out-of-range and
negative conversions are implementation-defined in Go; modelled by wrapping). -/
def floatToUint64 (n : Int) : Nat := (n.emod (2 ^ 64)).toNat

/-- Go conversion from int to uint32: wrap modulo 2^32. -/
def intToUint32 (n : Int) : Nat := (n.emod (2 ^ 32)).toNat

/-- Association-list lookup, first binding wins (Go map lookup). -/
def lookupA {α : Type} : List (String × α) → String → Option α
  | [], _ => none
  | (k, v) :: tl, key => if k = key then some v else lookupA tl key

/-- Association-list lookup with a default (Go map lookup of a missing key
yields the zero value). -/
def lookupD {α : Type} (l : List (String × α)) (key : String) (d : α) : α :=
  (lookupA l key).getD d

/-- Association-list update: replace the first binding or append (Go map
assignment). -/
def insertA {α : Type} : List (String × α) → String → α → List (String × α)
  | [], key, v => [(key, v)]
  | (k, w) :: tl, key, v =>
    if k = key then (k, v) :: tl else (k, w) :: insertA tl key v

/-- Keys of an association list. -/
def keysA {α : Type} (l : List (String × α)) : List String := l.map Prod.fst

/-! ## JSON values

The JSON value tree produced by the byte-level parser below and consumed by
the tree-level Go decoding semantics.  Numbers are modelled as integers;
fraction and exponent parts are treated as syntax errors by the parser. -/

inductive Json where
  | null
  | bool (b : Bool)
  | num (n : Int)
  | str (s : String)
  | arr (items : List Json)
  | obj (fields : List (String × Json))

/-- Decimal digits of a natural number, most significant first, by fuel (the
fuel n + 1 always suffices, and structural recursion keeps the renderer
computable inside the kernel). -/
def natCharsFuel : Nat → Nat → List Char
  | 0, _ => []
  | fuel + 1, n =>
    if n < 10 then [Char.ofNat (48 + n)]
    else natCharsFuel fuel (n / 10) ++ [Char.ofNat (48 + n % 10)]

/-- Decimal digits of a natural number, most significant first. -/
def natChars (n : Nat) : List Char := natCharsFuel (n + 1) n

/-- Rendering of an integer in Go's JSON number syntax. -/
def intChars (n : Int) : List Char :=
  if n < 0 then '-' :: natChars n.natAbs else natChars n.toNat

/-- One character of a string as escaped by encoding/json (HTML escaping on,
as in Go's default Marshal). -/
def escapeChar (c : Char) : List Char :=
  if c = '"' then ['\\', '"']
  else if c = '\\' then ['\\', '\\']
  else if c = '\n' then ['\\', 'n']
  else if c = '\r' then ['\\', 'r']
  else if c = '\t' then ['\\', 't']
  else if c.toNat < 32 ∨ c = '<' ∨ c = '>' ∨ c = '&' then
    ['\\', 'u', '0', '0', hexDigitChar (c.toNat / 16), hexDigitChar (c.toNat % 16)]
  else if c.toNat = 8232 ∨ c.toNat = 8233 then
    ['\\', 'u', '2', '0', '2', hexDigitChar (c.toNat % 16)]
  else [c]

/-- encoding/json string-body escaping. -/
def escapeChars : List Char → List Char
  | [] => []
  | c :: cs => escapeChar c ++ escapeChars cs

/-- encoding/json rendering of a string, quotes included. -/
def renderStr (s : String) : List Char := '"' :: escapeChars s.data ++ ['"']

mutual

/-- Compact rendering of a JSON value, as encoding/json emits it. -/
def render : Json → List Char
  | .null => String.data "null"
  | .bool true => String.data "true"
  | .bool false => String.data "false"
  | .num n => intChars n
  | .str s => renderStr s
  | .arr items => '[' :: renderItems items ++ [']']
  | .obj fields => '\x7b' :: renderFields fields ++ ['\x7d']

/-- Comma-separated rendering of array items. -/
def renderItems : List Json → List Char
  | [] => []
  | [x] => render x
  | x :: y :: tl => render x ++ ',' :: renderItems (y :: tl)

/-- Comma-separated rendering of object members. -/
def renderFields : List (String × Json) → List Char
  | [] => []
  | [(k, v)] => renderStr k ++ ':' :: render v
  | (k, v) :: tl => (renderStr k ++ ':' :: render v) ++ ',' :: renderFields tl

end

/-- JSON whitespace. -/
def isWs (c : Char) : Bool := c = ' ' ∨ c = '\t' ∨ c = '\n' ∨ c = '\r'

/-- Skip leading JSON whitespace. -/
def skipWs : List Char → List Char
  | [] => []
  | c :: cs => if isWs c then skipWs cs else c :: cs

/-- Decimal digit test. -/
def isDigit (c : Char) : Bool := 48 ≤ c.toNat ∧ c.toNat ≤ 57

/-- Maximal run of decimal digits at the head of the input. -/
def takeDigits : List Char → List Nat × List Char
  | [] => ([], [])
  | c :: cs =>
    if isDigit c then
      let (ds, rest) := takeDigits cs
      ((c.toNat - 48) :: ds, rest)
    else ([], c :: cs)

/-- Value of a list of decimal digits, most significant first. -/
def digitsVal (ds : List Nat) : Nat := ds.foldl (fun acc d => 10 * acc + d) 0

/-- Parse a JSON number token.  Fraction and exponent parts are not modelled
and are rejected as errors. -/
def parseNumAfterSign (neg : Bool) (cs1 : List Char) : Except GoErr (Int × List Char) :=
  match takeDigits cs1 with
  | ([], _) => .error "invalid number"
  | (d :: ds, rest) =>
    if d = 0 ∧ ds ≠ [] then .error "leading zero in number"
    else
      match rest with
      | '.' :: _ => .error "fractional numbers not modelled"
      | 'e' :: _ => .error "exponent numbers not modelled"
      | 'E' :: _ => .error "exponent numbers not modelled"
      | _ =>
        let v : Int := (digitsVal (d :: ds) : Nat)
        .ok (if neg then -v else v, rest)

/-- Parse a JSON number token, splitting off an optional leading minus. -/
def parseNum (cs : List Char) : Except GoErr (Int × List Char) :=
  match cs with
  | c :: tl => if c = '-' then parseNumAfterSign true tl else parseNumAfterSign false (c :: tl)
  | [] => parseNumAfterSign false []

/-- Parse a JSON string body after the opening quote, handling the escape
sequences encoding/json understands (a lone \u surrogate decodes to U+FFFD,
as in Go); produces the decoded characters and the input after the closing
quote.  The fuel is chosen larger than the input length by the entry point. -/
def parseStrBody : Nat → List Char → Except GoErr (List Char × List Char)
  | 0, _ => .error "string too long"
  | fuel + 1, cs =>
    match cs with
    | [] => .error "unterminated string"
    | c :: tl =>
      if c = '"' then .ok ([], tl)
      else if c = '\\' then
        match tl with
        | [] => .error "unterminated escape"
        | e :: tl2 =>
          if e = '"' ∨ e = '\\' ∨ e = '/' then
            match parseStrBody fuel tl2 with
            | .ok (s, rest) => .ok (e :: s, rest)
            | .error err => .error err
          else if e = 'b' then
            match parseStrBody fuel tl2 with
            | .ok (s, rest) => .ok (Char.ofNat 8 :: s, rest)
            | .error err => .error err
          else if e = 'f' then
            match parseStrBody fuel tl2 with
            | .ok (s, rest) => .ok (Char.ofNat 12 :: s, rest)
            | .error err => .error err
          else if e = 'n' then
            match parseStrBody fuel tl2 with
            | .ok (s, rest) => .ok ('\n' :: s, rest)
            | .error err => .error err
          else if e = 'r' then
            match parseStrBody fuel tl2 with
            | .ok (s, rest) => .ok ('\r' :: s, rest)
            | .error err => .error err
          else if e = 't' then
            match parseStrBody fuel tl2 with
            | .ok (s, rest) => .ok ('\t' :: s, rest)
            | .error err => .error err
          else if e = 'u' then
            match tl2 with
            | h1 :: h2 :: h3 :: h4 :: tl3 =>
              match hexDigitVal h1, hexDigitVal h2, hexDigitVal h3, hexDigitVal h4 with
              | some v1, some v2, some v3, some v4 =>
                let v := ((v1 * 16 + v2) * 16 + v3) * 16 + v4
                if 55296 ≤ v ∧ v < 56320 then
                  match tl3 with
                  | '\\' :: 'u' :: g1 :: g2 :: g3 :: g4 :: tl4 =>
                    match hexDigitVal g1, hexDigitVal g2, hexDigitVal g3, hexDigitVal g4 with
                    | some w1, some w2, some w3, some w4 =>
                      let w := ((w1 * 16 + w2) * 16 + w3) * 16 + w4
                      if 56320 ≤ w ∧ w < 57344 then
                        match parseStrBody fuel tl4 with
                        | .ok (s, rest) =>
                          .ok (Char.ofNat (65536 + (v - 55296) * 1024 + (w - 56320)) :: s, rest)
                        | .error err => .error err
                      else
                        match parseStrBody fuel tl4 with
                        | .ok (s, rest) =>
                          .ok (Char.ofNat 65533 :: Char.ofNat 65533 :: s, rest)
                        | .error err => .error err
                    | _, _, _, _ =>
                      match parseStrBody fuel tl3 with
                      | .ok (s, rest) => .ok (Char.ofNat 65533 :: s, rest)
                      | .error err => .error err
                  | _ =>
                    match parseStrBody fuel tl3 with
                    | .ok (s, rest) => .ok (Char.ofNat 65533 :: s, rest)
                    | .error err => .error err
                else if 56320 ≤ v ∧ v < 57344 then
                  match parseStrBody fuel tl3 with
                  | .ok (s, rest) => .ok (Char.ofNat 65533 :: s, rest)
                  | .error err => .error err
                else
                  match parseStrBody fuel tl3 with
                  | .ok (s, rest) => .ok (Char.ofNat v :: s, rest)
                  | .error err => .error err
              | _, _, _, _ => .error "invalid unicode escape"
            | _ => .error "invalid unicode escape"
          else .error "unknown escape"
      else if c.toNat < 32 then .error "control character in string"
      else
        match parseStrBody fuel tl with
        | .ok (s, rest) => .ok (c :: s, rest)
        | .error e => .error e

/-- Parse a JSON string body with sufficient fuel for the whole input. -/
def parseStr (cs : List Char) : Except GoErr (List Char × List Char) :=
  parseStrBody (cs.length + 1) cs

mutual

/-- Parse one JSON value, fuel-indexed; the fuel bounds nesting plus member
counts and is chosen larger than the input length by the entry point. -/
def parseVal : Nat → List Char → Except GoErr (Json × List Char)
  | 0, _ => .error "value nesting too deep"
  | fuel + 1, cs =>
    match skipWs cs with
    | [] => .error "unexpected end of JSON input"
    | c :: tl =>
      if c = '"' then
        match parseStr tl with
        | .ok (s, rest) => .ok (.str (String.mk s), rest)
        | .error e => .error e
      else if c = '\x7b' then
        if (skipWs tl).headD 'x' = '\x7d' then .ok (.obj [], (skipWs tl).tail)
        else parseMembers fuel tl
      else if c = '[' then
        if (skipWs tl).headD 'x' = ']' then .ok (.arr [], (skipWs tl).tail)
        else parseElems fuel tl
      else
        match c :: tl with
        | 't' :: 'r' :: 'u' :: 'e' :: rest => .ok (.bool true, rest)
        | 'f' :: 'a' :: 'l' :: 's' :: 'e' :: rest => .ok (.bool false, rest)
        | 'n' :: 'u' :: 'l' :: 'l' :: rest => .ok (.null, rest)
        | cs2 =>
          match parseNum cs2 with
          | .ok (n, rest) => .ok (.num n, rest)
          | .error e => .error e

/-- Parse one or more comma-separated object members and the closing brace. -/
def parseMembers (fuel : Nat) (cs : List Char) : Except GoErr (Json × List Char) :=
  match fuel with
  | 0 => .error "object nesting too deep"
  | fuel + 1 =>
    match skipWs cs with
    | '"' :: tl =>
      match parseStr tl with
      | .error e => .error e
      | .ok (k, afterKey) =>
        match skipWs afterKey with
        | ':' :: afterColon =>
          match parseVal fuel afterColon with
          | .error e => .error e
          | .ok (v, afterVal) =>
            match skipWs afterVal with
            | ',' :: afterComma =>
              match parseMembers fuel afterComma with
              | .ok (.obj tlFields, rest) =>
                .ok (.obj ((String.mk k, v) :: tlFields), rest)
              | .ok _ => .error "impossible object tail"
              | .error e => .error e
            | '\x7d' :: rest => .ok (.obj [(String.mk k, v)], rest)
            | _ => .error "expected comma or closing brace in object"
        | _ => .error "expected colon in object"
    | _ => .error "expected string key in object"

/-- Parse one or more comma-separated array elements and the closing bracket. -/
def parseElems (fuel : Nat) (cs : List Char) : Except GoErr (Json × List Char) :=
  match fuel with
  | 0 => .error "array nesting too deep"
  | fuel + 1 =>
    match parseVal fuel cs with
    | .error e => .error e
    | .ok (v, afterVal) =>
      match skipWs afterVal with
      | ',' :: afterComma =>
        match parseElems fuel afterComma with
        | .ok (.arr tlItems, rest) => .ok (.arr (v :: tlItems), rest)
        | .ok _ => .error "impossible array tail"
        | .error e => .error e
      | ']' :: rest => .ok (.arr [v], rest)
      | _ => .error "expected comma or closing bracket in array"

end

/-- Parse an object body after the opening brace (the inline dispatch of
parseVal, as a named wrapper). -/
def parseObjBody (fuel : Nat) (cs : List Char) : Except GoErr (Json × List Char) :=
  if (skipWs cs).headD 'x' = '\x7d' then .ok (.obj [], (skipWs cs).tail)
  else parseMembers fuel cs

/-- Parse an array body after the opening bracket (the inline dispatch of
parseVal, as a named wrapper). -/
def parseArrBody (fuel : Nat) (cs : List Char) : Except GoErr (Json × List Char) :=
  if (skipWs cs).headD 'x' = ']' then .ok (.arr [], (skipWs cs).tail)
  else parseElems fuel cs

def parseJson (cs : List Char) : Except GoErr Json :=
  match parseVal (cs.length + 2) cs with
  | .ok (j, rest) =>
    if skipWs rest = [] then .ok j else .error "trailing data after JSON value"
  | .error e => .error e

/-! ## Shared multi-asset value model (ouroboros/shared) -/

/-- AssetID: the composite policy/asset identifier of ouroboros/shared. -/
abbrev AssetID := String

/-- Modelled from the spec: the shared package's AssetID helpers and the
distinguished native-asset constants are declared in a shared source file that
is not part of src/ (only its tests are).  Per the spec, the native asset is
the distinguished pair ada/lovelace. -/
def AdaPolicy : String := "ada"

/-- Modelled from the spec: the native asset name. -/
def AdaAsset : String := "lovelace"

/-- Modelled from the spec: FromSeparate renders the policy alone when the
asset name is empty, else policy dot name. -/
def FromSeparate (policy name : String) : AssetID :=
  if name = "" then policy else policy ++ "." ++ name

/-- Modelled from the spec: the native-asset identifier. -/
def AdaAssetID : AssetID := FromSeparate AdaPolicy AdaAsset

/-- strings.Split on the dot separator, at character level: a structurally
recursive rendering of Go's strings.Split with a one-character separator
(splitting "" gives one empty chunk, as in Go). -/
def splitDotChars : List Char → List (List Char)
  | [] => [[]]
  | c :: tl =>
    if c = '.' then [] :: splitDotChars tl
    else
      match splitDotChars tl with
      | [] => [[c]]
      | h :: t => (c :: h) :: t

/-- strings.Split(s, ".") at string level. -/
def splitOnDot (s : String) : List String := (splitDotChars s.data).map String.mk

/-- Modelled from the spec: PolicyID splits on the first separator; without a
separator the whole string is the policy id. -/
def assetIdPolicy (a : AssetID) : String :=
  match splitOnDot a with
  | [] => ""
  | p :: _ => p

/-- Modelled from the spec: AssetName is the part after the first separator,
empty when no separator is present. -/
def assetIdName (a : AssetID) : String :=
  match splitOnDot a with
  | [] => ""
  | [_] => ""
  | _ :: rest => String.intercalate "." rest

/-- shared.Value: mapping from policy id to mapping from asset name to
amount (num.Int). -/
abbrev Value := List (String × List (String × Int))

/-- Nested lookup in a Value, as two Go map lookups. -/
def lookup2 (v : Value) (policy asset : String) : Option Int :=
  (lookupA v policy).bind (fun inner => lookupA inner asset)

/-- Nested lookup defaulting to zero, the way the shared comparisons read
missing entries. -/
def lookup2D (v : Value) (policy asset : String) : Int :=
  (lookup2 v policy asset).getD 0

/-- Nested update v[policy][asset] = amt with lazy initialisation of the
inner map, as in the shared package's loops. -/
def insert2 (v : Value) (policy asset : String) (amt : Int) : Value :=
  let inner := (lookupA v policy).getD []
  insertA v policy (insertA inner asset amt)

/-- shared.Value.AddAsset for a single coin: splits the AssetID and adds the
amount into the nested mapping. -/
def addAsset (v : Value) (assetId : AssetID) (amt : Int) : Value :=
  let policy := assetIdPolicy assetId
  let asset := assetIdName assetId
  let inner := (lookupA v policy).getD []
  insertA v policy (insertA inner asset (lookupD inner asset 0 + amt))

/-- shared.CreateAdaValue: a fresh Value holding only the native asset. -/
def CreateAdaValue (amt : Int) : Value := addAsset [] AdaAssetID amt

/-- shared.Value.AdaLovelace: amount of the native asset, zero if absent. -/
def adaLovelace (v : Value) : Int := lookup2D v AdaPolicy AdaAsset

/-- shared.Equal: compares over the union of the keys of both operands,
reading missing entries as zero. -/
def sharedEqual (a b : Value) : Bool :=
  let policies := (keysA a ++ keysA b).dedup
  policies.all (fun policy =>
    let aAssets := (lookupA a policy).getD []
    let bAssets := (lookupA b policy).getD []
    let assets := (keysA aAssets ++ keysA bAssets).dedup
    assets.all (fun asset =>
      lookupD aAssets asset 0 = lookupD bAssets asset 0))

/-- The insufficient-funds error produced by shared.Enough, carrying the
asset name and the amounts interpolated into the message. -/
structure InsufficientErr where
  assetName : String
  haveAmt : Int
  wantAmt : Int
deriving DecidableEq, Repr

/-- shared.Enough: scans the wanted value and fails on the first asset whose
wanted amount exceeds the corresponding (missing-as-zero) amount in have.
The nested loops are modelled by explicit recursion in iteration order. -/
def enoughInner (have_ : Value) (policy : String) :
    List (String × Int) → Option InsufficientErr
  | [] => none
  | (asset, amt) :: tl =>
    let haveAmt := match lookupA have_ policy with
      | some haveAssets => lookupD haveAssets asset 0
      | none => 0
    if haveAmt < amt then
      some ⟨asset, lookup2D have_ policy asset, amt⟩
    else enoughInner have_ policy tl

/-- shared.Enough outer loop over the wanted policies. -/
def enoughOuter (have_ : Value) : Value → Option InsufficientErr
  | [] => none
  | (policy, assets) :: tl =>
    match enoughInner have_ policy assets with
    | some e => some e
    | none => enoughOuter have_ tl

/-- shared.Enough: boolean result paired with the error. -/
def Enough (have_ want : Value) : Bool × Option InsufficientErr :=
  match enoughOuter have_ want with
  | some e => (false, some e)
  | none => (true, none)

/-! ## v5 value representation and its translators (v5/types.go) -/

/-- ValueV5: the v5 split representation of a ledger value, a scalar coins
field plus a side map from asset identifiers to amounts. -/
structure ValueV5 where
  coins : Int
  assets : List (AssetID × Int)
deriving DecidableEq, Repr

/-- One step of ValueV5.ConvertToV6's loop over the side map: split the
identifier on dots, taking policy and name when the split has exactly two
parts and otherwise only the first part, then assign into the nested map. -/
def valueV5Step (acc : Value) (entry : AssetID × Int) : Value :=
  let parts := splitOnDot entry.1
  let policyId := match parts with
    | [] => ""
    | p :: _ => p
  let assetName := match parts with
    | [p, n] => (fun _ => n) p
    | _ => ""
  insert2 acc policyId assetName entry.2

/-- ValueV5.ConvertToV6: seed the nested map with the native-asset entry
unless the scalar's low 64 bits are zero, then fold in the side map. -/
def valueV5ConvertToV6 (v : ValueV5) : Value :=
  let init : Value :=
    if goUint64 v.coins ≠ 0 then [(AdaPolicy, [(AdaAsset, v.coins)])] else []
  v.assets.foldl valueV5Step init

/-- One step of ValueFromV6's inner loop: hoist the native-asset entry to the
scalar, re-dot every other entry. -/
def valueFromV6Step (policyId : String) (acc : Int × List (AssetID × Int))
    (entry : String × Int) : Int × List (AssetID × Int) :=
  if policyId = AdaPolicy ∧ entry.1 = AdaAsset then (entry.2, acc.2)
  else
    let assetId := if entry.1 ≠ "" then policyId ++ "." ++ entry.1 else policyId
    (acc.1, insertA acc.2 assetId entry.2)

/-- ValueFromV6: fold over the nested v6 mapping, accumulating the scalar
coins and the side map. -/
def ValueFromV6 (v : Value) : ValueV5 :=
  let (coins, assets) := v.foldl
    (fun acc policyEntry =>
      policyEntry.2.foldl (valueFromV6Step policyEntry.1) acc)
    ((0 : Int), ([] : List (AssetID × Int)))
  ⟨coins, assets⟩

/-! ## Point model (chainsync/types.go) -/

/-- PointStruct: the structural v6 point.  Height is a pointer (optional);
slot and height are uint64 values modelled as Nat. -/
structure PointStruct where
  height : Option Nat
  id : String
  slot : Nat
deriving DecidableEq, Repr

/-- Point: the tagged union of chainsync/types.go, rendered as a proper sum
of its two valid variants (the pointType discriminant selects exactly one of
pointString and pointStruct in every value the package constructs). -/
inductive Point where
  | ofString (s : String)
  | ofStruct (ps : PointStruct)
deriving DecidableEq, Repr

/-- The universal chain-origin marker chainsync.Origin. -/
def originPoint : Point := .ofString "origin"

/-- Points.Less: structural points sort before symbolic points; two
structural points sort by descending slot; two symbolic points sort by
descending string. -/
def pointLess (pi_ pj : Point) : Bool :=
  match pi_, pj with
  | .ofStruct psi, .ofStruct psj => psj.slot < psi.slot
  | .ofStruct _, _ => true
  | _, .ofStruct _ => false
  | .ofString si, .ofString sj => decide (sj < si)

/-- The non-strict order sort.Sort establishes for Points.Less. -/
def pointLe (a b : Point) : Bool := ¬ pointLess b a

/-- sort.Sort over Points, modelled as an insertion sort with the ordering
induced by Points.Less (sort.Sort promises some ordering-consistent
permutation; insertion sort is one, and it stays computable inside the
kernel). -/
def sortPoints (pp : List Point) : List Point :=
  List.insertionSort (fun a b => pointLe a b = true) pp

/-- PointStructV5: the v5 structural point (blockNo/hash/slot keys). -/
structure PointStructV5 where
  blockNo : Nat
  hash : String
  slot : Nat
deriving DecidableEq, Repr

/-- PointV5: the v5 tagged point union, as a proper sum of the two valid
variants. -/
inductive PointV5 where
  | ofString (s : String)
  | ofStruct (ps : PointStructV5)
deriving DecidableEq, Repr

/-- PointStructV5.ConvertToV6: blockNo zero becomes an absent height. -/
def psV5ConvertToV6 (p : PointStructV5) : PointStruct :=
  { height := if p.blockNo ≠ 0 then some p.blockNo else none
    id := p.hash
    slot := p.slot }

/-- PointV5.ConvertToV6: a symbolic point converts to a symbolic point; a
structural point keeps only slot and hash (height is left absent). -/
def pointV5ConvertToV6 : PointV5 → Point
  | .ofString s => .ofString s
  | .ofStruct ps => .ofStruct { height := none, id := ps.hash, slot := ps.slot }

/-- PointFromV6: a structural point's absent height becomes blockNo zero. -/
def pointFromV6 : Point → PointV5
  | .ofString s => .ofString s
  | .ofStruct ps => .ofStruct { blockNo := ps.height.getD 0, hash := ps.id, slot := ps.slot }

/-! ## Tree-level marshalling of points (Point.MarshalJSON and the tip
marshalling inside the find-intersection translators) -/

/-- encoding/json object for a PointStruct: fields in declaration order, all
tagged omitempty (the height pointer is present iff non-nil, id iff
non-empty, slot iff non-zero). -/
def pointStructToJson (ps : PointStruct) : Json :=
  .obj ((match ps.height with
          | some h => [("height", Json.num (h : Int))]
          | none => []) ++
        (if ps.id ≠ "" then [("id", Json.str ps.id)] else []) ++
        (if ps.slot ≠ 0 then [("slot", Json.num (ps.slot : Int))] else []))

/-- Point.MarshalJSON: a symbolic point marshals as a bare JSON string, a
structural point as the object of its record. -/
def marshalPoint : Point → List Char
  | .ofString s => render (.str s)
  | .ofStruct ps => render (pointStructToJson ps)

/-! ## Go decoding semantics at tree level

json.Unmarshal, modelled per target type as a function from the current
value and the JSON tree to the new value and an optional error: Go's decoder
records the first type error and keeps going, leaving mismatched fields
untouched, so a non-nil error can accompany a partially updated value. -/

/-- Keep the first recorded decode error. -/
def errJoin : Option GoErr → Option GoErr → Option GoErr
  | some e, _ => some e
  | none, e => e

/-- ASCII lower-casing of a character, as Go's case-insensitive field match
folds field names. -/
def lowerChar (c : Char) : Char :=
  if 65 ≤ c.toNat ∧ c.toNat ≤ 90 then Char.ofNat (c.toNat + 32) else c

/-- ASCII lower-casing of a field name. -/
def lowerStr (s : String) : String := String.mk (s.data.map lowerChar)

/-- Decode into a Go string field. -/
def decString (cur : String) : Json → String × Option GoErr
  | .null => (cur, none)
  | .str s => (s, none)
  | _ => (cur, some "cannot unmarshal value into string")

/-- Decode into a uint64 field. -/
def decU64 (cur : Nat) : Json → Nat × Option GoErr
  | .null => (cur, none)
  | .num n => if 0 ≤ n ∧ n < 2 ^ 64 then (n.toNat, none)
              else (cur, some "number out of range for uint64")
  | _ => (cur, some "cannot unmarshal value into uint64")

/-- Decode into a uint32 field. -/
def decU32 (cur : Nat) : Json → Nat × Option GoErr
  | .null => (cur, none)
  | .num n => if 0 ≤ n ∧ n < 2 ^ 32 then (n.toNat, none)
              else (cur, some "number out of range for uint32")
  | _ => (cur, some "cannot unmarshal value into uint32")

/-- Decode into an int64 (or int) field. -/
def decI64 (cur : Int) : Json → Int × Option GoErr
  | .null => (cur, none)
  | .num n => if -(2 ^ 63) ≤ n ∧ n < 2 ^ 63 then (n, none)
              else (cur, some "number out of range for int64")
  | _ => (cur, some "cannot unmarshal value into int64")

/-- Decode into a *uint64 field. -/
def decOptU64 (cur : Option Nat) : Json → Option Nat × Option GoErr
  | .null => (none, none)
  | .num n => if 0 ≤ n ∧ n < 2 ^ 64 then (some n.toNat, none)
              else (cur, some "number out of range for uint64")
  | _ => (cur, some "cannot unmarshal value into uint64")

/-- Decode into a *int64 field. -/
def decOptI64 (cur : Option Int) : Json → Option Int × Option GoErr
  | .null => (none, none)
  | .num n => if -(2 ^ 63) ≤ n ∧ n < 2 ^ 63 then (some n, none)
              else (cur, some "number out of range for int64")
  | _ => (cur, some "cannot unmarshal value into int64")

/-- num.Int.UnmarshalJSON: parses the raw token as a decimal integer, so it
accepts exactly integer number tokens and fails on everything else
(including null, whose token does not parse as a number). -/
def decNumInt (cur : Int) : Json → Int × Option GoErr
  | .num n => (n, none)
  | _ => (cur, some "failed to parse number")

/-- json.RawMessage: stores the raw sub-value bytes, modelled as the compact
rendering of the subtree. -/
def decRaw (_cur : Option (List Char)) (j : Json) : Option (List Char) × Option GoErr :=
  (some (render j), none)

/-- Decode into a slice field: null clears to nil, an array decodes each
element from the element zero value (errors recorded, elements kept), and
any other value is a type error leaving the slice untouched. -/
def decListWith {α : Type} (decElem : Json → α × Option GoErr) (cur : List α) :
    Json → List α × Option GoErr
  | .null => ([], none)
  | .arr xs =>
    let results := xs.map decElem
    (results.map Prod.fst, results.foldl (fun e r => errJoin e r.2) none)
  | _ => (cur, some "cannot unmarshal value into slice")

/-- Decode into a map field: null clears to nil, an object decodes each
member value from the value zero and stores it (later duplicates win),
anything else is a type error. -/
def decMapWith {α : Type} (decVal : Json → α × Option GoErr) (cur : List (String × α)) :
    Json → List (String × α) × Option GoErr
  | .null => ([], none)
  | .obj kvs =>
    kvs.foldl
      (fun acc kv =>
        let (v, e) := decVal kv.2
        (insertA acc.1 kv.1 v, errJoin acc.2 e))
      (cur, none)
  | _ => (cur, some "cannot unmarshal value into map")

/-- Decode into a pointer-to-struct field: null sets nil, anything else
decodes into the pointee (allocated at zero when nil). -/
def decPtrWith {α : Type} (zero : α) (dec : α → Json → α × Option GoErr)
    (cur : Option α) : Json → Option α × Option GoErr
  | .null => (none, none)
  | j =>
    let (v, e) := dec (cur.getD zero) j
    (some v, e)

/-- Decode a struct from an object by folding the members over a
field-assignment function; null is a no-op and a non-object is a type
error leaving the struct untouched. -/
def decStructWith {α : Type} (assign : α × Option GoErr → String × Json → α × Option GoErr)
    (init : α) : Json → α × Option GoErr
  | .null => (init, none)
  | .obj kvs => kvs.foldl assign (init, none)
  | _ => (init, some "cannot unmarshal value into struct")

/-- Thread one field through a struct decode step. -/
def fld {α β : Type} (st : α × Option GoErr) (get : α → β) (set : α → β → α)
    (dec : β → Json → β × Option GoErr) (jv : Json) : α × Option GoErr :=
  let (v, e) := dec (get st.1) jv
  (set st.1 v, errJoin st.2 e)

/-- Decode into a []string field. -/
def decStringList (cur : List String) : Json → List String × Option GoErr :=
  decListWith (decString "") cur

/-- Decode into a shared.Value (map of maps of num.Int). -/
def decValue (cur : Value) : Json → Value × Option GoErr :=
  decMapWith (decMapWith (decNumInt 0) []) cur

/-! ## Decoders for the point and find-intersection shapes -/

/-- Zero value of PointStruct. -/
def zeroPS : PointStruct := ⟨none, "", 0⟩

/-- Zero value of PointStructV5. -/
def zeroPSV5 : PointStructV5 := ⟨0, "", 0⟩

/-- Field assignment for chainsync.PointStruct (height/id/slot). -/
def assignPS (st : PointStruct × Option GoErr) (kv : String × Json) :
    PointStruct × Option GoErr :=
  let lc := lowerStr kv.1
  if lc = "height" then fld st (fun s => s.height) (fun s v => { s with height := v }) decOptU64 kv.2
  else if lc = "id" then fld st (fun s => s.id) (fun s v => { s with id := v }) decString kv.2
  else if lc = "slot" then fld st (fun s => s.slot) (fun s v => { s with slot := v }) decU64 kv.2
  else st

/-- Tree decode of chainsync.PointStruct. -/
def decPS (init : PointStruct) : Json → PointStruct × Option GoErr :=
  decStructWith assignPS init

/-- Field assignment for v5.PointStructV5 (blockNo/hash/slot). -/
def assignPSV5 (st : PointStructV5 × Option GoErr) (kv : String × Json) :
    PointStructV5 × Option GoErr :=
  let lc := lowerStr kv.1
  if lc = "blockno" then fld st (fun s => s.blockNo) (fun s v => { s with blockNo := v }) decU64 kv.2
  else if lc = "hash" then fld st (fun s => s.hash) (fun s v => { s with hash := v }) decString kv.2
  else if lc = "slot" then fld st (fun s => s.slot) (fun s v => { s with slot := v }) decU64 kv.2
  else st

/-- Tree decode of v5.PointStructV5. -/
def decPSV5 (init : PointStructV5) : Json → PointStructV5 × Option GoErr :=
  decStructWith assignPSV5 init

/-- Point.UnmarshalJSON at tree level: inside a larger document the raw
sub-value starts with a quote exactly when the sub-value is a string, so the
first-byte sniff selects the string variant on string trees and the
structural decode otherwise.  A failed structural decode leaves the previous
value in place and reports the error (the zero Go Point, observable only
alongside a recorded error, is represented by the previous value). -/
def decPoint (cur : Point) : Json → Point × Option GoErr
  | .str s => (.ofString s, none)
  | j =>
    let (ps, e) := decPS zeroPS j
    match e with
    | none => (.ofStruct ps, none)
    | some err => (cur, some err)

/-- PointV5.UnmarshalJSON at tree level, with the same sniffing rule. -/
def decPointV5 (cur : PointV5) : Json → PointV5 × Option GoErr
  | .str s => (.ofString s, none)
  | j =>
    let (ps, e) := decPSV5 zeroPSV5 j
    match e with
    | none => (.ofStruct ps, none)
    | some err => (cur, some err)

/-- chainsync.ResultError (code/message/data/id). -/
structure ResultError where
  code : Nat
  message : String
  data : Option (List Char)
  id : Option (List Char)

/-- Zero value of ResultError. -/
def zeroRE : ResultError := ⟨0, "", none, none⟩

/-- Field assignment for chainsync.ResultError. -/
def assignRE (st : ResultError × Option GoErr) (kv : String × Json) :
    ResultError × Option GoErr :=
  let lc := lowerStr kv.1
  if lc = "code" then fld st (fun s => s.code) (fun s v => { s with code := v }) decU32 kv.2
  else if lc = "message" then fld st (fun s => s.message) (fun s v => { s with message := v }) decString kv.2
  else if lc = "data" then fld st (fun s => s.data) (fun s v => { s with data := v }) decRaw kv.2
  else if lc = "id" then fld st (fun s => s.id) (fun s v => { s with id := v }) decRaw kv.2
  else st

/-- Tree decode of chainsync.ResultError. -/
def decRE (init : ResultError) : Json → ResultError × Option GoErr :=
  decStructWith assignRE init

/-- chainsync.ResultFindIntersectionPraos. -/
structure ResultFindIntersectionPraos where
  intersection : Option Point
  tip : Option PointStruct
  error : Option ResultError
  id : Option (List Char)

/-- Zero value of ResultFindIntersectionPraos. -/
def zeroRFIP : ResultFindIntersectionPraos := ⟨none, none, none, none⟩

/-- Decode into a *Point field: null sets nil, otherwise the allocated zero
Point is decoded through the custom unmarshaler (which, on a structural
decode error, leaves the allocated pointee zero and reports the error; the
zero pointee is represented by the symbolic empty point, observable only
alongside the recorded error). -/
def decOptPoint (cur : Option Point) : Json → Option Point × Option GoErr
  | .null => (none, none)
  | j =>
    let (p, e) := decPoint (cur.getD (.ofString "")) j
    (some p, e)

/-- Decode into a *PointV5 field. -/
def decOptPointV5 (cur : Option PointV5) : Json → Option PointV5 × Option GoErr
  | .null => (none, none)
  | j =>
    let (p, e) := decPointV5 (cur.getD (.ofString "")) j
    (some p, e)

/-- Field assignment for ResultFindIntersectionPraos
(intersection/tip/error/id). -/
def assignRFIP (st : ResultFindIntersectionPraos × Option GoErr) (kv : String × Json) :
    ResultFindIntersectionPraos × Option GoErr :=
  let lc := lowerStr kv.1
  if lc = "intersection" then
    fld st (fun s => s.intersection) (fun s v => { s with intersection := v }) decOptPoint kv.2
  else if lc = "tip" then
    fld st (fun s => s.tip) (fun s v => { s with tip := v }) (decPtrWith zeroPS decPS) kv.2
  else if lc = "error" then
    fld st (fun s => s.error) (fun s v => { s with error := v }) (decPtrWith zeroRE decRE) kv.2
  else if lc = "id" then
    fld st (fun s => s.id) (fun s v => { s with id := v }) decRaw kv.2
  else st

/-- Tree decode of ResultFindIntersectionPraos. -/
def decRFIP (init : ResultFindIntersectionPraos) : Json → ResultFindIntersectionPraos × Option GoErr :=
  decStructWith assignRFIP init

/-- v5.IntersectionFoundV5 (field names Point and Tip serve as keys). -/
structure IntersectionFoundV5 where
  point : Option PointV5
  tip : Option PointStructV5

/-- v5.IntersectionNotFoundV5. -/
structure IntersectionNotFoundV5 where
  tip : Option PointStructV5

/-- v5.ResultFindIntersectionV5 (field names serve as keys). -/
structure ResultFindIntersectionV5 where
  intersectionFound : Option IntersectionFoundV5
  intersectionNotFound : Option IntersectionNotFoundV5

/-- Zero values of the v5 find-intersection shapes. -/
def zeroIFV5 : IntersectionFoundV5 := ⟨none, none⟩

/-- Zero value of IntersectionNotFoundV5. -/
def zeroINFV5 : IntersectionNotFoundV5 := ⟨none⟩

/-- Zero value of ResultFindIntersectionV5. -/
def zeroRFIV5 : ResultFindIntersectionV5 := ⟨none, none⟩

/-- Field assignment for IntersectionFoundV5. -/
def assignIFV5 (st : IntersectionFoundV5 × Option GoErr) (kv : String × Json) :
    IntersectionFoundV5 × Option GoErr :=
  let lc := lowerStr kv.1
  if lc = "point" then fld st (fun s => s.point) (fun s v => { s with point := v }) decOptPointV5 kv.2
  else if lc = "tip" then
    fld st (fun s => s.tip) (fun s v => { s with tip := v }) (decPtrWith zeroPSV5 decPSV5) kv.2
  else st

/-- Tree decode of IntersectionFoundV5. -/
def decIFV5 (init : IntersectionFoundV5) : Json → IntersectionFoundV5 × Option GoErr :=
  decStructWith assignIFV5 init

/-- Field assignment for IntersectionNotFoundV5. -/
def assignINFV5 (st : IntersectionNotFoundV5 × Option GoErr) (kv : String × Json) :
    IntersectionNotFoundV5 × Option GoErr :=
  let lc := lowerStr kv.1
  if lc = "tip" then
    fld st (fun s => s.tip) (fun s v => { s with tip := v }) (decPtrWith zeroPSV5 decPSV5) kv.2
  else st

/-- Tree decode of IntersectionNotFoundV5. -/
def decINFV5 (init : IntersectionNotFoundV5) : Json → IntersectionNotFoundV5 × Option GoErr :=
  decStructWith assignINFV5 init

/-- Field assignment for ResultFindIntersectionV5. -/
def assignRFIV5 (st : ResultFindIntersectionV5 × Option GoErr) (kv : String × Json) :
    ResultFindIntersectionV5 × Option GoErr :=
  let lc := lowerStr kv.1
  if lc = "intersectionfound" then
    fld st (fun s => s.intersectionFound) (fun s v => { s with intersectionFound := v })
      (decPtrWith zeroIFV5 decIFV5) kv.2
  else if lc = "intersectionnotfound" then
    fld st (fun s => s.intersectionNotFound) (fun s v => { s with intersectionNotFound := v })
      (decPtrWith zeroINFV5 decINFV5) kv.2
  else st

/-- Tree decode of ResultFindIntersectionV5. -/
def decRFIV5 (init : ResultFindIntersectionV5) : Json → ResultFindIntersectionV5 × Option GoErr :=
  decStructWith assignRFIV5 init

/-! ## v6 transaction and block shapes and their decoders
(chainsync/types.go) -/

/-- chainsync.Signature: one signatory record. -/
structure Signature where
  key : String
  signature : String
  chainCode : String
  addressAttributes : String
deriving DecidableEq, Repr

/-- Zero value of Signature. -/
def zeroSig : Signature := ⟨"", "", "", ""⟩

/-- Field assignment for Signature
(key/signature/chainCode/addressAttributes). -/
def assignSig (st : Signature × Option GoErr) (kv : String × Json) :
    Signature × Option GoErr :=
  let lc := lowerStr kv.1
  if lc = "key" then fld st (fun s => s.key) (fun s v => { s with key := v }) decString kv.2
  else if lc = "signature" then
    fld st (fun s => s.signature) (fun s v => { s with signature := v }) decString kv.2
  else if lc = "chaincode" then
    fld st (fun s => s.chainCode) (fun s v => { s with chainCode := v }) decString kv.2
  else if lc = "addressattributes" then
    fld st (fun s => s.addressAttributes) (fun s v => { s with addressAttributes := v }) decString kv.2
  else st

/-- Tree decode of Signature. -/
def decSig (init : Signature) : Json → Signature × Option GoErr :=
  decStructWith assignSig init

/-- chainsync.TxInID. -/
structure TxInID where
  id : String
deriving DecidableEq, Repr

/-- chainsync.TxIn. -/
structure TxIn where
  transaction : TxInID
  index : Int
deriving DecidableEq, Repr

/-- Zero value of TxIn. -/
def zeroTxIn : TxIn := ⟨⟨""⟩, 0⟩

/-- Field assignment for TxInID. -/
def assignTxInID (st : TxInID × Option GoErr) (kv : String × Json) :
    TxInID × Option GoErr :=
  if lowerStr kv.1 = "id" then
    fld st (fun s => s.id) (fun s v => { s with id := v }) decString kv.2
  else st

/-- Tree decode of TxInID. -/
def decTxInID (init : TxInID) : Json → TxInID × Option GoErr :=
  decStructWith assignTxInID init

/-- Field assignment for TxIn (transaction/index). -/
def assignTxIn (st : TxIn × Option GoErr) (kv : String × Json) :
    TxIn × Option GoErr :=
  let lc := lowerStr kv.1
  if lc = "transaction" then
    fld st (fun s => s.transaction) (fun s v => { s with transaction := v }) decTxInID kv.2
  else if lc = "index" then
    fld st (fun s => s.index) (fun s v => { s with index := v }) decI64 kv.2
  else st

/-- Tree decode of TxIn. -/
def decTxIn (init : TxIn) : Json → TxIn × Option GoErr :=
  decStructWith assignTxIn init

/-- chainsync.TxOut. -/
structure TxOut where
  address : String
  datum : String
  datumHash : String
  value : Value
  script : Option (List Char)

/-- Zero value of TxOut. -/
def zeroTxOut : TxOut := ⟨"", "", "", [], none⟩

/-- Field assignment for TxOut (address/datum/datumHash/value/script). -/
def assignTxOut (st : TxOut × Option GoErr) (kv : String × Json) :
    TxOut × Option GoErr :=
  let lc := lowerStr kv.1
  if lc = "address" then fld st (fun s => s.address) (fun s v => { s with address := v }) decString kv.2
  else if lc = "datum" then fld st (fun s => s.datum) (fun s v => { s with datum := v }) decString kv.2
  else if lc = "datumhash" then
    fld st (fun s => s.datumHash) (fun s v => { s with datumHash := v }) decString kv.2
  else if lc = "value" then fld st (fun s => s.value) (fun s v => { s with value := v }) decValue kv.2
  else if lc = "script" then fld st (fun s => s.script) (fun s v => { s with script := v }) decRaw kv.2
  else st

/-- Tree decode of TxOut. -/
def decTxOut (init : TxOut) : Json → TxOut × Option GoErr :=
  decStructWith assignTxOut init

/-- chainsync.ValidityInterval (v6). -/
structure ValidityInterval where
  invalidBefore : Nat
  invalidAfter : Nat
deriving DecidableEq, Repr

/-- Zero value of ValidityInterval. -/
def zeroVI : ValidityInterval := ⟨0, 0⟩

/-- Field assignment for ValidityInterval. -/
def assignVI (st : ValidityInterval × Option GoErr) (kv : String × Json) :
    ValidityInterval × Option GoErr :=
  let lc := lowerStr kv.1
  if lc = "invalidbefore" then
    fld st (fun s => s.invalidBefore) (fun s v => { s with invalidBefore := v }) decU64 kv.2
  else if lc = "invalidafter" then
    fld st (fun s => s.invalidAfter) (fun s v => { s with invalidAfter := v }) decU64 kv.2
  else st

/-- Tree decode of ValidityInterval. -/
def decVI (init : ValidityInterval) : Json → ValidityInterval × Option GoErr :=
  decStructWith assignVI init

/-- chainsync.Datums: map from label to hex string. -/
abbrev Datums := List (String × String)

/-- Datums.UnmarshalJSON: the value must be an object of strings; a value
that already hex-decodes is kept verbatim, otherwise it is base64-decoded
and re-encoded as hex; any non-string or non-base64 value fails the whole
decode, leaving the previous value in place. -/
def datumsConv : List (String × Json) → Except GoErr Datums
  | [] => .ok []
  | (k, v) :: tl =>
    match v with
    | .str s =>
      let asHex : Except GoErr String :=
        match hexDecode s with
        | some _ => .ok s
        | none =>
          match base64Decode s with
          | some raw => .ok (hexEncode raw)
          | none => .error "unable to decode string"
      match asHex, datumsConv tl with
      | .ok h, .ok rest => .ok ((k, h) :: rest)
      | .error e, _ => .error e
      | _, .error e => .error e
    | _ => .error "expecting string"

/-- Tree decode of Datums through its custom unmarshaler. -/
def decDatums (cur : Datums) : Json → Datums × Option GoErr
  | .null => ([], none)
  | .obj kvs =>
    match datumsConv kvs with
    | .ok d => (d.foldl (fun acc kv => insertA acc kv.1 kv.2) [], none)
    | .error e => (cur, some e)
  | _ => (cur, some "unable to unmarshal as raw map")

/-- chainsync.Tx: the canonical v6 transaction. -/
structure Tx where
  id : String
  spends : String
  inputs : List TxIn
  references : List TxIn
  collaterals : List TxIn
  totalCollateral : Option Value
  collateralReturn : Option TxOut
  outputs : List TxOut
  certificates : Option (List (List Char))
  withdrawals : List (String × Value)
  fee : Value
  validityInterval : ValidityInterval
  mint : Value
  network : Option (List Char)
  scriptIntegrityHash : String
  requiredExtraSignatories : List String
  requiredExtraScripts : Option (List String)
  proposals : Option (List Char)
  votes : Option (List Char)
  metadata : Option (List Char)
  signatories : List Signature
  scripts : Option (List Char)
  datums : Datums
  redeemers : Option (List Char)
  cbor : String

/-- Zero value of Tx. -/
def zeroTx : Tx :=
  ⟨"", "", [], [], [], none, none, [], none, [], [], zeroVI, [], none, "", [],
   none, none, none, none, [], none, [], none, ""⟩

/-- Decode into a []json.RawMessage field that distinguishes nil. -/
def decOptRawList (cur : Option (List (List Char))) : Json → Option (List (List Char)) × Option GoErr
  | .null => (none, none)
  | .arr xs => (some (xs.map render), none)
  | _ => (cur, some "cannot unmarshal value into slice")

/-- Decode into a []string field that distinguishes nil. -/
def decOptStringList (cur : Option (List String)) : Json → Option (List String) × Option GoErr
  | .null => (none, none)
  | .arr xs =>
    let results := xs.map (decString "")
    (some (results.map Prod.fst), results.foldl (fun e r => errJoin e r.2) none)
  | _ => (cur, some "cannot unmarshal value into slice")

/-- Field assignment for Tx. -/
def assignTx (st : Tx × Option GoErr) (kv : String × Json) : Tx × Option GoErr :=
  let lc := lowerStr kv.1
  if lc = "id" then fld st (fun s => s.id) (fun s v => { s with id := v }) decString kv.2
  else if lc = "spends" then fld st (fun s => s.spends) (fun s v => { s with spends := v }) decString kv.2
  else if lc = "inputs" then
    fld st (fun s => s.inputs) (fun s v => { s with inputs := v }) (decListWith (decTxIn zeroTxIn)) kv.2
  else if lc = "references" then
    fld st (fun s => s.references) (fun s v => { s with references := v }) (decListWith (decTxIn zeroTxIn)) kv.2
  else if lc = "collaterals" then
    fld st (fun s => s.collaterals) (fun s v => { s with collaterals := v }) (decListWith (decTxIn zeroTxIn)) kv.2
  else if lc = "totalcollateral" then
    fld st (fun s => s.totalCollateral) (fun s v => { s with totalCollateral := v }) (decPtrWith [] decValue) kv.2
  else if lc = "collateralreturn" then
    fld st (fun s => s.collateralReturn) (fun s v => { s with collateralReturn := v }) (decPtrWith zeroTxOut decTxOut) kv.2
  else if lc = "outputs" then
    fld st (fun s => s.outputs) (fun s v => { s with outputs := v }) (decListWith (decTxOut zeroTxOut)) kv.2
  else if lc = "certificates" then
    fld st (fun s => s.certificates) (fun s v => { s with certificates := v }) decOptRawList kv.2
  else if lc = "withdrawals" then
    fld st (fun s => s.withdrawals) (fun s v => { s with withdrawals := v }) (decMapWith (decValue [])) kv.2
  else if lc = "fee" then fld st (fun s => s.fee) (fun s v => { s with fee := v }) decValue kv.2
  else if lc = "validityinterval" then
    fld st (fun s => s.validityInterval) (fun s v => { s with validityInterval := v }) decVI kv.2
  else if lc = "mint" then fld st (fun s => s.mint) (fun s v => { s with mint := v }) decValue kv.2
  else if lc = "network" then fld st (fun s => s.network) (fun s v => { s with network := v }) decRaw kv.2
  else if lc = "scriptintegrityhash" then
    fld st (fun s => s.scriptIntegrityHash) (fun s v => { s with scriptIntegrityHash := v }) decString kv.2
  else if lc = "requiredextrasignatories" then
    fld st (fun s => s.requiredExtraSignatories) (fun s v => { s with requiredExtraSignatories := v }) decStringList kv.2
  else if lc = "requiredextrascripts" then
    fld st (fun s => s.requiredExtraScripts) (fun s v => { s with requiredExtraScripts := v }) decOptStringList kv.2
  else if lc = "proposals" then fld st (fun s => s.proposals) (fun s v => { s with proposals := v }) decRaw kv.2
  else if lc = "votes" then fld st (fun s => s.votes) (fun s v => { s with votes := v }) decRaw kv.2
  else if lc = "metadata" then fld st (fun s => s.metadata) (fun s v => { s with metadata := v }) decRaw kv.2
  else if lc = "signatories" then
    fld st (fun s => s.signatories) (fun s v => { s with signatories := v }) (decListWith (decSig zeroSig)) kv.2
  else if lc = "scripts" then fld st (fun s => s.scripts) (fun s v => { s with scripts := v }) decRaw kv.2
  else if lc = "datums" then fld st (fun s => s.datums) (fun s v => { s with datums := v }) decDatums kv.2
  else if lc = "redeemers" then fld st (fun s => s.redeemers) (fun s v => { s with redeemers := v }) decRaw kv.2
  else if lc = "cbor" then fld st (fun s => s.cbor) (fun s v => { s with cbor := v }) decString kv.2
  else st

/-- Tree decode of chainsync.Tx. -/
def decTx (init : Tx) : Json → Tx × Option GoErr :=
  decStructWith assignTx init

/-- chainsync.Nonce. -/
structure Nonce where
  output : String
  proof : String
deriving DecidableEq, Repr

/-- Zero value of Nonce. -/
def zeroNonce : Nonce := ⟨"", ""⟩

/-- Field assignment for Nonce (output/proof). -/
def assignNonce (st : Nonce × Option GoErr) (kv : String × Json) : Nonce × Option GoErr :=
  let lc := lowerStr kv.1
  if lc = "output" then fld st (fun s => s.output) (fun s v => { s with output := v }) decString kv.2
  else if lc = "proof" then fld st (fun s => s.proof) (fun s v => { s with proof := v }) decString kv.2
  else st

/-- Tree decode of Nonce. -/
def decNonce (init : Nonce) : Json → Nonce × Option GoErr :=
  decStructWith assignNonce init

/-- chainsync.BlockSize. -/
structure BlockSize where
  bytes : Int
deriving DecidableEq, Repr

/-- Field assignment for BlockSize. -/
def assignBlockSize (st : BlockSize × Option GoErr) (kv : String × Json) :
    BlockSize × Option GoErr :=
  if lowerStr kv.1 = "bytes" then
    fld st (fun s => s.bytes) (fun s v => { s with bytes := v }) decI64 kv.2
  else st

/-- Tree decode of BlockSize. -/
def decBlockSize (init : BlockSize) : Json → BlockSize × Option GoErr :=
  decStructWith assignBlockSize init

/-- chainsync.ProtocolVersion (the major and minor fields carry no JSON tag,
so their keys are the field names, matched case-insensitively). -/
structure ProtocolVersion where
  major : Nat
  minor : Nat
  patch : Nat
deriving DecidableEq, Repr

/-- Zero value of ProtocolVersion. -/
def zeroPV : ProtocolVersion := ⟨0, 0, 0⟩

/-- Field assignment for ProtocolVersion. -/
def assignPV (st : ProtocolVersion × Option GoErr) (kv : String × Json) :
    ProtocolVersion × Option GoErr :=
  let lc := lowerStr kv.1
  if lc = "major" then fld st (fun s => s.major) (fun s v => { s with major := v }) decU32 kv.2
  else if lc = "minor" then fld st (fun s => s.minor) (fun s v => { s with minor := v }) decU32 kv.2
  else if lc = "patch" then fld st (fun s => s.patch) (fun s v => { s with patch := v }) decU32 kv.2
  else st

/-- Tree decode of ProtocolVersion. -/
def decPV (init : ProtocolVersion) : Json → ProtocolVersion × Option GoErr :=
  decStructWith assignPV init

/-- chainsync.Protocol. -/
structure Protocol where
  version : ProtocolVersion
deriving DecidableEq, Repr

/-- Field assignment for Protocol. -/
def assignProtocol (st : Protocol × Option GoErr) (kv : String × Json) :
    Protocol × Option GoErr :=
  if lowerStr kv.1 = "version" then
    fld st (fun s => s.version) (fun s v => { s with version := v }) decPV kv.2
  else st

/-- Tree decode of Protocol. -/
def decProtocol (init : Protocol) : Json → Protocol × Option GoErr :=
  decStructWith assignProtocol init

/-- chainsync.Kes. -/
structure Kes where
  period : Nat
  verificationKey : String
deriving DecidableEq, Repr

/-- Zero value of Kes. -/
def zeroKes : Kes := ⟨0, ""⟩

/-- Field assignment for Kes (period/verificationKey). -/
def assignKes (st : Kes × Option GoErr) (kv : String × Json) : Kes × Option GoErr :=
  let lc := lowerStr kv.1
  if lc = "period" then fld st (fun s => s.period) (fun s v => { s with period := v }) decU64 kv.2
  else if lc = "verificationkey" then
    fld st (fun s => s.verificationKey) (fun s v => { s with verificationKey := v }) decString kv.2
  else st

/-- Tree decode of Kes. -/
def decKes (init : Kes) : Json → Kes × Option GoErr :=
  decStructWith assignKes init

/-- chainsync.OpCert (the v6 operational certificate). -/
structure OpCertV6 where
  count : Nat
  kes : Kes
deriving DecidableEq, Repr

/-- Zero value of OpCertV6. -/
def zeroOpCertV6 : OpCertV6 := ⟨0, zeroKes⟩

/-- Field assignment for OpCertV6 (count/kes). -/
def assignOpCertV6 (st : OpCertV6 × Option GoErr) (kv : String × Json) :
    OpCertV6 × Option GoErr :=
  let lc := lowerStr kv.1
  if lc = "count" then fld st (fun s => s.count) (fun s v => { s with count := v }) decU64 kv.2
  else if lc = "kes" then fld st (fun s => s.kes) (fun s v => { s with kes := v }) decKes kv.2
  else st

/-- Tree decode of OpCertV6. -/
def decOpCertV6 (init : OpCertV6) : Json → OpCertV6 × Option GoErr :=
  decStructWith assignOpCertV6 init

/-- chainsync.LeaderValue. -/
structure LeaderValue where
  output : String
  proof : String
deriving DecidableEq, Repr

/-- Zero value of LeaderValue. -/
def zeroLV : LeaderValue := ⟨"", ""⟩

/-- Field assignment for LeaderValue (output/proof). -/
def assignLV (st : LeaderValue × Option GoErr) (kv : String × Json) :
    LeaderValue × Option GoErr :=
  let lc := lowerStr kv.1
  if lc = "output" then fld st (fun s => s.output) (fun s v => { s with output := v }) decString kv.2
  else if lc = "proof" then fld st (fun s => s.proof) (fun s v => { s with proof := v }) decString kv.2
  else st

/-- Tree decode of LeaderValue. -/
def decLV (init : LeaderValue) : Json → LeaderValue × Option GoErr :=
  decStructWith assignLV init

/-- chainsync.BlockIssuer. -/
structure BlockIssuer where
  verificationKey : String
  vrfVerificationKey : String
  operationalCertificate : OpCertV6
  leaderValue : Option LeaderValue
deriving DecidableEq, Repr

/-- Zero value of BlockIssuer. -/
def zeroIssuer : BlockIssuer := ⟨"", "", zeroOpCertV6, none⟩

/-- Field assignment for BlockIssuer. -/
def assignIssuer (st : BlockIssuer × Option GoErr) (kv : String × Json) :
    BlockIssuer × Option GoErr :=
  let lc := lowerStr kv.1
  if lc = "verificationkey" then
    fld st (fun s => s.verificationKey) (fun s v => { s with verificationKey := v }) decString kv.2
  else if lc = "vrfverificationkey" then
    fld st (fun s => s.vrfVerificationKey) (fun s v => { s with vrfVerificationKey := v }) decString kv.2
  else if lc = "operationalcertificate" then
    fld st (fun s => s.operationalCertificate) (fun s v => { s with operationalCertificate := v }) decOpCertV6 kv.2
  else if lc = "leadervalue" then
    fld st (fun s => s.leaderValue) (fun s v => { s with leaderValue := v }) (decPtrWith zeroLV decLV) kv.2
  else st

/-- Tree decode of BlockIssuer. -/
def decIssuer (init : BlockIssuer) : Json → BlockIssuer × Option GoErr :=
  decStructWith assignIssuer init

/-- chainsync.Block (all blocks except Byron-era blocks). -/
structure Block where
  type_ : String
  era : String
  id : String
  ancestor : String
  nonce : Option Nonce
  height : Nat
  size : BlockSize
  slot : Nat
  transactions : List Tx
  protocol : Protocol
  issuer : BlockIssuer

/-- Zero value of Block. -/
def zeroBlock : Block :=
  ⟨"", "", "", "", none, 0, ⟨0⟩, 0, [], ⟨zeroPV⟩, zeroIssuer⟩

/-- Field assignment for Block. -/
def assignBlock (st : Block × Option GoErr) (kv : String × Json) : Block × Option GoErr :=
  let lc := lowerStr kv.1
  if lc = "type" then fld st (fun s => s.type_) (fun s v => { s with type_ := v }) decString kv.2
  else if lc = "era" then fld st (fun s => s.era) (fun s v => { s with era := v }) decString kv.2
  else if lc = "id" then fld st (fun s => s.id) (fun s v => { s with id := v }) decString kv.2
  else if lc = "ancestor" then fld st (fun s => s.ancestor) (fun s v => { s with ancestor := v }) decString kv.2
  else if lc = "nonce" then
    fld st (fun s => s.nonce) (fun s v => { s with nonce := v }) (decPtrWith zeroNonce decNonce) kv.2
  else if lc = "height" then fld st (fun s => s.height) (fun s v => { s with height := v }) decU64 kv.2
  else if lc = "size" then fld st (fun s => s.size) (fun s v => { s with size := v }) decBlockSize kv.2
  else if lc = "slot" then fld st (fun s => s.slot) (fun s v => { s with slot := v }) decU64 kv.2
  else if lc = "transactions" then
    fld st (fun s => s.transactions) (fun s v => { s with transactions := v }) (decListWith (decTx zeroTx)) kv.2
  else if lc = "protocol" then
    fld st (fun s => s.protocol) (fun s v => { s with protocol := v }) decProtocol kv.2
  else if lc = "issuer" then fld st (fun s => s.issuer) (fun s v => { s with issuer := v }) decIssuer kv.2
  else st

/-- Tree decode of chainsync.Block. -/
def decBlock (init : Block) : Json → Block × Option GoErr :=
  decStructWith assignBlock init

/-- chainsync.ResultNextBlockPraos. -/
structure ResultNextBlockPraos where
  direction : String
  tip : Option PointStruct
  block : Option Block
  point : Option Point

/-- Zero value of ResultNextBlockPraos. -/
def zeroRNBP : ResultNextBlockPraos := ⟨"", none, none, none⟩

/-- Field assignment for ResultNextBlockPraos (direction/tip/block/point). -/
def assignRNBP (st : ResultNextBlockPraos × Option GoErr) (kv : String × Json) :
    ResultNextBlockPraos × Option GoErr :=
  let lc := lowerStr kv.1
  if lc = "direction" then
    fld st (fun s => s.direction) (fun s v => { s with direction := v }) decString kv.2
  else if lc = "tip" then
    fld st (fun s => s.tip) (fun s v => { s with tip := v }) (decPtrWith zeroPS decPS) kv.2
  else if lc = "block" then
    fld st (fun s => s.block) (fun s v => { s with block := v }) (decPtrWith zeroBlock decBlock) kv.2
  else if lc = "point" then
    fld st (fun s => s.point) (fun s v => { s with point := v }) decOptPoint kv.2
  else st

/-- Tree decode of ResultNextBlockPraos. -/
def decRNBP (init : ResultNextBlockPraos) : Json → ResultNextBlockPraos × Option GoErr :=
  decStructWith assignRNBP init

/-! ## v5 transaction and block shapes and their decoders (v5/types.go) -/

/-- v5.TxInV5. -/
structure TxInV5 where
  txHash : String
  index : Int
deriving DecidableEq, Repr

/-- Zero value of TxInV5. -/
def zeroTxInV5 : TxInV5 := ⟨"", 0⟩

/-- Field assignment for TxInV5 (txId/index). -/
def assignTxInV5 (st : TxInV5 × Option GoErr) (kv : String × Json) :
    TxInV5 × Option GoErr :=
  let lc := lowerStr kv.1
  if lc = "txid" then fld st (fun s => s.txHash) (fun s v => { s with txHash := v }) decString kv.2
  else if lc = "index" then fld st (fun s => s.index) (fun s v => { s with index := v }) decI64 kv.2
  else st

/-- Tree decode of TxInV5. -/
def decTxInV5 (init : TxInV5) : Json → TxInV5 × Option GoErr :=
  decStructWith assignTxInV5 init

/-- Zero value of ValueV5. -/
def zeroValueV5 : ValueV5 := ⟨0, []⟩

/-- Field assignment for ValueV5 (coins/assets). -/
def assignValueV5 (st : ValueV5 × Option GoErr) (kv : String × Json) :
    ValueV5 × Option GoErr :=
  let lc := lowerStr kv.1
  if lc = "coins" then fld st (fun s => s.coins) (fun s v => { s with coins := v }) decNumInt kv.2
  else if lc = "assets" then
    fld st (fun s => s.assets) (fun s v => { s with assets := v }) (decMapWith (decNumInt 0)) kv.2
  else st

/-- Tree decode of ValueV5. -/
def decValueV5 (init : ValueV5) : Json → ValueV5 × Option GoErr :=
  decStructWith assignValueV5 init

/-- v5.TxOutV5. -/
structure TxOutV5 where
  address : String
  datum : String
  datumHash : String
  value : ValueV5
  script : Option (List Char)

/-- Zero value of TxOutV5. -/
def zeroTxOutV5 : TxOutV5 := ⟨"", "", "", zeroValueV5, none⟩

/-- Field assignment for TxOutV5. -/
def assignTxOutV5 (st : TxOutV5 × Option GoErr) (kv : String × Json) :
    TxOutV5 × Option GoErr :=
  let lc := lowerStr kv.1
  if lc = "address" then fld st (fun s => s.address) (fun s v => { s with address := v }) decString kv.2
  else if lc = "datum" then fld st (fun s => s.datum) (fun s v => { s with datum := v }) decString kv.2
  else if lc = "datumhash" then
    fld st (fun s => s.datumHash) (fun s v => { s with datumHash := v }) decString kv.2
  else if lc = "value" then fld st (fun s => s.value) (fun s v => { s with value := v }) decValueV5 kv.2
  else if lc = "script" then fld st (fun s => s.script) (fun s v => { s with script := v }) decRaw kv.2
  else st

/-- Tree decode of TxOutV5. -/
def decTxOutV5 (init : TxOutV5) : Json → TxOutV5 × Option GoErr :=
  decStructWith assignTxOutV5 init

/-- v5.ValidityIntervalV5. -/
structure ValidityIntervalV5 where
  invalidBefore : Nat
  invalidHereafter : Nat
deriving DecidableEq, Repr

/-- Zero value of ValidityIntervalV5. -/
def zeroVIV5 : ValidityIntervalV5 := ⟨0, 0⟩

/-- Field assignment for ValidityIntervalV5. -/
def assignVIV5 (st : ValidityIntervalV5 × Option GoErr) (kv : String × Json) :
    ValidityIntervalV5 × Option GoErr :=
  let lc := lowerStr kv.1
  if lc = "invalidbefore" then
    fld st (fun s => s.invalidBefore) (fun s v => { s with invalidBefore := v }) decU64 kv.2
  else if lc = "invalidhereafter" then
    fld st (fun s => s.invalidHereafter) (fun s v => { s with invalidHereafter := v }) decU64 kv.2
  else st

/-- Tree decode of ValidityIntervalV5. -/
def decVIV5 (init : ValidityIntervalV5) : Json → ValidityIntervalV5 × Option GoErr :=
  decStructWith assignVIV5 init

/-- chainsync.Witness (carried inside TxV5). -/
structure Witness where
  bootstrap : List (List Char)
  datums : Datums
  redeemers : Option (List Char)
  scripts : Option (List Char)
  signatures : List (String × String)

/-- Zero value of Witness. -/
def zeroWitness : Witness := ⟨[], [], none, none, []⟩

/-- Decode into a []json.RawMessage field without a nil check. -/
def decRawList (cur : List (List Char)) : Json → List (List Char) × Option GoErr
  | .null => ([], none)
  | .arr xs => (xs.map render, none)
  | _ => (cur, some "cannot unmarshal value into slice")

/-- Field assignment for Witness
(bootstrap/datums/redeemers/scripts/signatures). -/
def assignWitness (st : Witness × Option GoErr) (kv : String × Json) :
    Witness × Option GoErr :=
  let lc := lowerStr kv.1
  if lc = "bootstrap" then
    fld st (fun s => s.bootstrap) (fun s v => { s with bootstrap := v }) decRawList kv.2
  else if lc = "datums" then
    fld st (fun s => s.datums) (fun s v => { s with datums := v }) decDatums kv.2
  else if lc = "redeemers" then
    fld st (fun s => s.redeemers) (fun s v => { s with redeemers := v }) decRaw kv.2
  else if lc = "scripts" then
    fld st (fun s => s.scripts) (fun s v => { s with scripts := v }) decRaw kv.2
  else if lc = "signatures" then
    fld st (fun s => s.signatures) (fun s v => { s with signatures := v }) (decMapWith (decString "")) kv.2
  else st

/-- Tree decode of Witness. -/
def decWitness (init : Witness) : Json → Witness × Option GoErr :=
  decStructWith assignWitness init

/-- v5.TxBodyV5. -/
structure TxBodyV5 where
  certificates : Option (List (List Char))
  collaterals : List TxInV5
  fee : Int
  inputs : List TxInV5
  mint : Option ValueV5
  network : Option (List Char)
  outputs : List TxOutV5
  requiredExtraSignatures : List String
  scriptIntegrityHash : String
  timeToLive : Int
  update : Option (List Char)
  validityInterval : ValidityIntervalV5
  withdrawals : List (String × Int)
  collateralReturn : Option TxOutV5
  totalCollateral : Option Int
  references : List TxInV5

/-- Zero value of TxBodyV5. -/
def zeroTxBodyV5 : TxBodyV5 :=
  ⟨none, [], 0, [], none, none, [], [], "", 0, none, zeroVIV5, [], none, none, []⟩

/-- Field assignment for TxBodyV5. -/
def assignTxBodyV5 (st : TxBodyV5 × Option GoErr) (kv : String × Json) :
    TxBodyV5 × Option GoErr :=
  let lc := lowerStr kv.1
  if lc = "certificates" then
    fld st (fun s => s.certificates) (fun s v => { s with certificates := v }) decOptRawList kv.2
  else if lc = "collaterals" then
    fld st (fun s => s.collaterals) (fun s v => { s with collaterals := v }) (decListWith (decTxInV5 zeroTxInV5)) kv.2
  else if lc = "fee" then fld st (fun s => s.fee) (fun s v => { s with fee := v }) decNumInt kv.2
  else if lc = "inputs" then
    fld st (fun s => s.inputs) (fun s v => { s with inputs := v }) (decListWith (decTxInV5 zeroTxInV5)) kv.2
  else if lc = "mint" then
    fld st (fun s => s.mint) (fun s v => { s with mint := v }) (decPtrWith zeroValueV5 decValueV5) kv.2
  else if lc = "network" then fld st (fun s => s.network) (fun s v => { s with network := v }) decRaw kv.2
  else if lc = "outputs" then
    fld st (fun s => s.outputs) (fun s v => { s with outputs := v }) (decListWith (decTxOutV5 zeroTxOutV5)) kv.2
  else if lc = "requiredextrasignatures" then
    fld st (fun s => s.requiredExtraSignatures) (fun s v => { s with requiredExtraSignatures := v }) decStringList kv.2
  else if lc = "scriptintegrityhash" then
    fld st (fun s => s.scriptIntegrityHash) (fun s v => { s with scriptIntegrityHash := v }) decString kv.2
  else if lc = "timetolive" then
    fld st (fun s => s.timeToLive) (fun s v => { s with timeToLive := v }) decI64 kv.2
  else if lc = "update" then fld st (fun s => s.update) (fun s v => { s with update := v }) decRaw kv.2
  else if lc = "validityinterval" then
    fld st (fun s => s.validityInterval) (fun s v => { s with validityInterval := v }) decVIV5 kv.2
  else if lc = "withdrawals" then
    fld st (fun s => s.withdrawals) (fun s v => { s with withdrawals := v }) (decMapWith (decI64 0)) kv.2
  else if lc = "collateralreturn" then
    fld st (fun s => s.collateralReturn) (fun s v => { s with collateralReturn := v }) (decPtrWith zeroTxOutV5 decTxOutV5) kv.2
  else if lc = "totalcollateral" then
    fld st (fun s => s.totalCollateral) (fun s v => { s with totalCollateral := v }) decOptI64 kv.2
  else if lc = "references" then
    fld st (fun s => s.references) (fun s v => { s with references := v }) (decListWith (decTxInV5 zeroTxInV5)) kv.2
  else st

/-- Tree decode of TxBodyV5. -/
def decTxBodyV5 (init : TxBodyV5) : Json → TxBodyV5 × Option GoErr :=
  decStructWith assignTxBodyV5 init

/-- v5.TxV5. -/
structure TxV5 where
  id : String
  inputSource : String
  body : TxBodyV5
  witness : Witness
  metadata : Option (List Char)
  raw : String

/-- Zero value of TxV5. -/
def zeroTxV5 : TxV5 := ⟨"", "", zeroTxBodyV5, zeroWitness, none, ""⟩

/-- Field assignment for TxV5 (id/inputSource/body/witness/metadata/raw). -/
def assignTxV5 (st : TxV5 × Option GoErr) (kv : String × Json) : TxV5 × Option GoErr :=
  let lc := lowerStr kv.1
  if lc = "id" then fld st (fun s => s.id) (fun s v => { s with id := v }) decString kv.2
  else if lc = "inputsource" then
    fld st (fun s => s.inputSource) (fun s v => { s with inputSource := v }) decString kv.2
  else if lc = "body" then fld st (fun s => s.body) (fun s v => { s with body := v }) decTxBodyV5 kv.2
  else if lc = "witness" then
    fld st (fun s => s.witness) (fun s v => { s with witness := v }) decWitness kv.2
  else if lc = "metadata" then
    fld st (fun s => s.metadata) (fun s v => { s with metadata := v }) decRaw kv.2
  else if lc = "raw" then fld st (fun s => s.raw) (fun s v => { s with raw := v }) decString kv.2
  else st

/-- Tree decode of TxV5. -/
def decTxV5 (init : TxV5) : Json → TxV5 × Option GoErr :=
  decStructWith assignTxV5 init

/-- Decode into a map[string][]byte value slot ([]byte JSON-decodes from a
base64 string; null stays nil). -/
def decOptBytes (cur : Option GoBytes) : Json → Option GoBytes × Option GoErr
  | .null => (none, none)
  | .str s =>
    match base64Decode s with
    | some bs => (some bs, none)
    | none => (cur, some "illegal base64 data")
  | _ => (cur, some "cannot unmarshal value into byte slice")

/-- v5.BlockHeaderV5. -/
structure BlockHeaderV5 where
  blockHash : String
  blockHeight : Nat
  blockSize : Nat
  issuerVK : String
  issuerVrf : String
  leaderValue : List (String × Option GoBytes)
  nonce : List (String × String)
  opCert : Option (List (String × Json))
  prevHash : String
  protocolVersion : List (String × Int)
  signature : String
  slot : Nat

/-- Zero value of BlockHeaderV5. -/
def zeroBHV5 : BlockHeaderV5 := ⟨"", 0, 0, "", "", [], [], none, "", [], "", 0⟩

/-- Decode into a map[string]interface{} field that distinguishes nil (the
decoded values are kept as JSON trees; generic decode turns numbers into
float64, which the tree's integer numbers model). -/
def decOptJsonMap (cur : Option (List (String × Json))) :
    Json → Option (List (String × Json)) × Option GoErr
  | .null => (none, none)
  | .obj kvs => (some (kvs.foldl (fun acc kv => insertA acc kv.1 kv.2) []), none)
  | _ => (cur, some "cannot unmarshal value into map")

/-- Field assignment for BlockHeaderV5. -/
def assignBHV5 (st : BlockHeaderV5 × Option GoErr) (kv : String × Json) :
    BlockHeaderV5 × Option GoErr :=
  let lc := lowerStr kv.1
  if lc = "blockhash" then
    fld st (fun s => s.blockHash) (fun s v => { s with blockHash := v }) decString kv.2
  else if lc = "blockheight" then
    fld st (fun s => s.blockHeight) (fun s v => { s with blockHeight := v }) decU64 kv.2
  else if lc = "blocksize" then
    fld st (fun s => s.blockSize) (fun s v => { s with blockSize := v }) decU64 kv.2
  else if lc = "issuervk" then
    fld st (fun s => s.issuerVK) (fun s v => { s with issuerVK := v }) decString kv.2
  else if lc = "issuervrf" then
    fld st (fun s => s.issuerVrf) (fun s v => { s with issuerVrf := v }) decString kv.2
  else if lc = "leadervalue" then
    fld st (fun s => s.leaderValue) (fun s v => { s with leaderValue := v }) (decMapWith (decOptBytes none)) kv.2
  else if lc = "nonce" then
    fld st (fun s => s.nonce) (fun s v => { s with nonce := v }) (decMapWith (decString "")) kv.2
  else if lc = "opcert" then
    fld st (fun s => s.opCert) (fun s v => { s with opCert := v }) decOptJsonMap kv.2
  else if lc = "prevhash" then
    fld st (fun s => s.prevHash) (fun s v => { s with prevHash := v }) decString kv.2
  else if lc = "protocolversion" then
    fld st (fun s => s.protocolVersion) (fun s v => { s with protocolVersion := v }) (decMapWith (decI64 0)) kv.2
  else if lc = "signature" then
    fld st (fun s => s.signature) (fun s v => { s with signature := v }) decString kv.2
  else if lc = "slot" then fld st (fun s => s.slot) (fun s v => { s with slot := v }) decU64 kv.2
  else st

/-- Tree decode of BlockHeaderV5. -/
def decBHV5 (init : BlockHeaderV5) : Json → BlockHeaderV5 × Option GoErr :=
  decStructWith assignBHV5 init

/-- v5.BlockV5. -/
structure BlockV5 where
  body : List TxV5
  header : BlockHeaderV5
  headerHash : String

/-- Zero value of BlockV5. -/
def zeroBlockV5 : BlockV5 := ⟨[], zeroBHV5, ""⟩

/-- Field assignment for BlockV5 (body/header/headerHash). -/
def assignBlockV5 (st : BlockV5 × Option GoErr) (kv : String × Json) :
    BlockV5 × Option GoErr :=
  let lc := lowerStr kv.1
  if lc = "body" then
    fld st (fun s => s.body) (fun s v => { s with body := v }) (decListWith (decTxV5 zeroTxV5)) kv.2
  else if lc = "header" then
    fld st (fun s => s.header) (fun s v => { s with header := v }) decBHV5 kv.2
  else if lc = "headerhash" then
    fld st (fun s => s.headerHash) (fun s v => { s with headerHash := v }) decString kv.2
  else st

/-- Tree decode of BlockV5. -/
def decBlockV5 (init : BlockV5) : Json → BlockV5 × Option GoErr :=
  decStructWith assignBlockV5 init

/-- v5.RollForwardBlockV5: one pointer per era.  Modelled from the spec:
the ByronBlock type's own source is not part of src/, and Byron blocks are
explicitly unsupported by the translators, so the byron member is kept as an
opaque JSON value. -/
structure RollForwardBlockV5 where
  allegra : Option BlockV5
  alonzo : Option BlockV5
  babbage : Option BlockV5
  byron : Option Json
  mary : Option BlockV5
  shelley : Option BlockV5

/-- Zero value of RollForwardBlockV5. -/
def zeroRFBV5 : RollForwardBlockV5 := ⟨none, none, none, none, none, none⟩

/-- Decode of the opaque byron member: null stays nil, everything else is
kept as a tree. -/
def decOptOpaque (_cur : Option Json) : Json → Option Json × Option GoErr
  | .null => (none, none)
  | j => (some j, none)

/-- Field assignment for RollForwardBlockV5. -/
def assignRFBV5 (st : RollForwardBlockV5 × Option GoErr) (kv : String × Json) :
    RollForwardBlockV5 × Option GoErr :=
  let lc := lowerStr kv.1
  if lc = "allegra" then
    fld st (fun s => s.allegra) (fun s v => { s with allegra := v }) (decPtrWith zeroBlockV5 decBlockV5) kv.2
  else if lc = "alonzo" then
    fld st (fun s => s.alonzo) (fun s v => { s with alonzo := v }) (decPtrWith zeroBlockV5 decBlockV5) kv.2
  else if lc = "babbage" then
    fld st (fun s => s.babbage) (fun s v => { s with babbage := v }) (decPtrWith zeroBlockV5 decBlockV5) kv.2
  else if lc = "byron" then
    fld st (fun s => s.byron) (fun s v => { s with byron := v }) decOptOpaque kv.2
  else if lc = "mary" then
    fld st (fun s => s.mary) (fun s v => { s with mary := v }) (decPtrWith zeroBlockV5 decBlockV5) kv.2
  else if lc = "shelley" then
    fld st (fun s => s.shelley) (fun s v => { s with shelley := v }) (decPtrWith zeroBlockV5 decBlockV5) kv.2
  else st

/-- Tree decode of RollForwardBlockV5. -/
def decRFBV5 (init : RollForwardBlockV5) : Json → RollForwardBlockV5 × Option GoErr :=
  decStructWith assignRFBV5 init

/-- v5.RollForwardV5. -/
structure RollForwardV5 where
  block : RollForwardBlockV5
  tip : PointStructV5

/-- Zero value of RollForwardV5. -/
def zeroRFV5 : RollForwardV5 := ⟨zeroRFBV5, zeroPSV5⟩

/-- Field assignment for RollForwardV5 (block/tip). -/
def assignRFV5 (st : RollForwardV5 × Option GoErr) (kv : String × Json) :
    RollForwardV5 × Option GoErr :=
  let lc := lowerStr kv.1
  if lc = "block" then
    fld st (fun s => s.block) (fun s v => { s with block := v }) decRFBV5 kv.2
  else if lc = "tip" then
    fld st (fun s => s.tip) (fun s v => { s with tip := v }) decPSV5 kv.2
  else st

/-- Tree decode of RollForwardV5. -/
def decRFV5 (init : RollForwardV5) : Json → RollForwardV5 × Option GoErr :=
  decStructWith assignRFV5 init

/-- v5.RollBackwardV5. -/
structure RollBackwardV5 where
  point : PointV5
  tip : PointStructV5

/-- Zero value of RollBackwardV5 (the zero Go PointV5 is represented by the
symbolic empty point; it is only observable alongside a decode error). -/
def zeroRBV5 : RollBackwardV5 := ⟨.ofString "", zeroPSV5⟩

/-- Field assignment for RollBackwardV5 (point/tip). -/
def assignRBV5 (st : RollBackwardV5 × Option GoErr) (kv : String × Json) :
    RollBackwardV5 × Option GoErr :=
  let lc := lowerStr kv.1
  if lc = "point" then
    fld st (fun s => s.point) (fun s v => { s with point := v }) decPointV5 kv.2
  else if lc = "tip" then
    fld st (fun s => s.tip) (fun s v => { s with tip := v }) decPSV5 kv.2
  else st

/-- Tree decode of RollBackwardV5. -/
def decRBV5 (init : RollBackwardV5) : Json → RollBackwardV5 × Option GoErr :=
  decStructWith assignRBV5 init

/-- v5.ResultNextBlockV5 (field names serve as keys). -/
structure ResultNextBlockV5 where
  rollForward : Option RollForwardV5
  rollBackward : Option RollBackwardV5

/-- Zero value of ResultNextBlockV5. -/
def zeroRNBV5 : ResultNextBlockV5 := ⟨none, none⟩

/-- Field assignment for ResultNextBlockV5. -/
def assignRNBV5 (st : ResultNextBlockV5 × Option GoErr) (kv : String × Json) :
    ResultNextBlockV5 × Option GoErr :=
  let lc := lowerStr kv.1
  if lc = "rollforward" then
    fld st (fun s => s.rollForward) (fun s v => { s with rollForward := v }) (decPtrWith zeroRFV5 decRFV5) kv.2
  else if lc = "rollbackward" then
    fld st (fun s => s.rollBackward) (fun s v => { s with rollBackward := v }) (decPtrWith zeroRBV5 decRBV5) kv.2
  else st

/-- Tree decode of ResultNextBlockV5. -/
def decRNBV5 (init : ResultNextBlockV5) : Json → ResultNextBlockV5 × Option GoErr :=
  decStructWith assignRNBV5 init

/-! ## Mempool-monitor response shapes (mempool.go) -/

/-- Result member of AcquireMempoolResponse. -/
structure AcquireResult where
  acquired : String
  slot : Nat
deriving DecidableEq, Repr

/-- Zero value of AcquireResult. -/
def zeroAcquireResult : AcquireResult := ⟨"", 0⟩

/-- Field assignment for AcquireResult (Acquired/Slot by field name). -/
def assignAcquireResult (st : AcquireResult × Option GoErr) (kv : String × Json) :
    AcquireResult × Option GoErr :=
  let lc := lowerStr kv.1
  if lc = "acquired" then
    fld st (fun s => s.acquired) (fun s v => { s with acquired := v }) decString kv.2
  else if lc = "slot" then
    fld st (fun s => s.slot) (fun s v => { s with slot := v }) decU64 kv.2
  else st

/-- Tree decode of AcquireResult. -/
def decAcquireResult (init : AcquireResult) : Json → AcquireResult × Option GoErr :=
  decStructWith assignAcquireResult init

/-- ogmigo.AcquireMempoolResponse. -/
structure AcquireMempoolResponse where
  method : String
  result : AcquireResult

/-- Zero value of AcquireMempoolResponse. -/
def zeroAMR : AcquireMempoolResponse := ⟨"", zeroAcquireResult⟩

/-- Field assignment for AcquireMempoolResponse (Method/Result). -/
def assignAMR (st : AcquireMempoolResponse × Option GoErr) (kv : String × Json) :
    AcquireMempoolResponse × Option GoErr :=
  let lc := lowerStr kv.1
  if lc = "method" then
    fld st (fun s => s.method) (fun s v => { s with method := v }) decString kv.2
  else if lc = "result" then
    fld st (fun s => s.result) (fun s v => { s with result := v }) decAcquireResult kv.2
  else st

/-- Tree decode of AcquireMempoolResponse. -/
def decAMR (init : AcquireMempoolResponse) : Json → AcquireMempoolResponse × Option GoErr :=
  decStructWith assignAMR init

/-- Result member of NextTransactionResponse. -/
structure NextTxResult where
  transaction : Option Tx

/-- Zero value of NextTxResult. -/
def zeroNextTxResult : NextTxResult := ⟨none⟩

/-- Field assignment for NextTxResult (Transaction by field name). -/
def assignNextTxResult (st : NextTxResult × Option GoErr) (kv : String × Json) :
    NextTxResult × Option GoErr :=
  if lowerStr kv.1 = "transaction" then
    fld st (fun s => s.transaction) (fun s v => { s with transaction := v }) (decPtrWith zeroTx decTx) kv.2
  else st

/-- Tree decode of NextTxResult. -/
def decNextTxResult (init : NextTxResult) : Json → NextTxResult × Option GoErr :=
  decStructWith assignNextTxResult init

/-- ogmigo.NextTransactionResponse. -/
structure NextTransactionResponse where
  method : String
  result : NextTxResult

/-- Zero value of NextTransactionResponse. -/
def zeroNTR : NextTransactionResponse := ⟨"", zeroNextTxResult⟩

/-- Field assignment for NextTransactionResponse (Method/Result). -/
def assignNTR (st : NextTransactionResponse × Option GoErr) (kv : String × Json) :
    NextTransactionResponse × Option GoErr :=
  let lc := lowerStr kv.1
  if lc = "method" then
    fld st (fun s => s.method) (fun s v => { s with method := v }) decString kv.2
  else if lc = "result" then
    fld st (fun s => s.result) (fun s v => { s with result := v }) decNextTxResult kv.2
  else st

/-- Tree decode of NextTransactionResponse. -/
def decNTR (init : NextTransactionResponse) : Json → NextTransactionResponse × Option GoErr :=
  decStructWith assignNTR init

/-! ## Byte-level json.Unmarshal entry points -/

/-- json.Unmarshal of a byte payload through a tree decoder: a syntax error
leaves the zero value untouched; otherwise the tree is decoded with the
continue-on-type-error semantics. -/
def goUnmarshalWith {α : Type} (zero : α) (dec : α → Json → α × Option GoErr)
    (data : List Char) : α × Option GoErr :=
  match parseJson data with
  | .ok j => dec zero j
  | .error e => (zero, some e)

/-- Result of calling a Point UnmarshalJSON method directly on a byte
payload: the method can panic (index out of range), return an error, or
assign a point. -/
inductive UnmarshalRes (α : Type) where
  | panics
  | fails (e : GoErr)
  | succeeds (v : α)
deriving DecidableEq, Repr

/-- chainsync.Point.UnmarshalJSON: switches on the first byte of the payload
(indexing it unconditionally, so the empty payload panics); a leading quote
selects the string variant, anything else the structural decode. -/
def unmarshalPointJSON (data : List Char) : UnmarshalRes Point :=
  match data with
  | [] => .panics
  | c :: _ =>
    if c = '"' then
      match parseJson data with
      | .ok (.str s) => .succeeds (.ofString s)
      | .ok _ => .fails "cannot unmarshal value into string"
      | .error e => .fails e
    else
      match parseJson data with
      | .ok j =>
        let (ps, e) := decPS zeroPS j
        match e with
        | none => .succeeds (.ofStruct ps)
        | some err => .fails err
      | .error e => .fails e

/-- v5.PointV5.UnmarshalJSON: same first-byte switch, structural decode into
the v5 field names. -/
def unmarshalPointV5JSON (data : List Char) : UnmarshalRes PointV5 :=
  match data with
  | [] => .panics
  | c :: _ =>
    if c = '"' then
      match parseJson data with
      | .ok (.str s) => .succeeds (.ofString s)
      | .ok _ => .fails "cannot unmarshal value into string"
      | .error e => .fails e
    else
      match parseJson data with
      | .ok j =>
        let (ps, e) := decPSV5 zeroPSV5 j
        match e with
        | none => .succeeds (.ofStruct ps)
        | some err => .fails err
      | .error e => .fails e

/-! ## v5-to-v6 converters (v5/types.go) -/

/-- The signatory pipeline of TxV5.ConvertToV6 on one bootstrap entry: the
raw JSON is unmarshalled with the error ignored (a syntax error leaves the
zero Signature), the signature is re-encoded from base64 to hex when it
decodes, and a non-empty addressAttributes field likewise; a failed decode
leaves the original field value unmodified. -/
def convertBootstrapSig (raw : List Char) : Signature :=
  let s := match parseJson raw with
    | .ok j => (decSig zeroSig j).1
    | .error _ => zeroSig
  let s1 := match base64Decode s.signature with
    | some bs => { s with signature := hexEncode bs }
    | none => s
  if s1.addressAttributes ≠ "" then
    match base64Decode s1.addressAttributes with
    | some bs => { s1 with addressAttributes := hexEncode bs }
    | none => s1
  else s1

/-- The signatory pipeline of TxV5.ConvertToV6 on one plain signature map
entry. -/
def convertPlainSig (kv : String × String) : Signature :=
  let newSig := match base64Decode kv.2 with
    | some bs => hexEncode bs
    | none => kv.2
  ⟨kv.1, newSig, "", ""⟩

/-- The sort.Slice ordering of TxV5.ConvertToV6: ascending by key. -/
def sigLe (a b : Signature) : Bool := decide (a.key ≤ b.key)

/-- The combined, sorted signatory list produced by TxV5.ConvertToV6 from
the witness's bootstrap entries and plain signature map. -/
def convertSignatories (bootstrap : List (List Char)) (sigs : List (String × String)) :
    List Signature :=
  List.insertionSort (fun a b => sigLe a b = true)
    ((bootstrap.map convertBootstrapSig) ++ (sigs.map convertPlainSig))

/-- TxInV5.ConvertToV6. -/
def txInV5ConvertToV6 (t : TxInV5) : TxIn := ⟨⟨t.txHash⟩, t.index⟩

/-- TxOutV5.ConvertToV6. -/
def txOutV5ConvertToV6 (t : TxOutV5) : TxOut :=
  ⟨t.address, t.datum, t.datumHash, valueV5ConvertToV6 t.value, t.script⟩

/-- TxV5.ConvertToV6. -/
def txV5ConvertToV6 (t : TxV5) : Tx :=
  let withdrawals := t.body.withdrawals.foldl
    (fun acc kv => insertA acc kv.1 (CreateAdaValue kv.2)) []
  let tc := t.body.totalCollateral.map CreateAdaValue
  let cr := t.body.collateralReturn.map txOutV5ConvertToV6
  let certificates := t.body.certificates.getD []
  let signatories := convertSignatories t.witness.bootstrap t.witness.signatures
  let cborHex := hexEncode (base64DecodeLoose t.raw)
  let mint := match t.body.mint with
    | some m => valueV5ConvertToV6 m
    | none => []
  { id := t.id
    spends := t.inputSource
    inputs := t.body.inputs.map txInV5ConvertToV6
    references := t.body.references.map txInV5ConvertToV6
    collaterals := t.body.collaterals.map txInV5ConvertToV6
    totalCollateral := tc
    collateralReturn := cr
    outputs := t.body.outputs.map txOutV5ConvertToV6
    certificates := some certificates
    withdrawals := withdrawals
    fee := CreateAdaValue (goInt64 t.body.fee)
    validityInterval :=
      ⟨t.body.validityInterval.invalidBefore, t.body.validityInterval.invalidHereafter⟩
    mint := mint
    network := t.body.network
    scriptIntegrityHash := t.body.scriptIntegrityHash
    requiredExtraSignatories := t.body.requiredExtraSignatures
    requiredExtraScripts := none
    proposals := t.body.update
    votes := none
    metadata := t.metadata
    signatories := signatories
    scripts := t.witness.scripts
    datums := t.witness.datums
    redeemers := t.witness.redeemers
    cbor := cborHex }

/-- RollForwardBlockV5.Era. -/
def rfbEra (b : RollForwardBlockV5) : String :=
  if b.shelley.isSome then "shelley"
  else if b.allegra.isSome then "allegra"
  else if b.mary.isSome then "mary"
  else if b.alonzo.isSome then "alonzo"
  else if b.babbage.isSome then "babbage"
  else "unknown"

/-- RollForwardBlockV5.GetNonByronBlock. -/
def rfbNonByron (b : RollForwardBlockV5) : Option BlockV5 :=
  if b.shelley.isSome then b.shelley
  else if b.allegra.isSome then b.allegra
  else if b.mary.isSome then b.mary
  else if b.alonzo.isSome then b.alonzo
  else if b.babbage.isSome then b.babbage
  else none

/-- A decoded map[string]interface{} member holds the nil interface when the
key is absent or its value was JSON null. -/
def isNilIface (o : Option Json) : Bool :=
  match o with
  | none => true
  | some .null => true
  | some _ => false

/-- RollForwardBlockV5.ConvertToV6.  The outer Option is a panic: the source
type-asserts the operational certificate's count and kesPeriod members to
float64 (and hotVk to string) without an ok-check, which panics when the
member is absent or of another kind.  The inner pair is the (Block, error)
result; a missing non-Byron block yields the zero block and an explicit
unsupported error that the callers ignore. -/
def rfbConvertToV6 (b : RollForwardBlockV5) : Option (Block × Option GoErr) :=
  match rfbNonByron b with
  | none => some (zeroBlock, some "byron blocks not supported")
  | some nbb =>
    let txArray := nbb.body.map txV5ConvertToV6
    let nonceOutput := lookupD nbb.header.nonce "output" ""
    let nonceProof := lookupD nbb.header.nonce "output" ""
    let nonce := if nonceOutput ≠ "" ∨ nonceProof ≠ "" then
        some (⟨nonceOutput, nonceProof⟩ : Nonce)
      else none
    let protocolVersion : ProtocolVersion :=
      ⟨intToUint32 (lookupD nbb.header.protocolVersion "major" 0),
       intToUint32 (lookupD nbb.header.protocolVersion "minor" 0),
       intToUint32 (lookupD nbb.header.protocolVersion "patch" 0)⟩
    let opCertRes : Option OpCertV6 :=
      match nbb.header.opCert with
      | none => some zeroOpCertV6
      | some oc =>
        let vkRes : Option GoBytes :=
          if isNilIface (lookupA oc "hotVk") then some []
          else
            match lookupA oc "hotVk" with
            | some (.str s) => some (base64DecodeLoose s)
            | _ => none
        match vkRes with
        | none => none
        | some vk =>
          match lookupA oc "count", lookupA oc "kesPeriod" with
          | some (.num count), some (.num kesPd) =>
            some ⟨floatToUint64 count, ⟨floatToUint64 kesPd, bytesToStr vk⟩⟩
          | _, _ => none
    match opCertRes with
    | none => none
    | some opCert =>
      let lvOutput : Option GoBytes := (lookupA nbb.header.leaderValue "output").getD none
      let lvProof : Option GoBytes := (lookupA nbb.header.leaderValue "proof").getD none
      let leaderValue : Option LeaderValue :=
        match lvOutput, lvProof with
        | some outBs, some proofBs =>
          some ⟨bytesToStr (base64DecodeLoose (bytesToStr outBs)),
                bytesToStr (base64DecodeLoose (bytesToStr proofBs))⟩
        | _, _ => none
      let issuerVrf := bytesToStr (base64DecodeLoose nbb.header.issuerVrf)
      let issuer : BlockIssuer := ⟨nbb.header.issuerVK, issuerVrf, opCert, leaderValue⟩
      some
        ({ type_ := "praos"
           era := rfbEra b
           id := nbb.headerHash
           ancestor := nbb.header.prevHash
           nonce := nonce
           height := nbb.header.blockHeight
           size := ⟨u64ToInt64 nbb.header.blockSize⟩
           slot := nbb.header.slot
           transactions := txArray
           protocol := ⟨protocolVersion⟩
           issuer := issuer }, none)

/-- ResultNextBlockV5.ConvertToV6 (the Byron conversion error is ignored by
the source, which uses the zero block it accompanies). -/
def rnbV5ConvertToV6 (r : ResultNextBlockV5) : Option ResultNextBlockPraos :=
  match r.rollForward with
  | some rf =>
    let tip := psV5ConvertToV6 rf.tip
    match rfbConvertToV6 rf.block with
    | none => none
    | some (block, _) => some ⟨"forward", some tip, some block, none⟩
  | none =>
    match r.rollBackward with
    | some rb =>
      some ⟨"backward", some (psV5ConvertToV6 rb.tip), none,
            some (pointV5ConvertToV6 rb.point)⟩
    | none => some zeroRNBP

/-- ResultFindIntersectionV5.ConvertToV6: a found intersection converts its
point and tip (dereferencing both pointers, so a nil one panics, modelled by
none); a not-found result synthesises the v6 error envelope with application
code 1000 and the JSON-encoded tip as the error payload. -/
def rfiV5ConvertToV6 (r : ResultFindIntersectionV5) : Option ResultFindIntersectionPraos :=
  match r.intersectionFound with
  | some f =>
    match f.point, f.tip with
    | some p, some t =>
      some ⟨some (pointV5ConvertToV6 p), some (psV5ConvertToV6 t), none, none⟩
    | _, _ => none
  | none =>
    match r.intersectionNotFound with
    | some nf =>
      match nf.tip with
      | some t =>
        let tip := psV5ConvertToV6 t
        let tipRaw := render (pointStructToJson tip)
        some ⟨none, some tip, some ⟨1000, "Intersection not found", some tipRaw, none⟩, none⟩
      | none => none
    | none => some zeroRFIP

/-- ResultFindIntersectionFromV6: a present intersection is rebuilt from the
intersection and tip pointers (a nil tip panics); otherwise a present error
recovers the v5 tip by unmarshalling the error payload into the v5 tip
shape with the error ignored, so an unparseable payload leaves the zero
tip. -/
def rfiFromV6 (rfi : ResultFindIntersectionPraos) : Option ResultFindIntersectionV5 :=
  match rfi.intersection with
  | some p =>
    match rfi.tip with
    | some t6 =>
      let tip : PointStructV5 := ⟨t6.height.getD 0, t6.id, t6.slot⟩
      some ⟨some ⟨some (pointFromV6 p), some tip⟩, none⟩
    | none => none
  | none =>
    match rfi.error with
    | some e =>
      let tip : PointStructV5 :=
        match e.data with
        | some d =>
          match parseJson d with
          | .ok j => (decPSV5 zeroPSV5 j).1
          | .error _ => zeroPSV5
        | none => zeroPSV5
      some ⟨none, some ⟨some tip⟩⟩
    | none => some zeroRFIV5

/-! ## Adaptive dual-schema decoders (compatibility/types.go) -/

/-- Outcome of a compatible wrapper's UnmarshalJSON: a successful decode, a
panic raised inside the v5 conversion, or a failure carrying both attempts'
errors. -/
inductive CompatResult (α : Type) where
  | ok (r : α)
  | panics
  | failed (e1 e2 : Option GoErr)

/-- CompatibleResultFindIntersection.UnmarshalJSON: try the v6 shape and
accept when the parse succeeded and the intersection or error discriminant
is present; otherwise try the v5 shape with its own discriminant and convert;
otherwise fail with both errors. -/
def unmarshalCompatibleRFI (data : List Char) : CompatResult ResultFindIntersectionPraos :=
  let att1 := goUnmarshalWith zeroRFIP decRFIP data
  if att1.2.isNone && (att1.1.intersection.isSome || att1.1.error.isSome) then .ok att1.1
  else
    let att2 := goUnmarshalWith zeroRFIV5 decRFIV5 data
    if att2.2.isNone && (att2.1.intersectionFound.isSome || att2.1.intersectionNotFound.isSome) then
      match rfiV5ConvertToV6 att2.1 with
      | some r => .ok r
      | none => .panics
    else .failed att1.2 att2.2

/-- CompatibleResultNextBlock.UnmarshalJSON: the v6 discriminant is a
non-empty direction, the v5 discriminant a populated roll variant. -/
def unmarshalCompatibleRNB (data : List Char) : CompatResult ResultNextBlockPraos :=
  let att1 := goUnmarshalWith zeroRNBP decRNBP data
  if att1.2.isNone && !(att1.1.direction == "") then .ok att1.1
  else
    let att2 := goUnmarshalWith zeroRNBV5 decRNBV5 data
    if att2.2.isNone && (att2.1.rollBackward.isSome || att2.1.rollForward.isSome) then
      match rnbV5ConvertToV6 att2.1 with
      | some r => .ok r
      | none => .panics
    else .failed att1.2 att2.2

/-! ## Chain-sync handshake builder (getInit) -/

/-- Point.MarshalJSON at tree level, for embedding points in a request. -/
def pointToJson : Point → Json
  | .ofString s => .str s
  | .ofStruct ps => pointStructToJson ps

/-- The candidate points of getInit: the stored points, else the
caller-supplied points, else the origin marker; sorted and capped at 5. -/
def getInitPoints (loaded pp : List Point) : List Point :=
  let points := loaded
  let points := if points.length = 0 then points ++ pp else points
  let points := if points.length = 0 then points ++ [originPoint] else points
  let points := sortPoints points
  if points.length > 5 then points.take 5 else points

/-- The findIntersection handshake request getInit marshals (a Go map
marshals with its keys in sorted order). -/
def getInitRequest (loaded pp : List Point) : Json :=
  .obj [("id", .obj [("step", .str "INIT")]),
        ("jsonrpc", .str "2.0"),
        ("method", .str "findIntersection"),
        ("params", .obj [("points", .arr ((getInitPoints loaded pp).map pointToJson))])]

/-! ## Mempool-monitor reader step (doMonitorMempool) -/

/-- The writer states of the mempool monitor. -/
inductive MonitorState where
  | acquireMempool
  | nextTransaction
deriving DecidableEq, Repr

/-- Outcome of one text frame in the mempool monitor's reader loop: either
the session terminates with the joined parse errors, or the loop continues
with updated accumulated transactions and slot, the next request to send,
and the callback invocation (if any) this frame triggered. -/
inductive MempoolStep where
  | fatal (e1 e2 : GoErr)
  | step (txs : List (Option Tx)) (slot : Nat) (req : MonitorState)
      (callbackArg : Option (List (Option Tx) × Nat))

/-- One text-frame iteration of doMonitorMempool's reader: unmarshal the
frame as both response shapes; if both fail the session returns an error
joining them; an acquireMempool response records the slot and requests the
next transaction; a nextTransaction response without a transaction fires the
callback with the accumulated list and re-acquires; anything else appends
the (possibly nil) transaction and keeps draining. -/
def mempoolReadStep (txs : List (Option Tx)) (slot : Nat) (data : List Char) : MempoolStep :=
  let acquireAtt := goUnmarshalWith zeroAMR decAMR data
  let nextAtt := goUnmarshalWith zeroNTR decNTR data
  if acquireAtt.2.isSome && nextAtt.2.isSome then
    .fatal (acquireAtt.2.getD "") (nextAtt.2.getD "")
  else if acquireAtt.1.method == "acquireMempool" && acquireAtt.2.isNone then
    .step txs acquireAtt.1.result.slot .nextTransaction none
  else if nextAtt.1.method == "nextTransaction" && nextAtt.1.result.transaction.isNone then
    .step [] slot .acquireMempool (some (txs, slot))
  else
    .step (txs ++ [nextAtt.1.result.transaction]) slot .nextTransaction none

/-! ## Auxiliary definitions used by the verification statements -/

/-- Decimal digits of a natural number as digit values, most significant
first (the digit-value counterpart of natChars). -/
def digitsOfNat (n : Nat) : List Nat :=
  if _h : n < 10 then [n] else digitsOfNat (n / 10) ++ [n % 10]
decreasing_by exact Nat.div_lt_self (by omega) (by omega)

/-- A continuation after a number token that ends the maximal digit munch
and carries no fraction or exponent marker (every continuation produced by
the compact renderer qualifies). -/
def numStop (rest : List Char) : Bool :=
  match rest with
  | [] => true
  | c :: _ => !(isDigit c) && !(c == '.') && !(c == 'e') && !(c == 'E')

/-- Whether a point is the structural variant. -/
def isStructPoint : Point → Bool
  | .ofStruct _ => true
  | .ofString _ => false

/-- Slots of the structural points of a list, in order. -/
def structSlots (pp : List Point) : List Nat :=
  pp.filterMap (fun p =>
    match p with
    | .ofStruct ps => some ps.slot
    | .ofString _ => none)

/-- Well-formedness of a dotted v5 asset identifier: a bare policy id or a
policy dot non-empty asset name (so exactly zero or one separator), spelled
out with the reconstruction equations splitting guarantees (splitting on the
separator and re-joining gives the identifier back). -/
def wfAssetKey (k : String) : Bool :=
  match splitOnDot k with
  | [p] => k == p
  | [p, n] => !(n == "") && (k == p ++ "." ++ n)
  | _ => false

/-- Well-formedness of a v5 Value payload: the scalar is a non-negative
coin amount below 2^64, the side map is a map (no duplicate keys), its keys
are well-formed dotted identifiers, and the native asset does not appear in
the side map (the v5 schema carries it in the scalar field). -/
def wfValueV5 (v : ValueV5) : Prop :=
  0 ≤ v.coins ∧ v.coins < 2 ^ 64 ∧
  (keysA v.assets).Nodup ∧
  ∀ kv ∈ v.assets, wfAssetKey kv.1 = true ∧ kv.1 ≠ "ada.lovelace"

/-- Whether a v6 value carries an explicit native-asset entry. -/
def hasAdaEntry (v : Value) : Bool := (lookup2 v AdaPolicy AdaAsset).isSome

/-- The policy part valueV5Step extracts from a dotted identifier. -/
def polOf (k : String) : String :=
  match splitOnDot k with
  | [] => ""
  | p :: _ => p

/-- The asset-name part valueV5Step extracts from a dotted identifier. -/
def nameOf (k : String) : String :=
  match splitOnDot k with
  | [_, n] => n
  | _ => ""

/-- The dotted identifier ValueFromV6 rebuilds from a policy and a name. -/
def reconKey (p a : String) : String :=
  if a ≠ "" then p ++ "." ++ a else p

/-- The leaf bindings of a nested v6 value, in iteration order. -/
def leaves (W : Value) : List (String × String × Int) :=
  W.flatMap (fun pe => pe.2.map (fun ae => (pe.1, ae.1, ae.2)))

/-- ValueFromV6's per-leaf accumulator step. -/
def vStep (acc : Int × List (AssetID × Int)) (l : String × String × Int) :
    Int × List (AssetID × Int) :=
  valueFromV6Step l.1 acc (l.2.1, l.2.2)

/-- First-some choice on options. -/
def optOr {α : Type} : Option α → Option α → Option α
  | some x, _ => some x
  | none, y => y

/-- The native-asset amounts among a leaf list, in order. -/
def adaAmts (L : List (String × String × Int)) : List Int :=
  L.filterMap (fun l =>
    if l.1 = AdaPolicy ∧ l.2.1 = AdaAsset then some l.2.2 else none)

/-- The amounts a leaf list contributes to a given rebuilt side-map key. -/
def keyAmts (L : List (String × String × Int)) (k : String) : List Int :=
  L.filterMap (fun l =>
    if l.1 = AdaPolicy ∧ l.2.1 = AdaAsset then none
    else if reconKey l.1 l.2.1 = k then some l.2.2 else none)

/-- Bounds making a Point representable with Go's uint64 fields. -/
def wfPoint : Point → Prop
  | .ofString _ => True
  | .ofStruct ps => ps.slot < 2 ^ 64 ∧ ∀ h ∈ ps.height, h < 2 ^ 64

/-! # Theorems

The remainder of the file proves the audited properties.  It begins with
general lemmas about the JSON renderer and parser (the round trip that
underlies the marshalling claims), then association-list lemmas for the
value model, and then the claims themselves. -/

/-! ## Character and digit lemmas -/

theorem charToNat_ofNat {n : Nat} (h : n < 55296) : (Char.ofNat n).toNat = n := by
  have hv : n.isValidChar := Or.inl h
  unfold Char.ofNat
  rw [dif_pos hv]
  show (Char.ofNatAux n hv).toNat = n
  simp [Char.ofNatAux, Char.toNat, UInt32.ofNat', UInt32.toNat, BitVec.toNat_ofNatLt]

theorem hexDigitVal_hexDigitChar : ∀ n, n < 16 → hexDigitVal (hexDigitChar n) = some n := by
  decide

theorem charEq_iff_toNat {a b : Char} : a = b ↔ a.toNat = b.toNat := by
  constructor
  · intro h; rw [h]
  · intro h
    apply Char.ext
    have hv : a.val.toNat = b.val.toNat := h
    exact UInt32.toNat.inj hv

theorem isDigit_toNat {c : Char} : isDigit c = true ↔ 48 ≤ c.toNat ∧ c.toNat ≤ 57 := by
  simp [isDigit]

theorem isWs_toNat {c : Char} : isWs c = true ↔ c.toNat = 32 ∨ c.toNat = 9 ∨ c.toNat = 10 ∨ c.toNat = 13 := by
  simp [isWs, charEq_iff_toNat]

theorem skipWs_not_ws {c : Char} {cs : List Char} (h : isWs c = false) :
    skipWs (c :: cs) = c :: cs := by
  simp [skipWs, h]

theorem hexDigitVal_zero : hexDigitVal '0' = some 0 := by decide

theorem div16_add_mod16 (n : Nat) : ((0 * 16 + 0) * 16 + n / 16) * 16 + n % 16 = n := by
  omega

theorem parseStrBody_step (f : Nat) (c : Char) (tl : List Char) (l rest : List Char)
    (ih : parseStrBody f tl = .ok (l, rest)) :
    parseStrBody (f + 1) (escapeChar c ++ tl) = .ok (c :: l, rest) := by
  by_cases h1 : c = '"'
  · subst h1
    rw [show escapeChar '"' = ['\\', '"'] from rfl]
    simp [parseStrBody, ih]
  · by_cases h2 : c = '\\'
    · subst h2
      rw [show escapeChar '\\' = ['\\', '\\'] from rfl]
      simp [parseStrBody, ih]
    · by_cases h3 : c = '\n'
      · subst h3
        rw [show escapeChar '\n' = ['\\', 'n'] from rfl]
        simp [parseStrBody, ih]
      · by_cases h4 : c = '\r'
        · subst h4
          rw [show escapeChar '\r' = ['\\', 'r'] from rfl]
          simp [parseStrBody, ih]
        · by_cases h5 : c = '\t'
          · subst h5
            rw [show escapeChar '\t' = ['\\', 't'] from rfl]
            simp [parseStrBody, ih]
          · by_cases h6 : c.toNat < 32 ∨ c = '<' ∨ c = '>' ∨ c = '&'
            · have hc256 : c.toNat < 256 := by
                rcases h6 with h | h | h | h
                · omega
                all_goals (subst h; decide)
              have hd1 : c.toNat / 16 < 16 := by omega
              have hd2 : c.toNat % 16 < 16 := by omega
              rw [show escapeChar c =
                    ['\\', 'u', '0', '0', hexDigitChar (c.toNat / 16), hexDigitChar (c.toNat % 16)] by
                  simp [escapeChar, h1, h2, h3, h4, h5, h6]]
              have hv1 := hexDigitVal_hexDigitChar _ hd1
              have hv2 := hexDigitVal_hexDigitChar _ hd2
              simp only [parseStrBody, List.cons_append, List.nil_append]
              simp only [hv1, hv2, hexDigitVal_zero]
              have hval : ((0 * 16 + 0) * 16 + c.toNat / 16) * 16 + c.toNat % 16 = c.toNat := by
                omega
              rw [hval]
              have hns1 : ¬(55296 ≤ c.toNat ∧ c.toNat < 56320) := by omega
              have hns2 : ¬(56320 ≤ c.toNat ∧ c.toNat < 57344) := by omega
              simp [hns1, hns2, ih, Char.ofNat_toNat]
            · by_cases h7 : c.toNat = 8232 ∨ c.toNat = 8233
              · have h16 : c.toNat % 16 < 16 := by omega
                rw [show escapeChar c = ['\\', 'u', '2', '0', '2', hexDigitChar (c.toNat % 16)] by
                    simp [escapeChar, h1, h2, h3, h4, h5, h6, h7]]
                have hv := hexDigitVal_hexDigitChar _ h16
                simp only [parseStrBody, List.cons_append, List.nil_append]
                simp only [show hexDigitVal '2' = some 2 from rfl,
                  show hexDigitVal '0' = some 0 from rfl, hv]
                have hval : ((2 * 16 + 0) * 16 + 2) * 16 + c.toNat % 16 = c.toNat := by omega
                rw [hval]
                have hns1 : ¬(55296 ≤ c.toNat ∧ c.toNat < 56320) := by omega
                have hns2 : ¬(56320 ≤ c.toNat ∧ c.toNat < 57344) := by omega
                simp [hns1, hns2, ih, Char.ofNat_toNat]
              · rw [show escapeChar c = [c] by simp [escapeChar, h1, h2, h3, h4, h5, h6, h7]]
                have hq : ¬(c.toNat < 32) := by
                  intro hlt
                  exact h6 (Or.inl hlt)
                simp [parseStrBody, h1, h2, hq, ih]

theorem escapeChar_length_pos (c : Char) : 1 ≤ (escapeChar c).length := by
  unfold escapeChar
  repeat' split
  all_goals simp

theorem escapeChars_length_ge : ∀ l : List Char, l.length ≤ (escapeChars l).length := by
  intro l
  induction l with
  | nil => simp [escapeChars]
  | cons c tl ih =>
    have := escapeChar_length_pos c
    simp only [escapeChars, List.length_append, List.length_cons]
    omega

theorem parseStrBody_escape : ∀ (l rest : List Char) (fuel : Nat), l.length < fuel →
    parseStrBody fuel (escapeChars l ++ '"' :: rest) = .ok (l, rest) := by
  intro l
  induction l with
  | nil =>
    intro rest fuel h
    match fuel, h with
    | f + 1, _ => simp [escapeChars, parseStrBody]
  | cons c tl ih =>
    intro rest fuel h
    match fuel, h with
    | f + 1, h =>
      have hf : tl.length < f := by
        simp only [List.length_cons] at h
        omega
      have ihf := ih rest f hf
      rw [show escapeChars (c :: tl) = escapeChar c ++ escapeChars tl from rfl,
          List.append_assoc]
      exact parseStrBody_step f c _ tl rest ihf

theorem parseStr_escape (l rest : List Char) :
    parseStr (escapeChars l ++ '"' :: rest) = .ok (l, rest) := by
  unfold parseStr
  apply parseStrBody_escape
  have h1 := escapeChars_length_ge l
  simp only [List.length_append, List.length_cons]
  omega

theorem renderStr_parse (s : String) (rest : List Char) :
    renderStr s ++ rest = '"' :: (escapeChars s.data ++ '"' :: rest) := by
  simp [renderStr]

/-! ## Number rendering and parsing lemmas -/

theorem natCharsFuel_eq : ∀ (fuel n : Nat), n < fuel →
    natCharsFuel fuel n = (digitsOfNat n).map (fun d => Char.ofNat (48 + d)) := by
  intro fuel
  induction fuel with
  | zero => intro n h; omega
  | succ fuel ih =>
    intro n h
    rw [natCharsFuel, digitsOfNat]
    by_cases h10 : n < 10
    · simp [h10]
    · rw [if_neg h10, dif_neg h10, ih (n / 10) (by omega)]
      simp

theorem natChars_eq : ∀ n, natChars n = (digitsOfNat n).map (fun d => Char.ofNat (48 + d)) :=
  fun n => natCharsFuel_eq (n + 1) n (by omega)

theorem digitsOfNat_lt : ∀ n, ∀ d ∈ digitsOfNat n, d < 10 := by
  intro n
  induction n using Nat.strong_induction_on with
  | _ n ih =>
    rw [digitsOfNat]
    by_cases h : n < 10
    · simp [h]
    · rw [dif_neg h]
      intro d hd
      rcases List.mem_append.mp hd with hmem | hmem
      · exact ih (n / 10) (Nat.div_lt_self (by omega) (by omega)) d hmem
      · simp at hmem
        omega

theorem digitsOfNat_ne_nil (n : Nat) : digitsOfNat n ≠ [] := by
  rw [digitsOfNat]
  by_cases h : n < 10 <;> simp [h]

theorem digitsVal_append_last (ds : List Nat) (d : Nat) :
    digitsVal (ds ++ [d]) = 10 * digitsVal ds + d := by
  simp [digitsVal, List.foldl_append]

theorem digitsVal_digitsOfNat : ∀ n, digitsVal (digitsOfNat n) = n := by
  intro n
  induction n using Nat.strong_induction_on with
  | _ n ih =>
    rw [digitsOfNat]
    by_cases h : n < 10
    · simp [h, digitsVal]
    · rw [dif_neg h, digitsVal_append_last,
          ih (n / 10) (Nat.div_lt_self (by omega) (by omega))]
      omega

theorem digitsOfNat_head_nz : ∀ n, n ≠ 0 → ∀ d tl, digitsOfNat n = d :: tl → d ≠ 0 := by
  intro n
  induction n using Nat.strong_induction_on with
  | _ n ih =>
    intro hn d tl heq
    rw [digitsOfNat] at heq
    by_cases h : n < 10
    · rw [dif_pos h] at heq
      simp at heq
      omega
    · rw [dif_neg h] at heq
      obtain ⟨d0, tl0, h0⟩ : ∃ d0 tl0, digitsOfNat (n / 10) = d0 :: tl0 := by
        cases hh : digitsOfNat (n / 10) with
        | nil => exact absurd hh (digitsOfNat_ne_nil _)
        | cons a b => exact ⟨a, b, rfl⟩
      rw [h0] at heq
      simp at heq
      have := ih (n / 10) (Nat.div_lt_self (by omega) (by omega)) (by omega) d0 tl0 h0
      omega

theorem takeDigits_map : ∀ (ds : List Nat) (rest : List Char),
    (∀ d ∈ ds, d < 10) →
    (∀ c, rest.head? = some c → isDigit c = false) →
    takeDigits (ds.map (fun d => Char.ofNat (48 + d)) ++ rest) = (ds, rest) := by
  intro ds
  induction ds with
  | nil =>
    intro rest _ hrest
    cases rest with
    | nil => simp [takeDigits]
    | cons c tl =>
      have := hrest c (by simp)
      simp [takeDigits, this]
  | cons d tl ih =>
    intro rest hds hrest
    have hd10 : d < 10 := hds d (by simp)
    have htn : (Char.ofNat (48 + d)).toNat = 48 + d := charToNat_ofNat (by omega)
    have hdig : isDigit (Char.ofNat (48 + d)) = true := by
      rw [isDigit_toNat, htn]
      omega
    simp only [List.map_cons, List.cons_append, takeDigits, hdig, if_pos, List.append_eq]
    rw [ih rest (fun x hx => hds x (by simp [hx])) hrest]
    simp [htn]

theorem natChars_head_digit (n : Nat) : ∀ c tl, natChars n = c :: tl →
    isDigit c = true ∧ 48 ≤ c.toNat ∧ c.toNat ≤ 57 := by
  intro c tl heq
  rw [natChars_eq] at heq
  obtain ⟨d0, tl0, h0⟩ : ∃ d0 tl0, digitsOfNat n = d0 :: tl0 := by
    cases hh : digitsOfNat n with
    | nil => exact absurd hh (digitsOfNat_ne_nil _)
    | cons a b => exact ⟨a, b, rfl⟩
  rw [h0] at heq
  simp at heq
  have hd10 : d0 < 10 := digitsOfNat_lt n d0 (by simp [h0])
  have htn : (Char.ofNat (48 + d0)).toNat = 48 + d0 := charToNat_ofNat (by omega)
  have hc : c = Char.ofNat (48 + d0) := heq.1.symm
  subst hc
  rw [isDigit_toNat, htn]
  omega

theorem natChars_ne_nil (n : Nat) : natChars n ≠ [] := by
  rw [natChars_eq]
  have := digitsOfNat_ne_nil n
  simp [this]

theorem parseNumAfterSign_natChars (neg : Bool) (n : Nat) (rest : List Char)
    (hstop : numStop rest = true) :
    parseNumAfterSign neg (natChars n ++ rest) =
      .ok (if neg then -(n : Int) else (n : Int), rest) := by
  have hrest : ∀ c, rest.head? = some c → isDigit c = false := by
    intro c hc
    cases rest with
    | nil => simp at hc
    | cons r tl =>
      simp at hc
      subst hc
      simp only [numStop, Bool.and_eq_true, Bool.not_eq_true'] at hstop
      exact hstop.1.1.1
  obtain ⟨d0, tl0, h0⟩ : ∃ d0 tl0, digitsOfNat n = d0 :: tl0 := by
    cases hh : digitsOfNat n with
    | nil => exact absurd hh (digitsOfNat_ne_nil _)
    | cons a b => exact ⟨a, b, rfl⟩
  have htake : takeDigits (natChars n ++ rest) = (digitsOfNat n, rest) := by
    rw [natChars_eq]
    exact takeDigits_map _ _ (digitsOfNat_lt n) hrest
  have hlz : ¬(d0 = 0 ∧ tl0 ≠ []) := by
    intro ⟨hz, hne⟩
    by_cases hn0 : n = 0
    · subst hn0
      have hdz : digitsOfNat 0 = [0] := by
        rw [digitsOfNat]
        simp
      rw [hdz] at h0
      injection h0 with ha hb
      exact hne hb.symm
    · exact digitsOfNat_head_nz n hn0 d0 tl0 h0 hz
  have hval : digitsVal (d0 :: tl0) = n := by rw [← h0, digitsVal_digitsOfNat]
  unfold parseNumAfterSign
  rw [htake, h0]
  split
  · rename_i heq
    exfalso
    injection heq with ha hb
    simp at ha
  rename_i d ds rest2 heq
  injection heq with ha hb
  injection ha with ha1 ha2
  subst ha1
  subst ha2
  subst hb
  rw [if_neg hlz]
  split
  · simp [numStop, isDigit] at hstop
  · simp [numStop, isDigit] at hstop
  · simp [numStop, isDigit] at hstop
  · rw [hval]

theorem parseNum_intChars (n : Int) (rest : List Char) (hstop : numStop rest = true) :
    parseNum (intChars n ++ rest) = .ok (n, rest) := by
  by_cases hneg : n < 0
  · rw [show intChars n = '-' :: natChars n.natAbs by simp [intChars, hneg]]
    simp only [List.cons_append]
    simp only [parseNum, if_true]
    rw [parseNumAfterSign_natChars true n.natAbs rest hstop]
    have habs : ((n.natAbs : Int)) = -n := Int.ofNat_natAbs_of_nonpos (by omega)
    simp [habs]
  · rw [show intChars n = natChars n.toNat by simp [intChars, hneg]]
    obtain ⟨c0, ctl, hc0⟩ : ∃ c0 ctl, natChars n.toNat = c0 :: ctl := by
      cases hh : natChars n.toNat with
      | nil => exact absurd hh (natChars_ne_nil _)
      | cons a b => exact ⟨a, b, rfl⟩
    have hhead := natChars_head_digit n.toNat c0 ctl hc0
    have hnotminus : c0 ≠ '-' := by
      intro hcontra
      rw [hcontra] at hhead
      exact absurd hhead.1 (by decide)
    rw [hc0]
    simp only [List.cons_append]
    simp only [parseNum]
    rw [if_neg hnotminus]
    rw [show c0 :: (ctl ++ rest) = natChars n.toNat ++ rest by rw [hc0]; simp]
    rw [parseNumAfterSign_natChars false n.toNat rest hstop]
    simp [Int.toNat_of_nonneg (by omega : (0 : Int) ≤ n)]

/-! ## Render head analysis and the value round trip -/

theorem numStop_comma (rest : List Char) : numStop (',' :: rest) = true := by
  simp [numStop, isDigit]

theorem numStop_rbrace (rest : List Char) : numStop ('\x7d' :: rest) = true := by
  simp [numStop, isDigit]

theorem numStop_rbracket (rest : List Char) : numStop (']' :: rest) = true := by
  simp [numStop, isDigit]

theorem intChars_head (n : Int) : ∃ c cs, intChars n = c :: cs ∧
    (c.toNat = 45 ∨ (48 ≤ c.toNat ∧ c.toNat ≤ 57)) := by
  by_cases h : n < 0
  · refine ⟨'-', natChars n.natAbs, by simp [intChars, h], Or.inl (by decide)⟩
  · rw [show intChars n = natChars n.toNat by simp [intChars, h]]
    obtain ⟨c0, ctl, hc0⟩ : ∃ c0 ctl, natChars n.toNat = c0 :: ctl := by
      cases hh : natChars n.toNat with
      | nil => exact absurd hh (natChars_ne_nil _)
      | cons a b => exact ⟨a, b, rfl⟩
    have hf := natChars_head_digit n.toNat c0 ctl hc0
    exact ⟨c0, ctl, hc0, Or.inr ⟨hf.2.1, hf.2.2⟩⟩

theorem render_head (j : Json) : ∃ c cs, render j = c :: cs ∧
    (c.toNat = 45 ∨ (48 ≤ c.toNat ∧ c.toNat ≤ 57) ∨ c.toNat = 110 ∨ c.toNat = 116 ∨
     c.toNat = 102 ∨ c.toNat = 34 ∨ c.toNat = 91 ∨ c.toNat = 123) := by
  cases j with
  | null => exact ⟨'n', _, rfl, by decide⟩
  | bool b =>
    cases b with
    | true => exact ⟨'t', _, rfl, by decide⟩
    | false => exact ⟨'f', _, rfl, by decide⟩
  | num n =>
    obtain ⟨c, cs, hc, hf⟩ := intChars_head n
    exact ⟨c, cs, hc, by rcases hf with h | h; exact Or.inl h; exact Or.inr (Or.inl h)⟩
  | str s => exact ⟨'"', _, rfl, by decide⟩
  | arr xs => exact ⟨'[', _, rfl, by decide⟩
  | obj kvs => exact ⟨'\x7b', _, rfl, by decide⟩

theorem render_length_pos (j : Json) : 1 ≤ (render j).length := by
  obtain ⟨c, cs, hc, _⟩ := render_head j
  rw [hc]
  simp

theorem parse_render_all : ∀ fuel : Nat,
    (∀ j rest, (render j).length < fuel → numStop rest = true →
      parseVal fuel (render j ++ rest) = .ok (j, rest)) ∧
    (∀ kvs rest, kvs ≠ [] → (renderFields kvs).length + 1 < fuel →
      parseMembers fuel (renderFields kvs ++ '\x7d' :: rest) = .ok (.obj kvs, rest)) ∧
    (∀ xs rest, xs ≠ [] → (renderItems xs).length + 1 < fuel →
      parseElems fuel (renderItems xs ++ ']' :: rest) = .ok (.arr xs, rest)) := by
  intro fuel
  induction fuel using Nat.strong_induction_on with
  | _ fuel ih =>
    refine ⟨?_, ?_, ?_⟩
    · intro j rest hlen hstop
      obtain ⟨f, rfl⟩ : ∃ f, fuel = f + 1 := by
        have := render_length_pos j
        cases fuel with
        | zero => omega
        | succ f => exact ⟨f, rfl⟩
      cases j with
      | null =>
        simp [render, parseVal, skipWs, isWs, String.data]
      | bool b =>
        cases b with
        | true => simp [render, parseVal, skipWs, isWs, String.data]
        | false => simp [render, parseVal, skipWs, isWs, String.data]
      | num n =>
        rw [show render (.num n) = intChars n from rfl]
        obtain ⟨c0, ctl, hc0, hcf⟩ := intChars_head n
        rw [hc0]
        simp only [List.cons_append]
        have hws : isWs c0 = false := by
          rw [Bool.eq_false_iff]
          intro hcontra
          rw [isWs_toNat] at hcontra
          omega
        have hq : c0 ≠ '"' := by
          intro hcontra
          rw [hcontra] at hcf
          revert hcf
          decide
        have hbrace : c0 ≠ '\x7b' := by
          intro hcontra
          rw [hcontra] at hcf
          revert hcf
          decide
        have hbrack : c0 ≠ '[' := by
          intro hcontra
          rw [hcontra] at hcf
          revert hcf
          decide
        simp only [parseVal, skipWs, hws, Bool.false_eq_true, if_false, if_neg hq,
          if_neg hbrace, if_neg hbrack]
        have hback : c0 :: (ctl ++ rest) = intChars n ++ rest := by rw [hc0]; simp
        split
        · rename_i heq
          exfalso
          injection heq with ha _
          rw [ha] at hcf
          simp at hcf
        · rename_i heq
          exfalso
          injection heq with ha _
          rw [ha] at hcf
          simp at hcf
        · rename_i heq
          exfalso
          injection heq with ha _
          rw [ha] at hcf
          simp at hcf
        · rw [hback, parseNum_intChars n rest hstop]
      | str s =>
        obtain ⟨sd⟩ := s
        rw [show render (.str (String.mk sd)) ++ rest =
            '"' :: (escapeChars sd ++ '"' :: rest) by simp [render, renderStr]]
        have hws2 : isWs '"' = false := by decide
        simp only [parseVal, skipWs_not_ws hws2]
        simp only [if_true, if_false, parseStr_escape]
      | arr xs =>
        rw [show render (.arr xs) ++ rest = '[' :: (renderItems xs ++ ']' :: rest) by
          simp [render]]
        have hws2 : isWs '[' = false := by decide
        simp only [parseVal, skipWs_not_ws hws2]
        simp only [if_true, if_false]
        cases xs with
        | nil => simp [renderItems, parseArrBody, skipWs, isWs]
        | cons x tl =>
          obtain ⟨c0, cs0, hc0, hcf⟩ := render_head x
          have hws0 : isWs c0 = false := by
            rw [Bool.eq_false_iff]
            intro hcontra
            rw [isWs_toNat] at hcontra
            omega
          have hne93 : c0 ≠ ']' := by
            intro hcontra
            rw [hcontra] at hcf
            revert hcf
            decide
          obtain ⟨TL, hTL⟩ : ∃ TL, renderItems (x :: tl) ++ ']' :: rest = c0 :: TL := by
            cases tl with
            | nil => exact ⟨cs0 ++ ']' :: rest, by simp [renderItems, hc0]⟩
            | cons y ytl =>
              exact ⟨cs0 ++ ',' :: renderItems (y :: ytl) ++ ']' :: rest,
                by simp [renderItems, hc0]⟩
          rw [hTL, skipWs_not_ws hws0]
          rw [if_neg (show ¬((c0 :: TL).headD 'x' = ']') by
            simp only [List.headD_cons]
            exact hne93)]
          rw [← hTL]
          refine (ih f (by omega)).2.2 (x :: tl) rest (by simp) ?_
          have hre : (render (.arr (x :: tl))).length = (renderItems (x :: tl)).length + 2 := by
            simp [render]
          omega
      | obj kvs =>
        rw [show render (.obj kvs) ++ rest = '\x7b' :: (renderFields kvs ++ '\x7d' :: rest) by
          simp [render]]
        have hws2 : isWs '\x7b' = false := by decide
        simp only [parseVal, skipWs_not_ws hws2]
        simp only [if_true, if_false]
        cases kvs with
        | nil => simp [renderFields, parseObjBody, skipWs, isWs]
        | cons kv mtl =>
          obtain ⟨k, v⟩ := kv
          have hq2 : isWs '"' = false := by decide
          obtain ⟨TL, hTL⟩ : ∃ TL,
              renderFields ((k, v) :: mtl) ++ '\x7d' :: rest = '"' :: TL := by
            cases mtl with
            | nil =>
              exact ⟨escapeChars k.data ++ '"' :: ':' :: (render v ++ '\x7d' :: rest),
                by simp [renderFields, renderStr]⟩
            | cons m2 mtl2 =>
              exact ⟨escapeChars k.data ++
                  '"' :: ':' :: (render v ++ ',' :: renderFields (m2 :: mtl2) ++ '\x7d' :: rest),
                by simp [renderFields, renderStr]⟩
          rw [hTL, skipWs_not_ws hq2]
          rw [if_neg (show ¬((('"' : Char) :: TL).headD 'x' = '\x7d') by
            simp only [List.headD_cons]
            decide)]
          rw [← hTL]
          refine (ih f (by omega)).2.1 ((k, v) :: mtl) rest (by simp) ?_
          have hre : (render (.obj ((k, v) :: mtl))).length =
              (renderFields ((k, v) :: mtl)).length + 2 := by
            simp [render]
          omega
    · intro kvs rest hne hlen
      obtain ⟨f, rfl⟩ : ∃ f, fuel = f + 1 := by
        cases fuel with
        | zero => omega
        | succ f => exact ⟨f, rfl⟩
      cases kvs with
      | nil => exact absurd rfl hne
      | cons kv ftl =>
        obtain ⟨k, v⟩ := kv
        obtain ⟨kd⟩ := k
        have hsklen : (renderStr (String.mk kd)).length = (escapeChars kd).length + 2 := by
          simp [renderStr]
        cases ftl with
        | nil =>
          have h1 : (renderFields [(String.mk kd, v)]).length =
              (renderStr (String.mk kd)).length + 1 + (render v).length := by
            simp only [renderFields, List.length_append, List.length_cons]
            omega
          have hlenv : (render v).length < f := by omega
          have hv := (ih f (by omega)).1 v ('\x7d' :: rest) hlenv (numStop_rbrace rest)
          simp only [renderFields, renderStr, List.cons_append, List.append_assoc,
            List.nil_append]
          simp only [parseMembers]
          simp [skipWs, isWs, parseStr_escape, hv]
        | cons kv2 ftl2 =>
          have h1 : (renderFields ((String.mk kd, v) :: kv2 :: ftl2)).length =
              (renderStr (String.mk kd)).length + 1 + (render v).length + 1 +
                (renderFields (kv2 :: ftl2)).length := by
            simp only [renderFields, List.length_append, List.length_cons]
            omega
          have hpv := render_length_pos v
          have hv := (ih f (by omega)).1 v
            (',' :: (renderFields (kv2 :: ftl2) ++ '\x7d' :: rest)) (by omega)
            (numStop_comma _)
          have hm := (ih f (by omega)).2.1 (kv2 :: ftl2) rest (by simp) (by omega)
          simp only [renderFields, renderStr, List.cons_append, List.append_assoc,
            List.nil_append]
          simp only [parseMembers]
          simp [skipWs, isWs, parseStr_escape, hv, hm]
    · intro xs rest hne hlen
      obtain ⟨f, rfl⟩ : ∃ f, fuel = f + 1 := by
        cases fuel with
        | zero => omega
        | succ f => exact ⟨f, rfl⟩
      cases xs with
      | nil => exact absurd rfl hne
      | cons x tl =>
        cases tl with
        | nil =>
          have h1 : renderItems [x] = render x := rfl
          rw [h1] at hlen
          have hlenx : (render x).length < f := by omega
          have hv := (ih f (by omega)).1 x (']' :: rest) hlenx (numStop_rbracket rest)
          simp only [renderItems]
          simp only [parseElems]
          simp [hv, skipWs, isWs]
        | cons y ytl =>
          have h1 : (renderItems (x :: y :: ytl)).length =
              (render x).length + 1 + (renderItems (y :: ytl)).length := by
            simp only [renderItems, List.length_append, List.length_cons]
            omega
          have hpx := render_length_pos x
          have hv := (ih f (by omega)).1 x
            (',' :: (renderItems (y :: ytl) ++ ']' :: rest)) (by omega) (numStop_comma _)
          have he := (ih f (by omega)).2.2 (y :: ytl) rest (by simp) (by omega)
          simp only [renderItems, List.cons_append, List.append_assoc]
          simp only [parseElems]
          simp [hv, he, skipWs, isWs]

/-- Parsing a compact rendering recovers the original JSON value. -/
theorem parseJson_render (j : Json) : parseJson (render j) = .ok j := by
  have h := (parse_render_all ((render j).length + 2)).1 j [] (by omega) rfl
  rw [show render j ++ ([] : List Char) = render j by simp] at h
  simp [parseJson, h, skipWs]

/-! ## Association-list lemmas -/

theorem lookupA_insertA {α : Type} (l : List (String × α)) (k k' : String) (v : α) :
    lookupA (insertA l k v) k' = if k = k' then some v else lookupA l k' := by
  induction l with
  | nil => simp [insertA, lookupA]
  | cons hd tl ih =>
    obtain ⟨hk, hv⟩ := hd
    by_cases h : hk = k
    · subst h
      simp only [insertA, if_pos rfl, lookupA]
      by_cases h2 : hk = k' <;> simp [h2]
    · simp only [insertA, if_neg h, lookupA]
      by_cases h2 : hk = k'
      · subst h2
        rw [if_pos rfl, if_pos rfl, if_neg (fun hc => h hc.symm)]
      · rw [if_neg h2, if_neg h2, ih]

theorem insertA_of_lookupA_none {α : Type} (l : List (String × α)) (k : String) (v : α)
    (h : lookupA l k = none) : insertA l k v = l ++ [(k, v)] := by
  induction l with
  | nil => rfl
  | cons hd tl ih =>
    obtain ⟨hk, hv⟩ := hd
    simp only [lookupA] at h
    by_cases h2 : hk = k
    · rw [if_pos h2] at h
      exact absurd h (by simp)
    · rw [if_neg h2] at h
      simp only [insertA, if_neg h2, List.cons_append, ih h]

theorem lookupA_eq_some_split {α : Type} (l : List (String × α)) (k : String) (x : α)
    (h : lookupA l k = some x) :
    ∃ l1 l2, l = l1 ++ (k, x) :: l2 ∧ lookupA l1 k = none := by
  induction l with
  | nil => simp [lookupA] at h
  | cons hd tl ih =>
    obtain ⟨hk, hv⟩ := hd
    simp only [lookupA] at h
    by_cases h2 : hk = k
    · rw [if_pos h2] at h
      subst h2
      injection h with h
      subst h
      exact ⟨[], tl, rfl, rfl⟩
    · rw [if_neg h2] at h
      obtain ⟨l1, l2, heq, hn⟩ := ih h
      exact ⟨(hk, hv) :: l1, l2, by rw [heq]; rfl,
        by simp only [lookupA, if_neg h2]; exact hn⟩

theorem insertA_middle {α : Type} (l1 l2 : List (String × α)) (k : String) (x v : α)
    (h : lookupA l1 k = none) :
    insertA (l1 ++ (k, x) :: l2) k v = l1 ++ (k, v) :: l2 := by
  induction l1 with
  | nil => simp [insertA]
  | cons hd tl ih =>
    obtain ⟨hk, hv⟩ := hd
    simp only [lookupA] at h
    by_cases h2 : hk = k
    · rw [if_pos h2] at h
      exact absurd h (by simp)
    · rw [if_neg h2] at h
      simp only [List.cons_append, insertA, if_neg h2, List.append_eq, ih h]

theorem lookupA_mem {α : Type} (l : List (String × α)) (k : String) (v : α)
    (h : lookupA l k = some v) : (k, v) ∈ l := by
  induction l with
  | nil => simp [lookupA] at h
  | cons hd tl ih =>
    obtain ⟨hk, hv⟩ := hd
    simp only [lookupA] at h
    by_cases h2 : hk = k
    · rw [if_pos h2] at h
      subst h2
      injection h with h
      subst h
      exact List.mem_cons_self _ _
    · rw [if_neg h2] at h
      exact List.mem_cons_of_mem _ (ih h)

theorem lookupA_eq_none_iff {α : Type} (l : List (String × α)) (k : String) :
    lookupA l k = none ↔ k ∉ keysA l := by
  induction l with
  | nil => simp [lookupA, keysA]
  | cons hd tl ih =>
    obtain ⟨hk, hv⟩ := hd
    simp only [lookupA, keysA, List.map_cons, List.mem_cons]
    by_cases h2 : hk = k
    · subst h2
      simp
    · rw [if_neg h2]
      simp only [keysA] at ih
      rw [ih]
      constructor
      · intro h hc
        rcases hc with hc | hc
        · exact h2 hc.symm
        · exact h hc
      · intro h hc
        exact h (Or.inr hc)

/-! ## Leaf-level view of nested values -/

theorem leaves_append (a b : Value) : leaves (a ++ b) = leaves a ++ leaves b := by
  simp [leaves]

theorem leaves_cons (p : String) (inner : List (String × Int)) (tl : Value) :
    leaves ((p, inner) :: tl) =
      inner.map (fun ae => (p, ae.1, ae.2)) ++ leaves tl := by
  simp [leaves]

theorem fromV6_fold_leaves : ∀ (W : Value) (acc : Int × List (AssetID × Int)),
    W.foldl (fun acc pe => pe.2.foldl (valueFromV6Step pe.1) acc) acc =
      (leaves W).foldl vStep acc := by
  intro W
  induction W with
  | nil => intro acc; simp [leaves]
  | cons pe tl ih =>
    intro acc
    obtain ⟨p, inner⟩ := pe
    rw [List.foldl_cons, ih, leaves_cons, List.foldl_append, List.foldl_map]
    rfl

theorem ValueFromV6_eq (W : Value) :
    ValueFromV6 W =
      ⟨((leaves W).foldl vStep ((0 : Int), ([] : List (AssetID × Int)))).1,
       ((leaves W).foldl vStep ((0 : Int), ([] : List (AssetID × Int)))).2⟩ := by
  unfold ValueFromV6
  rw [fromV6_fold_leaves]

theorem vStep_eq (acc : Int × List (AssetID × Int)) (p a : String) (x : Int) :
    vStep acc (p, a, x) =
      if p = AdaPolicy ∧ a = AdaAsset then (x, acc.2)
      else (acc.1, insertA acc.2 (reconKey p a) x) := rfl

theorem getLast?_cons_getD {α : Type} (x d : α) (xs : List α) :
    ((x :: xs).getLast?).getD d = (xs.getLast?).getD x := by
  cases xs with
  | nil => rfl
  | cons y ys =>
    rw [List.getLast?_cons_cons]
    cases hh : (y :: ys).getLast? with
    | none => exact absurd (List.getLast?_eq_none_iff.mp hh) (by simp)
    | some z => rfl

theorem optOr_none_right {α : Type} (x : Option α) : optOr x none = x := by
  cases x <;> rfl

theorem foldl_vStep_fst : ∀ (L : List (String × String × Int))
    (acc : Int × List (AssetID × Int)),
    (L.foldl vStep acc).1 = ((adaAmts L).getLast?).getD acc.1 := by
  intro L
  induction L with
  | nil => intro acc; simp [adaAmts]
  | cons l L ih =>
    intro acc
    obtain ⟨p, a, x⟩ := l
    rw [List.foldl_cons, vStep_eq]
    by_cases h : p = AdaPolicy ∧ a = AdaAsset
    · rw [if_pos h, ih]
      obtain ⟨hp, ha⟩ := h
      subst hp
      subst ha
      have hada : adaAmts ((AdaPolicy, AdaAsset, x) :: L) = x :: adaAmts L := by
        simp [adaAmts, List.filterMap_cons]
      rw [hada, getLast?_cons_getD]
    · rw [if_neg h, ih]
      have hada : adaAmts ((p, a, x) :: L) = adaAmts L := by
        simp [adaAmts, List.filterMap_cons, if_neg h]
      rw [hada]

theorem foldl_vStep_lookup : ∀ (L : List (String × String × Int))
    (acc : Int × List (AssetID × Int)) (k' : String),
    lookupA ((L.foldl vStep acc).2) k' =
      optOr ((keyAmts L k').getLast?) (lookupA acc.2 k') := by
  intro L
  induction L with
  | nil => intro acc k'; simp [keyAmts, optOr]
  | cons l L ih =>
    intro acc k'
    obtain ⟨p, a, x⟩ := l
    rw [List.foldl_cons, vStep_eq]
    by_cases h : p = AdaPolicy ∧ a = AdaAsset
    · rw [if_pos h, ih]
      have hk : keyAmts ((p, a, x) :: L) k' = keyAmts L k' := by
        simp [keyAmts, List.filterMap_cons, if_pos h]
      rw [hk]
    · rw [if_neg h, ih]
      by_cases h2 : reconKey p a = k'
      · have hk : keyAmts ((p, a, x) :: L) k' = x :: keyAmts L k' := by
          simp [keyAmts, List.filterMap_cons, if_neg h, if_pos h2]
        rw [hk]
        show optOr ((keyAmts L k').getLast?) (lookupA (insertA acc.2 (reconKey p a) x) k') = _
        rw [lookupA_insertA, if_pos h2]
        cases hh : keyAmts L k' with
        | nil => simp [optOr]
        | cons y ys =>
          rw [List.getLast?_cons_cons]
          cases hhh : (y :: ys).getLast? with
          | none => exact absurd (List.getLast?_eq_none_iff.mp hhh) (by simp)
          | some z => simp [optOr]
      · have hk : keyAmts ((p, a, x) :: L) k' = keyAmts L k' := by
          simp [keyAmts, List.filterMap_cons, if_neg h, if_neg h2]
        rw [hk]
        show optOr ((keyAmts L k').getLast?) (lookupA (insertA acc.2 (reconKey p a) x) k') = _
        rw [lookupA_insertA, if_neg h2]

theorem lookup2_mem_leaves (W : Value) (p a : String) (x : Int)
    (h : lookup2 W p a = some x) : (p, a, x) ∈ leaves W := by
  unfold lookup2 at h
  cases hp : lookupA W p with
  | none => rw [hp] at h; simp at h
  | some inner =>
    rw [hp] at h
    simp only [Option.some_bind] at h
    have hmem := lookupA_mem inner a x h
    have hpm := lookupA_mem W p inner hp
    unfold leaves
    rw [List.mem_flatMap]
    exact ⟨(p, inner), hpm, by rw [List.mem_map]; exact ⟨(a, x), hmem, rfl⟩⟩

theorem leaves_insert2_fresh (W : Value) (p a : String) (x : Int)
    (h : lookup2 W p a = none) :
    List.Perm (leaves (insert2 W p a x)) ((p, a, x) :: leaves W) := by
  cases hp : lookupA W p with
  | none =>
    have hins : insert2 W p a x = W ++ [(p, [(a, x)])] := by
      unfold insert2
      rw [hp]
      exact insertA_of_lookupA_none W p _ hp
    rw [hins, leaves_append]
    have h1 : leaves [(p, [(a, x)])] = [(p, a, x)] := by simp [leaves]
    rw [h1]
    exact List.perm_append_singleton _ _
  | some inner =>
    have ha : lookupA inner a = none := by
      unfold lookup2 at h
      rw [hp] at h
      simpa using h
    obtain ⟨w1, w2, hw, hw1⟩ := lookupA_eq_some_split W p inner hp
    have hins : insert2 W p a x = w1 ++ (p, inner ++ [(a, x)]) :: w2 := by
      unfold insert2
      rw [hp]
      show insertA W p (insertA inner a x) = _
      rw [insertA_of_lookupA_none inner a x ha, hw, insertA_middle w1 w2 p inner _ hw1]
    rw [hins, hw, leaves_append, leaves_append, leaves_cons, leaves_cons, List.map_append]
    have h2 : List.map (fun ae => (p, ae.1, ae.2)) [(a, x)] = [(p, a, x)] := by simp
    rw [h2]
    have h3 : leaves w1 ++ ((List.map (fun ae => (p, ae.1, ae.2)) inner ++ [(p, a, x)]) ++ leaves w2) =
        (leaves w1 ++ List.map (fun ae => (p, ae.1, ae.2)) inner) ++ (p, a, x) :: leaves w2 := by
      simp [List.append_assoc]
    rw [h3]
    refine List.Perm.trans List.perm_middle ?_
    rw [List.append_assoc]

theorem lookup2_insert2 (W : Value) (p a p' a' : String) (x : Int) :
    lookup2 (insert2 W p a x) p' a' =
      if p = p' then (if a = a' then some x else lookup2 W p a') else lookup2 W p' a' := by
  unfold insert2 lookup2
  rw [lookupA_insertA]
  by_cases hp : p = p'
  · rw [if_pos hp, if_pos hp]
    simp only [Option.some_bind]
    rw [lookupA_insertA]
    by_cases ha2 : a = a'
    · rw [if_pos ha2, if_pos ha2]
    · rw [if_neg ha2, if_neg ha2]
      cases lookupA W p <;> simp [lookupA]
  · rw [if_neg hp, if_neg hp]

theorem valueV5Step_eq (acc : Value) (k : String) (amt : Int) :
    valueV5Step acc (k, amt) = insert2 acc (polOf k) (nameOf k) amt := by
  unfold valueV5Step polOf nameOf
  cases h : splitOnDot k with
  | nil => rfl
  | cons p rest =>
    cases rest with
    | nil => rfl
    | cons n rest2 =>
      cases rest2 with
      | nil => rfl
      | cons m rest3 => rfl

/-! ## Well-formed asset identifiers -/

theorem wf_key_recon (k : String) (h : wfAssetKey k = true) :
    reconKey (polOf k) (nameOf k) = k := by
  unfold wfAssetKey at h
  unfold reconKey polOf nameOf
  cases hs : splitOnDot k with
  | nil => rw [hs] at h; exact absurd h (by simp)
  | cons p rest =>
    cases rest with
    | nil =>
      rw [hs] at h
      simp only [beq_iff_eq] at h
      simp [h]
    | cons n rest2 =>
      cases rest2 with
      | nil =>
        rw [hs] at h
        simp only [Bool.and_eq_true, bne_iff_ne, beq_iff_eq, Bool.not_eq_eq_eq_not,
          Bool.not_true, beq_eq_false_iff_ne, ne_eq] at h
        rw [if_pos h.1, h.2]
      | cons m rest3 => rw [hs] at h; exact absurd h (by simp)

theorem wf_key_not_ada (k : String) (h1 : wfAssetKey k = true) (h2 : k ≠ "ada.lovelace") :
    ¬(polOf k = AdaPolicy ∧ nameOf k = AdaAsset) := by
  rintro ⟨hp, hn⟩
  have hr := wf_key_recon k h1
  rw [hp, hn] at hr
  have : reconKey AdaPolicy AdaAsset = "ada.lovelace" := by decide
  rw [this] at hr
  exact h2 hr.symm

theorem wf_key_inj (k1 k2 : String) (h1 : wfAssetKey k1 = true) (h2 : wfAssetKey k2 = true)
    (h : polOf k1 = polOf k2 ∧ nameOf k1 = nameOf k2) : k1 = k2 := by
  have r1 := wf_key_recon k1 h1
  have r2 := wf_key_recon k2 h2
  rw [← r1, ← r2, h.1, h.2]

/-! ## The forward fold of ValueV5.ConvertToV6 at leaf level -/

theorem fold_leaves : ∀ (es : List (AssetID × Int)) (acc : Value),
    (∀ e ∈ es, wfAssetKey e.1 = true) →
    (es.map (fun e => (polOf e.1, nameOf e.1))).Nodup →
    (∀ e ∈ es, ∀ x : Int, (polOf e.1, nameOf e.1, x) ∉ leaves acc) →
    List.Perm (leaves (es.foldl valueV5Step acc))
      (es.map (fun e => (polOf e.1, nameOf e.1, e.2)) ++ leaves acc) := by
  intro es
  induction es with
  | nil => intro acc _ _ _; simp
  | cons e es ih =>
    intro acc hwf hnd hfresh
    obtain ⟨k, amt⟩ := e
    rw [List.foldl_cons, valueV5Step_eq]
    have hfr : lookup2 acc (polOf k) (nameOf k) = none := by
      cases hl : lookup2 acc (polOf k) (nameOf k) with
      | none => rfl
      | some x =>
        exact absurd (lookup2_mem_leaves acc _ _ x hl)
          (hfresh (k, amt) (List.mem_cons_self _ _) x)
    have hstep := leaves_insert2_fresh acc (polOf k) (nameOf k) amt hfr
    rw [List.map_cons] at hnd
    have hnd2 := List.nodup_cons.mp hnd
    have hfresh2 : ∀ e' ∈ es, ∀ x : Int,
        (polOf e'.1, nameOf e'.1, x) ∉ leaves (insert2 acc (polOf k) (nameOf k) amt) := by
      intro e' he' x hmem
      rw [hstep.mem_iff] at hmem
      rcases List.mem_cons.mp hmem with heq | hmem2
      · have hpair : (polOf e'.1, nameOf e'.1) = (polOf k, nameOf k) := by
          injection heq with ha hb
          injection hb with hb _
          rw [ha, hb]
        have hin : (polOf e'.1, nameOf e'.1) ∈
            es.map (fun e => (polOf e.1, nameOf e.1)) :=
          List.mem_map_of_mem _ he'
        rw [hpair] at hin
        exact hnd2.1 hin
      · exact hfresh e' (List.mem_cons_of_mem _ he') x hmem2
    have hih := ih (insert2 acc (polOf k) (nameOf k) amt)
      (fun e' he' => hwf e' (List.mem_cons_of_mem _ he'))
      hnd2.2 hfresh2
    refine hih.trans ?_
    refine (List.Perm.append_left _ hstep).trans ?_
    rw [List.map_cons, List.cons_append]
    exact List.perm_middle

/-! ## The native-asset entry of the converted value -/

theorem toV6_lookup_ada_fold : ∀ (es : List (AssetID × Int)) (acc : Value),
    (∀ e ∈ es, ¬(polOf e.1 = AdaPolicy ∧ nameOf e.1 = AdaAsset)) →
    lookup2 (es.foldl valueV5Step acc) AdaPolicy AdaAsset =
      lookup2 acc AdaPolicy AdaAsset := by
  intro es
  induction es with
  | nil => intro acc _; rfl
  | cons e es ih =>
    intro acc hada
    obtain ⟨k, amt⟩ := e
    rw [List.foldl_cons, valueV5Step_eq,
      ih _ (fun e' he' => hada e' (List.mem_cons_of_mem _ he')), lookup2_insert2]
    have hk := hada (k, amt) (List.mem_cons_self _ _)
    by_cases hp : polOf k = AdaPolicy
    · rw [if_pos hp]
      have hn : ¬ nameOf k = AdaAsset := fun hc => hk ⟨hp, hc⟩
      rw [if_neg hn, hp]
    · rw [if_neg hp]

theorem goUint64_inrange (c : Int) (h0 : 0 ≤ c) (h1 : c < 2 ^ 64) :
    goUint64 c ≠ 0 ↔ c ≠ 0 := by
  unfold goUint64
  have h2 : (2 : Nat) ^ 64 = 18446744073709551616 := by norm_num
  have h3 : (2 : Int) ^ 64 = 18446744073709551616 := by norm_num
  rw [h2]
  rw [h3] at h1
  omega

theorem filterMap_select_eq_lookupA (l : List (AssetID × Int)) (k' : String)
    (h : (keysA l).Nodup) :
    l.filterMap (fun e => if e.1 = k' then some e.2 else none) =
      (match lookupA l k' with | some x => [x] | none => []) := by
  induction l with
  | nil => rfl
  | cons e tl ih =>
    obtain ⟨k, amt⟩ := e
    simp only [keysA, List.map_cons, List.nodup_cons] at h
    rw [List.filterMap_cons]
    by_cases h2 : k = k'
    · subst h2
      simp only [if_pos rfl]
      rw [show lookupA ((k, amt) :: tl) k = some amt by simp [lookupA]]
      have htl : tl.filterMap (fun e => if e.1 = k then some e.2 else none) = [] := by
        rw [List.filterMap_eq_nil_iff]
        intro e he
        have hne : e.1 ≠ k := by
          intro hc
          exact h.1 (by rw [← hc]; exact List.mem_map_of_mem _ he)
        rw [if_neg hne]
      rw [htl]
      simp
    · rw [show lookupA ((k, amt) :: tl) k' = lookupA tl k' by simp [lookupA, h2]]
      rw [if_neg (by simpa using h2)]
      exact ih h.2

theorem wf_assets_pn_nodup (v : ValueV5) (h : wfValueV5 v) :
    (v.assets.map (fun e => (polOf e.1, nameOf e.1))).Nodup := by
  obtain ⟨_, _, hnodup, hkeys⟩ := h
  have h1 : v.assets.map (fun e => (polOf e.1, nameOf e.1)) =
      (v.assets.map Prod.fst).map (fun k => (polOf k, nameOf k)) := by
    rw [List.map_map]
    rfl
  rw [h1]
  refine List.Nodup.map_on ?_ hnodup
  intro x hx y hy hxy
  obtain ⟨ex, hex, hx1⟩ := List.mem_map.mp hx
  obtain ⟨ey, hey, hy1⟩ := List.mem_map.mp hy
  refine wf_key_inj x y ?_ ?_ ⟨congrArg Prod.fst hxy, congrArg Prod.snd hxy⟩
  · rw [← hx1]; exact (hkeys ex hex).1
  · rw [← hy1]; exact (hkeys ey hey).1

theorem toV6_leaves_perm (v : ValueV5) (h : wfValueV5 v) :
    List.Perm (leaves (valueV5ConvertToV6 v))
      ((v.assets.map (fun e => (polOf e.1, nameOf e.1, e.2))) ++
        leaves (if goUint64 v.coins ≠ 0 then [(AdaPolicy, [(AdaAsset, v.coins)])] else [])) := by
  have hwfe : ∀ e ∈ v.assets, wfAssetKey e.1 = true := fun e he => (h.2.2.2 e he).1
  have hnada : ∀ e ∈ v.assets, ¬(polOf e.1 = AdaPolicy ∧ nameOf e.1 = AdaAsset) :=
    fun e he => wf_key_not_ada e.1 (h.2.2.2 e he).1 (h.2.2.2 e he).2
  have hfresh : ∀ e ∈ v.assets, ∀ x : Int,
      (polOf e.1, nameOf e.1, x) ∉
        leaves (if goUint64 v.coins ≠ 0 then [(AdaPolicy, [(AdaAsset, v.coins)])] else []) := by
    intro e he x hmem
    by_cases hco : goUint64 v.coins ≠ 0
    · rw [if_pos hco] at hmem
      rw [show leaves [(AdaPolicy, [(AdaAsset, v.coins)])] = [(AdaPolicy, AdaAsset, v.coins)]
        from by simp [leaves]] at hmem
      have heq := List.mem_singleton.mp hmem
      exact hnada e he ⟨congrArg (fun t => t.1) heq, congrArg (fun t => t.2.1) heq⟩
    · rw [if_neg hco] at hmem
      simp [leaves] at hmem
  exact fold_leaves v.assets _ hwfe (wf_assets_pn_nodup v h) hfresh

theorem toV6_ada_lookup (v : ValueV5) (h : wfValueV5 v) :
    lookup2 (valueV5ConvertToV6 v) AdaPolicy AdaAsset =
      (if goUint64 v.coins ≠ 0 then some v.coins else none) := by
  have hnada : ∀ e ∈ v.assets, ¬(polOf e.1 = AdaPolicy ∧ nameOf e.1 = AdaAsset) :=
    fun e he => wf_key_not_ada e.1 (h.2.2.2 e he).1 (h.2.2.2 e he).2
  rw [show valueV5ConvertToV6 v = v.assets.foldl valueV5Step
      (if goUint64 v.coins ≠ 0 then [(AdaPolicy, [(AdaAsset, v.coins)])] else []) from rfl]
  rw [toV6_lookup_ada_fold v.assets _ hnada]
  by_cases hco : goUint64 v.coins ≠ 0
  · rw [if_pos hco, if_pos hco]
    simp [lookup2, lookupA]
  · rw [if_neg hco, if_neg hco]
    rfl

theorem fromV6_toV6_coins (v : ValueV5) (h : wfValueV5 v) :
    (ValueFromV6 (valueV5ConvertToV6 v)).coins = v.coins := by
  have hnada : ∀ e ∈ v.assets, ¬(polOf e.1 = AdaPolicy ∧ nameOf e.1 = AdaAsset) :=
    fun e he => wf_key_not_ada e.1 (h.2.2.2 e he).1 (h.2.2.2 e he).2
  rw [ValueFromV6_eq]
  show ((leaves (valueV5ConvertToV6 v)).foldl vStep ((0 : Int), ([] : List (AssetID × Int)))).1 = v.coins
  rw [foldl_vStep_fst]
  have hperm := (toV6_leaves_perm v h).filterMap (fun l =>
    if l.1 = AdaPolicy ∧ l.2.1 = AdaAsset then some l.2.2 else none)
  rw [show adaAmts (leaves (valueV5ConvertToV6 v)) =
      (leaves (valueV5ConvertToV6 v)).filterMap (fun l =>
        if l.1 = AdaPolicy ∧ l.2.1 = AdaAsset then some l.2.2 else none) from rfl]
  rw [List.filterMap_append] at hperm
  have hmap : (v.assets.map (fun e => (polOf e.1, nameOf e.1, e.2))).filterMap (fun l =>
      if l.1 = AdaPolicy ∧ l.2.1 = AdaAsset then some l.2.2 else none) = [] := by
    rw [List.filterMap_eq_nil_iff]
    intro l hl
    obtain ⟨e, he, hle⟩ := List.mem_map.mp hl
    rw [← hle]
    exact if_neg (hnada e he)
  rw [hmap, List.nil_append] at hperm
  by_cases hco : goUint64 v.coins ≠ 0
  · rw [if_pos hco] at hperm
    rw [show leaves [(AdaPolicy, [(AdaAsset, v.coins)])] = [(AdaPolicy, AdaAsset, v.coins)]
      from by simp [leaves]] at hperm
    rw [show ([(AdaPolicy, AdaAsset, v.coins)]).filterMap (fun l =>
        if l.1 = AdaPolicy ∧ l.2.1 = AdaAsset then some l.2.2 else none) = [v.coins]
      from by simp] at hperm
    rw [List.perm_singleton.mp hperm]
    rfl
  · rw [if_neg hco] at hperm
    rw [show leaves ([] : Value) = [] from rfl] at hperm
    rw [show (([] : List (String × String × Int))).filterMap (fun l =>
        if l.1 = AdaPolicy ∧ l.2.1 = AdaAsset then some l.2.2 else none) = []
      from rfl] at hperm
    rw [List.perm_nil.mp hperm]
    have : v.coins = 0 := by
      by_contra hc
      exact hco ((goUint64_inrange v.coins h.1 h.2.1).mpr hc)
    rw [this]
    rfl

theorem fromV6_toV6_lookup (v : ValueV5) (h : wfValueV5 v) (k : String) :
    lookupA (ValueFromV6 (valueV5ConvertToV6 v)).assets k = lookupA v.assets k := by
  have hwfe : ∀ e ∈ v.assets, wfAssetKey e.1 = true := fun e he => (h.2.2.2 e he).1
  have hnada : ∀ e ∈ v.assets, ¬(polOf e.1 = AdaPolicy ∧ nameOf e.1 = AdaAsset) :=
    fun e he => wf_key_not_ada e.1 (h.2.2.2 e he).1 (h.2.2.2 e he).2
  rw [ValueFromV6_eq]
  show lookupA ((leaves (valueV5ConvertToV6 v)).foldl vStep
    ((0 : Int), ([] : List (AssetID × Int)))).2 k = lookupA v.assets k
  rw [foldl_vStep_lookup]
  rw [show lookupA (([] : List (AssetID × Int))) k = none from rfl, optOr_none_right]
  have hperm := (toV6_leaves_perm v h).filterMap (fun l =>
    if l.1 = AdaPolicy ∧ l.2.1 = AdaAsset then none
    else if reconKey l.1 l.2.1 = k then some l.2.2 else none)
  rw [show keyAmts (leaves (valueV5ConvertToV6 v)) k =
      (leaves (valueV5ConvertToV6 v)).filterMap (fun l =>
        if l.1 = AdaPolicy ∧ l.2.1 = AdaAsset then none
        else if reconKey l.1 l.2.1 = k then some l.2.2 else none) from rfl]
  rw [List.filterMap_append] at hperm
  have hinitNil : (leaves (if goUint64 v.coins ≠ 0 then
      [(AdaPolicy, [(AdaAsset, v.coins)])] else [])).filterMap (fun l =>
        if l.1 = AdaPolicy ∧ l.2.1 = AdaAsset then none
        else if reconKey l.1 l.2.1 = k then some l.2.2 else none) = [] := by
    by_cases hco : goUint64 v.coins ≠ 0
    · rw [if_pos hco]
      simp [leaves]
    · rw [if_neg hco]
      rfl
  rw [hinitNil, List.append_nil] at hperm
  have hmap : (v.assets.map (fun e => (polOf e.1, nameOf e.1, e.2))).filterMap (fun l =>
      if l.1 = AdaPolicy ∧ l.2.1 = AdaAsset then none
      else if reconKey l.1 l.2.1 = k then some l.2.2 else none) =
      v.assets.filterMap (fun e => if e.1 = k then some e.2 else none) := by
    rw [List.filterMap_map]
    refine List.filterMap_congr ?_
    intro e he
    show (if polOf e.1 = AdaPolicy ∧ nameOf e.1 = AdaAsset then none
      else if reconKey (polOf e.1) (nameOf e.1) = k then some e.2 else none) =
      if e.1 = k then some e.2 else none
    rw [if_neg (hnada e he), wf_key_recon e.1 (hwfe e he)]
  rw [hmap, filterMap_select_eq_lookupA v.assets k h.2.2.1] at hperm
  cases hlk : lookupA v.assets k with
  | some x =>
    rw [hlk] at hperm
    rw [List.perm_singleton.mp hperm]
    rfl
  | none =>
    rw [hlk] at hperm
    rw [List.perm_nil.mp hperm]
    rfl

/-- C2: for every well-formed v5 Value payload, converting to the v6 nested
mapping (ValueV5.ConvertToV6) and back (ValueFromV6) preserves the scalar
coins field and preserves the dotted side map extensionally (the key-union
equality with missing entries as zero of the shared Equal), and the v6
mapping carries the native ada/lovelace entry iff the scalar coins field is
not exactly zero. -/
theorem C2_value_round_trip (v : ValueV5) (h : wfValueV5 v) :
    (ValueFromV6 (valueV5ConvertToV6 v)).coins = v.coins ∧
    (∀ k, lookupA (ValueFromV6 (valueV5ConvertToV6 v)).assets k = lookupA v.assets k) ∧
    (hasAdaEntry (valueV5ConvertToV6 v) = true ↔ v.coins ≠ 0) := by
  refine ⟨fromV6_toV6_coins v h, fun k => fromV6_toV6_lookup v h k, ?_⟩
  unfold hasAdaEntry
  rw [toV6_ada_lookup v h]
  by_cases hco : goUint64 v.coins ≠ 0
  · rw [if_pos hco]
    exact iff_of_true rfl ((goUint64_inrange v.coins h.1 h.2.1).mp hco)
  · rw [if_neg hco]
    constructor
    · intro hc
      exact absurd hc (by simp)
    · intro hc
      exact absurd ((goUint64_inrange v.coins h.1 h.2.1).mpr hc) hco

/-- C2 witness: the round trip at a concrete well-formed payload with one
dotted and one bare side-map key. -/
theorem C2_value_round_trip_witness :
    wfValueV5 ⟨5, [("p.q", 7), ("bare", 3)]⟩ ∧
    (ValueFromV6 (valueV5ConvertToV6 ⟨5, [("p.q", 7), ("bare", 3)]⟩)).coins = 5 ∧
    lookupA (ValueFromV6 (valueV5ConvertToV6 ⟨5, [("p.q", 7), ("bare", 3)]⟩)).assets "p.q" =
      lookupA [("p.q", (7 : Int)), ("bare", 3)] "p.q" ∧
    hasAdaEntry (valueV5ConvertToV6 ⟨5, [("p.q", 7), ("bare", 3)]⟩) = true :=
  ⟨by unfold wfValueV5; decide,
   (C2_value_round_trip ⟨5, [("p.q", 7), ("bare", 3)]⟩ (by unfold wfValueV5; decide)).1,
   (C2_value_round_trip ⟨5, [("p.q", 7), ("bare", 3)]⟩ (by unfold wfValueV5; decide)).2.1 "p.q",
   (C2_value_round_trip ⟨5, [("p.q", 7), ("bare", 3)]⟩
     (by unfold wfValueV5; decide)).2.2.mpr (by decide)⟩

/-! ## Decoding a marshalled point structure -/

theorem errJoin_none_right (e : Option GoErr) : errJoin e none = e := by
  cases e <;> rfl

theorem assignPSV5_skip (st : PointStructV5 × Option GoErr) (key : String) (j : Json)
    (h1 : lowerStr key ≠ "blockno") (h2 : lowerStr key ≠ "hash")
    (h3 : lowerStr key ≠ "slot") :
    assignPSV5 st (key, j) = st := by
  simp only [assignPSV5]
  rw [if_neg h1, if_neg h2, if_neg h3]

theorem decU64_num (cur : Nat) (n : Nat) (h : n < 2 ^ 64) :
    decU64 cur (.num (n : Int)) = (n, none) := by
  have hcond : (0 : Int) ≤ (n : Int) ∧ (n : Int) < 2 ^ 64 := by
    constructor
    · exact Int.natCast_nonneg n
    · have h3 : ((2 : Int) ^ 64 : Int) = 18446744073709551616 := by norm_num
      rw [h3]
      omega
  simp only [decU64]
  rw [if_pos hcond]
  simp

theorem decOptU64_num (cur : Option Nat) (n : Nat) (h : n < 2 ^ 64) :
    decOptU64 cur (.num (n : Int)) = (some n, none) := by
  have hcond : (0 : Int) ≤ (n : Int) ∧ (n : Int) < 2 ^ 64 := by
    constructor
    · exact Int.natCast_nonneg n
    · have h3 : ((2 : Int) ^ 64 : Int) = 18446744073709551616 := by norm_num
      rw [h3]
      omega
  simp only [decOptU64]
  rw [if_pos hcond]
  simp

theorem fld_step {α β : Type} (st : α × Option GoErr) (get : α → β) (set : α → β → α)
    (dec : β → Json → β × Option GoErr) (j : Json) (v : β)
    (hd : dec (get st.1) j = (v, none)) :
    fld st get set dec j = (set st.1 v, st.2) := by
  unfold fld
  rw [hd]
  show (set st.1 v, errJoin st.2 none) = (set st.1 v, st.2)
  rw [errJoin_none_right]

theorem assignPSV5_slot (st : PointStructV5 × Option GoErr) (n : Nat) (h : n < 2 ^ 64) :
    assignPSV5 st ("slot", .num (n : Int)) = ({ st.1 with slot := n }, st.2) := by
  simp only [assignPSV5]
  rw [if_neg (by decide), if_neg (by decide), if_pos (by decide)]
  exact fld_step st _ _ decU64 _ n (decU64_num st.1.slot n h)

theorem decPSV5_pointStructToJson (ps : PointStruct) (h : ps.slot < 2 ^ 64) :
    decPSV5 zeroPSV5 (pointStructToJson ps) = (⟨0, "", ps.slot⟩, none) := by
  obtain ⟨hgtOpt, idStr, slotN⟩ := ps
  have hb : slotN < 2 ^ 64 := h
  have hskipH : ∀ (st : PointStructV5 × Option GoErr) (j : Json),
      assignPSV5 st ("height", j) = st := fun st j =>
    assignPSV5_skip st "height" j (by decide) (by decide) (by decide)
  have hskipI : ∀ (st : PointStructV5 × Option GoErr) (j : Json),
      assignPSV5 st ("id", j) = st := fun st j =>
    assignPSV5_skip st "id" j (by decide) (by decide) (by decide)
  have hslot : ∀ st : PointStructV5 × Option GoErr,
      assignPSV5 st ("slot", .num (slotN : Int)) = ({ st.1 with slot := slotN }, st.2) :=
    fun st => assignPSV5_slot st slotN hb
  simp only [pointStructToJson]
  cases hgtOpt with
  | none =>
    by_cases hid : idStr ≠ ""
    · rw [if_pos hid]
      by_cases hsl : slotN ≠ 0
      · rw [if_pos hsl]
        show List.foldl assignPSV5 (zeroPSV5, none)
          [("id", Json.str idStr), ("slot", Json.num (slotN : Int))] = _
        rw [List.foldl_cons, hskipI, List.foldl_cons, hslot, List.foldl_nil]
        rfl
      · rw [if_neg hsl]
        push_neg at hsl
        show List.foldl assignPSV5 (zeroPSV5, none) [("id", Json.str idStr)] = _
        rw [List.foldl_cons, hskipI, List.foldl_nil, hsl]
        rfl
    · rw [if_neg hid]
      by_cases hsl : slotN ≠ 0
      · rw [if_pos hsl]
        show List.foldl assignPSV5 (zeroPSV5, none) [("slot", Json.num (slotN : Int))] = _
        rw [List.foldl_cons, hslot, List.foldl_nil]
        rfl
      · rw [if_neg hsl]
        push_neg at hsl
        show List.foldl assignPSV5 (zeroPSV5, none) ([] : List (String × Json)) = _
        rw [List.foldl_nil, hsl]
        rfl
  | some hgt =>
    by_cases hid : idStr ≠ ""
    · rw [if_pos hid]
      by_cases hsl : slotN ≠ 0
      · rw [if_pos hsl]
        show List.foldl assignPSV5 (zeroPSV5, none)
          [("height", Json.num (hgt : Int)), ("id", Json.str idStr),
           ("slot", Json.num (slotN : Int))] = _
        rw [List.foldl_cons, hskipH, List.foldl_cons, hskipI, List.foldl_cons, hslot,
          List.foldl_nil]
        rfl
      · rw [if_neg hsl]
        push_neg at hsl
        show List.foldl assignPSV5 (zeroPSV5, none)
          [("height", Json.num (hgt : Int)), ("id", Json.str idStr)] = _
        rw [List.foldl_cons, hskipH, List.foldl_cons, hskipI, List.foldl_nil, hsl]
        rfl
    · rw [if_neg hid]
      by_cases hsl : slotN ≠ 0
      · rw [if_pos hsl]
        show List.foldl assignPSV5 (zeroPSV5, none)
          [("height", Json.num (hgt : Int)), ("slot", Json.num (slotN : Int))] = _
        rw [List.foldl_cons, hskipH, List.foldl_cons, hslot, List.foldl_nil]
        rfl
      · rw [if_neg hsl]
        push_neg at hsl
        show List.foldl assignPSV5 (zeroPSV5, none)
          [("height", Json.num (hgt : Int))] = _
        rw [List.foldl_cons, hskipH, List.foldl_nil, hsl]
        rfl

theorem assignPS_height (st : PointStruct × Option GoErr) (n : Nat) (h : n < 2 ^ 64) :
    assignPS st ("height", .num (n : Int)) = ({ st.1 with height := some n }, st.2) := by
  simp only [assignPS]
  rw [if_pos (by decide)]
  exact fld_step st _ _ decOptU64 _ (some n) (decOptU64_num st.1.height n h)

theorem assignPS_id (st : PointStruct × Option GoErr) (s : String) :
    assignPS st ("id", .str s) = ({ st.1 with id := s }, st.2) := by
  simp only [assignPS]
  rw [if_neg (by decide), if_pos (by decide)]
  exact fld_step st _ _ decString _ s rfl

theorem assignPS_slot (st : PointStruct × Option GoErr) (n : Nat) (h : n < 2 ^ 64) :
    assignPS st ("slot", .num (n : Int)) = ({ st.1 with slot := n }, st.2) := by
  simp only [assignPS]
  rw [if_neg (by decide), if_neg (by decide), if_pos (by decide)]
  exact fld_step st _ _ decU64 _ n (decU64_num st.1.slot n h)

theorem decPS_pointStructToJson (ps : PointStruct) (h1 : ps.slot < 2 ^ 64)
    (h2 : ∀ hgt ∈ ps.height, hgt < 2 ^ 64) :
    decPS zeroPS (pointStructToJson ps) = (ps, none) := by
  obtain ⟨hgtOpt, idStr, slotN⟩ := ps
  have hb : slotN < 2 ^ 64 := h1
  have hslot : ∀ st : PointStruct × Option GoErr,
      assignPS st ("slot", .num (slotN : Int)) = ({ st.1 with slot := slotN }, st.2) :=
    fun st => assignPS_slot st slotN hb
  simp only [pointStructToJson]
  cases hgtOpt with
  | none =>
    by_cases hid : idStr ≠ ""
    · rw [if_pos hid]
      by_cases hsl : slotN ≠ 0
      · rw [if_pos hsl]
        show List.foldl assignPS (zeroPS, none)
          [("id", Json.str idStr), ("slot", Json.num (slotN : Int))] = _
        rw [List.foldl_cons, assignPS_id, List.foldl_cons, hslot, List.foldl_nil]
        rfl
      · rw [if_neg hsl]
        push_neg at hsl
        show List.foldl assignPS (zeroPS, none) [("id", Json.str idStr)] = _
        rw [List.foldl_cons, assignPS_id, List.foldl_nil, hsl]
        rfl
    · rw [if_neg hid]
      push_neg at hid
      by_cases hsl : slotN ≠ 0
      · rw [if_pos hsl]
        show List.foldl assignPS (zeroPS, none) [("slot", Json.num (slotN : Int))] = _
        rw [List.foldl_cons, hslot, List.foldl_nil, hid]
        rfl
      · rw [if_neg hsl]
        push_neg at hsl
        show List.foldl assignPS (zeroPS, none) ([] : List (String × Json)) = _
        rw [List.foldl_nil, hid, hsl]
        rfl
  | some hgt =>
    have hgb : hgt < 2 ^ 64 := h2 hgt rfl
    have hheight : ∀ st : PointStruct × Option GoErr,
        assignPS st ("height", .num (hgt : Int)) = ({ st.1 with height := some hgt }, st.2) :=
      fun st => assignPS_height st hgt hgb
    by_cases hid : idStr ≠ ""
    · rw [if_pos hid]
      by_cases hsl : slotN ≠ 0
      · rw [if_pos hsl]
        show List.foldl assignPS (zeroPS, none)
          [("height", Json.num (hgt : Int)), ("id", Json.str idStr),
           ("slot", Json.num (slotN : Int))] = _
        rw [List.foldl_cons, hheight, List.foldl_cons, assignPS_id, List.foldl_cons, hslot,
          List.foldl_nil]
      · rw [if_neg hsl]
        push_neg at hsl
        show List.foldl assignPS (zeroPS, none)
          [("height", Json.num (hgt : Int)), ("id", Json.str idStr)] = _
        rw [List.foldl_cons, hheight, List.foldl_cons, assignPS_id, List.foldl_nil, hsl]
        rfl
    · rw [if_neg hid]
      push_neg at hid
      by_cases hsl : slotN ≠ 0
      · rw [if_pos hsl]
        show List.foldl assignPS (zeroPS, none)
          [("height", Json.num (hgt : Int)), ("slot", Json.num (slotN : Int))] = _
        rw [List.foldl_cons, hheight, List.foldl_cons, hslot, List.foldl_nil, hid]
        rfl
      · rw [if_neg hsl]
        push_neg at hsl
        show List.foldl assignPS (zeroPS, none) [("height", Json.num (hgt : Int))] = _
        rw [List.foldl_cons, hheight, List.foldl_nil, hid, hsl]
        rfl

/-- C4: for every in-range Point, JSON-encoding (symbolic points as a bare
string, structural points as the height/id/slot object) and then decoding
through the first-byte sniffing rule recovers the same Point, variant and
fields included. -/
theorem C4_point_marshal_round_trip (p : Point) (h : wfPoint p) :
    unmarshalPointJSON (marshalPoint p) = .succeeds p := by
  cases p with
  | ofString s =>
    have hrend : render (.str s) = '"' :: (escapeChars s.data ++ ['"']) := by
      simp [render, renderStr]
    rw [show marshalPoint (.ofString s) = render (.str s) from rfl, hrend]
    simp only [unmarshalPointJSON, if_true]
    rw [← hrend, parseJson_render]
  | ofStruct ps =>
    obtain ⟨hs, hh⟩ := h
    have hrend : ∃ tl, render (pointStructToJson ps) = '\x7b' :: tl := by
      refine ⟨renderFields ((match ps.height with
        | some hgt => [("height", Json.num (hgt : Int))]
        | none => []) ++
          (if ps.id ≠ "" then [("id", Json.str ps.id)] else []) ++
          (if ps.slot ≠ 0 then [("slot", Json.num (ps.slot : Int))] else [])) ++ ['\x7d'], ?_⟩
      simp [pointStructToJson, render]
    obtain ⟨tl, hrend⟩ := hrend
    rw [show marshalPoint (.ofStruct ps) = render (pointStructToJson ps) from rfl, hrend]
    simp only [unmarshalPointJSON]
    rw [if_neg (by decide : ¬ ('\x7b' = '"')), ← hrend, parseJson_render]
    show (match (decPS zeroPS (pointStructToJson ps)).2 with
      | none => UnmarshalRes.succeeds (Point.ofStruct (decPS zeroPS (pointStructToJson ps)).1)
      | some e => UnmarshalRes.fails e) = UnmarshalRes.succeeds (Point.ofStruct ps)
    rw [decPS_pointStructToJson ps hs hh]

set_option maxRecDepth 20000 in
/-- C1 counterexample: a v5 not-found tip with non-zero blockNo and non-empty
hash does not survive the v5-to-v6-to-v5 round trip; only the slot does (the
v6 payload keys height/id/slot do not match the v5 field keys
blockNo/hash/slot, so the recovering unmarshal only assigns slot). -/
theorem C1_hash_blockno_lost_cex :
    (rfiV5ConvertToV6 ⟨none, some ⟨some ⟨7, "ab", 5⟩⟩⟩).bind rfiFromV6 =
      some ⟨none, some ⟨some ⟨0, "", 5⟩⟩⟩ ∧
    (⟨0, "", 5⟩ : PointStructV5) ≠ ⟨7, "ab", 5⟩ := by
  constructor
  · exact rfl
  · decide

/-- C1 (amended): converting a v5 IntersectionNotFound result to v6 and back
recovers a present tip that keeps only the slot, zeroing blockNo and hash;
and when the v6 error payload fails to parse as JSON, the recovered v5
not-found tip is the present zero tip (never absent). -/
theorem C1_not_found_round_trip (t : PointStructV5) (ht : t.slot < 2 ^ 64)
    (d : List Char) (hd : (parseJson d).isOk = false) :
    (rfiV5ConvertToV6 ⟨none, some ⟨some t⟩⟩).bind rfiFromV6 =
      some ⟨none, some ⟨some ⟨0, "", t.slot⟩⟩⟩ ∧
    rfiFromV6 ⟨none, none, some ⟨1000, "Intersection not found", some d, none⟩, none⟩ =
      some ⟨none, some ⟨some zeroPSV5⟩⟩ := by
  constructor
  · have h1 : (rfiV5ConvertToV6 ⟨none, some ⟨some t⟩⟩).bind rfiFromV6 =
        rfiFromV6 ⟨none, some (psV5ConvertToV6 t),
          some ⟨1000, "Intersection not found",
            some (render (pointStructToJson (psV5ConvertToV6 t))), none⟩, none⟩ := rfl
    rw [h1]
    have h2 : rfiFromV6 ⟨none, some (psV5ConvertToV6 t),
        some ⟨1000, "Intersection not found",
          some (render (pointStructToJson (psV5ConvertToV6 t))), none⟩, none⟩ =
        some ⟨none, some ⟨some
          (match parseJson (render (pointStructToJson (psV5ConvertToV6 t))) with
           | .ok j => (decPSV5 zeroPSV5 j).1
           | .error _ => zeroPSV5)⟩⟩ := rfl
    rw [h2, parseJson_render]
    show (some ⟨none, some ⟨some (decPSV5 zeroPSV5
      (pointStructToJson (psV5ConvertToV6 t))).1⟩⟩ : Option ResultFindIntersectionV5) = _
    rw [decPSV5_pointStructToJson (psV5ConvertToV6 t)
      (show (psV5ConvertToV6 t).slot < 2 ^ 64 from ht)]
    rfl
  · have h3 : rfiFromV6 ⟨none, none,
        some ⟨1000, "Intersection not found", some d, none⟩, none⟩ =
        some ⟨none, some ⟨some (match parseJson d with
          | .ok j => (decPSV5 zeroPSV5 j).1
          | .error _ => zeroPSV5)⟩⟩ := rfl
    rw [h3]
    cases hp : parseJson d with
    | ok j =>
      rw [hp] at hd
      exact absurd hd (by simp [Except.isOk, Except.toBool])
    | error e => exact rfl

/-- C1 witness: the amended round trip at the concrete tip (7, "ab", 5) and
the unparseable payload "x". -/
theorem C1_not_found_round_trip_witness :
    ((⟨7, "ab", 5⟩ : PointStructV5).slot < 2 ^ 64) ∧
    (parseJson ['x']).isOk = false ∧
    (rfiV5ConvertToV6 ⟨none, some ⟨some ⟨7, "ab", 5⟩⟩⟩).bind rfiFromV6 =
      some ⟨none, some ⟨some ⟨0, "", 5⟩⟩⟩ :=
  ⟨by decide, by decide,
   (C1_not_found_round_trip ⟨7, "ab", 5⟩ (by decide) ['x'] (by decide)).1⟩

/-! ## The Points ordering -/

theorem pointLe_trans : ∀ a b c : Point, pointLe a b = true → pointLe b c = true →
    pointLe a c = true := by
  intro a b c
  cases a <;> cases b <;> cases c <;>
    simp only [pointLe, pointLess, Bool.not_eq_true', decide_eq_false_iff_not,
      decide_eq_true_eq, not_lt] <;>
    intro h1 h2 <;>
    first
      | omega
      | exact le_trans h2 h1
      | trivial

theorem pointLe_total : ∀ a b : Point, pointLe a b = true ∨ pointLe b a = true := by
  intro a b
  cases a <;> cases b <;>
    simp only [pointLe, pointLess, Bool.not_eq_true', decide_eq_false_iff_not,
      decide_eq_true_eq, not_lt] <;>
    first
      | omega
      | exact le_total _ _
      | left; trivial
      | right; trivial

theorem sortPoints_sorted (pp : List Point) :
    List.Pairwise (fun a b => pointLe a b = true) (sortPoints pp) := by
  haveI : IsTotal Point (fun a b => pointLe a b = true) := ⟨pointLe_total⟩
  haveI : IsTrans Point (fun a b => pointLe a b = true) := ⟨pointLe_trans⟩
  exact List.sorted_insertionSort _ pp

theorem sortPoints_perm (pp : List Point) : (sortPoints pp).Perm pp :=
  List.perm_insertionSort _ pp

/-- C4 witness: the point round trip at a concrete structural point with all
three fields populated. -/
theorem C4_point_marshal_round_trip_witness :
    wfPoint (.ofStruct ⟨some 2, "ab", 3⟩) ∧
    unmarshalPointJSON (marshalPoint (.ofStruct ⟨some 2, "ab", 3⟩)) =
      .succeeds (.ofStruct ⟨some 2, "ab", 3⟩) :=
  ⟨⟨by decide, fun x hx => by
      rw [Option.mem_def] at hx
      injection hx with hx
      rw [← hx]
      decide⟩,
   C4_point_marshal_round_trip (.ofStruct ⟨some 2, "ab", 3⟩)
     ⟨by decide, fun x hx => by
       rw [Option.mem_def] at hx
       injection hx with hx
       rw [← hx]
       decide⟩⟩

/-- C5 counterexample: with two distinct structural points sharing a slot,
the sorted slots are not strictly descending (they repeat), refuting the
strictness part of the claim. -/
theorem C5_strict_descent_cex :
    ¬ (structSlots (sortPoints
        [.ofStruct ⟨none, "a", 5⟩, .ofStruct ⟨none, "b", 5⟩])).Pairwise
          (fun a b => a > b) := by
  decide

/-- C5 (amended): sorting Points with the Points.Less ordering places every
structural point before every symbolic point and arranges the structural
points in descending (non-strict) slot order. -/
theorem C5_sort_order (pp : List Point) :
    (sortPoints pp).Pairwise (fun a b => isStructPoint b = true → isStructPoint a = true) ∧
    (structSlots (sortPoints pp)).Pairwise (fun a b => b ≤ a) := by
  have hs := sortPoints_sorted pp
  constructor
  · refine hs.imp ?_
    intro a b hab hb
    cases a with
    | ofStruct _ => rfl
    | ofString s =>
      cases b with
      | ofString _ => simp [isStructPoint] at hb
      | ofStruct ps => simp [pointLe, pointLess] at hab
  · unfold structSlots
    rw [List.pairwise_filterMap]
    refine hs.imp ?_
    intro a b hab x hx y hy
    cases a with
    | ofString s => simp at hx
    | ofStruct pa =>
      cases b with
      | ofString s => simp at hy
      | ofStruct pb =>
        simp only [Option.mem_def, Option.some.injEq] at hx hy
        subst hx
        subst hy
        simp [pointLe, pointLess] at hab
        omega

/-! ## The signatory pipeline -/

theorem sigLe_trans : ∀ a b c : Signature, sigLe a b = true → sigLe b c = true →
    sigLe a c = true := by
  intro a b c h1 h2
  simp only [sigLe, decide_eq_true_eq] at *
  exact le_trans h1 h2

theorem sigLe_total : ∀ a b : Signature, sigLe a b = true ∨ sigLe b a = true := by
  intro a b
  simp only [sigLe, decide_eq_true_eq]
  exact le_total _ _

theorem convertBootstrapSig_spec (raw : List Char) (s : Signature)
    (hs : (match parseJson raw with
           | .ok j => (decSig zeroSig j).1
           | .error _ => zeroSig) = s) :
    (convertBootstrapSig raw).key = s.key ∧
    (convertBootstrapSig raw).chainCode = s.chainCode ∧
    ((∃ bs, base64Decode s.signature = some bs ∧
        (convertBootstrapSig raw).signature = hexEncode bs) ∨
      (base64Decode s.signature = none ∧
        (convertBootstrapSig raw).signature = s.signature)) ∧
    ((s.addressAttributes ≠ "" ∧ ∃ bs, base64Decode s.addressAttributes = some bs ∧
        (convertBootstrapSig raw).addressAttributes = hexEncode bs) ∨
      ((s.addressAttributes = "" ∨ base64Decode s.addressAttributes = none) ∧
        (convertBootstrapSig raw).addressAttributes = s.addressAttributes)) := by
  have hgen : convertBootstrapSig raw =
      (let s1 := match base64Decode s.signature with
        | some bs => { s with signature := hexEncode bs }
        | none => s
      if s1.addressAttributes ≠ "" then
        match base64Decode s1.addressAttributes with
        | some bs => { s1 with addressAttributes := hexEncode bs }
        | none => s1
      else s1) := by
    simp only [convertBootstrapSig]
    rw [hs]
  rw [hgen]
  cases hsig : base64Decode s.signature with
  | some bs =>
    by_cases haa : s.addressAttributes ≠ ""
    · cases haa2 : base64Decode s.addressAttributes with
      | some bs2 =>
        refine ⟨?_, ?_, Or.inl ⟨bs, rfl, ?_⟩, Or.inl ⟨haa, bs2, rfl, ?_⟩⟩ <;>
          simp [haa, haa2]
      | none =>
        refine ⟨?_, ?_, Or.inl ⟨bs, rfl, ?_⟩, Or.inr ⟨Or.inr rfl, ?_⟩⟩ <;>
          simp [haa, haa2]
    · push_neg at haa
      refine ⟨?_, ?_, Or.inl ⟨bs, rfl, ?_⟩, Or.inr ⟨Or.inl haa, ?_⟩⟩ <;> simp [haa]
  | none =>
    by_cases haa : s.addressAttributes ≠ ""
    · cases haa2 : base64Decode s.addressAttributes with
      | some bs2 =>
        refine ⟨?_, ?_, Or.inr ⟨rfl, ?_⟩, Or.inl ⟨haa, bs2, rfl, ?_⟩⟩ <;>
          simp [haa, haa2]
      | none =>
        refine ⟨?_, ?_, Or.inr ⟨rfl, ?_⟩, Or.inr ⟨Or.inr rfl, ?_⟩⟩ <;>
          simp [haa, haa2]
    · push_neg at haa
      refine ⟨?_, ?_, Or.inr ⟨rfl, ?_⟩, Or.inr ⟨Or.inl haa, ?_⟩⟩ <;> simp [haa]

/-- C3: TxV5.ConvertToV6 produces one combined signatory list: a permutation
of the converted bootstrap entries and plain signature entries, sorted
ascending by key; each plain signature is re-encoded from base64 to hex when
it decodes and kept verbatim when it does not; each decoded bootstrap entry
keeps its key and chain code, re-encodes a decodable signature to hex
(keeping it verbatim on a failed decode), and re-encodes a non-empty
decodable addressAttributes field to hex (keeping it verbatim otherwise). -/
theorem C3_signatories_conversion (t : TxV5) :
    ((txV5ConvertToV6 t).signatories).Perm
      ((t.witness.bootstrap.map convertBootstrapSig) ++
        (t.witness.signatures.map convertPlainSig)) ∧
    ((txV5ConvertToV6 t).signatories).Pairwise (fun a b => a.key ≤ b.key) ∧
    (∀ raw ∈ t.witness.bootstrap, ∀ s : Signature,
      (match parseJson raw with
       | .ok j => (decSig zeroSig j).1
       | .error _ => zeroSig) = s →
      (convertBootstrapSig raw).key = s.key ∧
      (convertBootstrapSig raw).chainCode = s.chainCode ∧
      ((∃ bs, base64Decode s.signature = some bs ∧
          (convertBootstrapSig raw).signature = hexEncode bs) ∨
        (base64Decode s.signature = none ∧
          (convertBootstrapSig raw).signature = s.signature)) ∧
      ((s.addressAttributes ≠ "" ∧ ∃ bs, base64Decode s.addressAttributes = some bs ∧
          (convertBootstrapSig raw).addressAttributes = hexEncode bs) ∨
        ((s.addressAttributes = "" ∨ base64Decode s.addressAttributes = none) ∧
          (convertBootstrapSig raw).addressAttributes = s.addressAttributes))) ∧
    (∀ kv ∈ t.witness.signatures,
      (∃ bs, base64Decode kv.2 = some bs ∧
        convertPlainSig kv = ⟨kv.1, hexEncode bs, "", ""⟩) ∨
      (base64Decode kv.2 = none ∧ convertPlainSig kv = ⟨kv.1, kv.2, "", ""⟩)) := by
  refine ⟨?_, ?_, fun raw _ s hs => convertBootstrapSig_spec raw s hs, fun kv _ => ?_⟩
  · show (convertSignatories t.witness.bootstrap t.witness.signatures).Perm _
    exact List.perm_insertionSort _ _
  · show (convertSignatories t.witness.bootstrap t.witness.signatures).Pairwise _
    haveI : IsTotal Signature (fun a b => sigLe a b = true) := ⟨sigLe_total⟩
    haveI : IsTrans Signature (fun a b => sigLe a b = true) := ⟨sigLe_trans⟩
    refine (List.sorted_insertionSort _ _).imp ?_
    intro a b h
    simpa [sigLe] using h
  · cases hdec : base64Decode kv.2 with
    | some bs => exact Or.inl ⟨bs, rfl, by simp [convertPlainSig, hdec]⟩
    | none => exact Or.inr ⟨rfl, by simp [convertPlainSig, hdec]⟩

/-! ## The Enough scan -/

theorem haveAmt_eq (have_ : Value) (policy asset : String) :
    (match lookupA have_ policy with
     | some haveAssets => lookupD haveAssets asset 0
     | none => 0) = lookup2D have_ policy asset := by
  cases h : lookupA have_ policy <;> simp [lookup2D, lookup2, h, lookupD]

theorem enoughInner_none (have_ : Value) (policy : String) (assets : List (String × Int)) :
    enoughInner have_ policy assets = none ↔
      ∀ ae ∈ assets, ae.2 ≤ lookup2D have_ policy ae.1 := by
  induction assets with
  | nil => simp [enoughInner]
  | cons ae tl ih =>
    obtain ⟨asset, amt⟩ := ae
    simp only [enoughInner, haveAmt_eq]
    by_cases hlt : lookup2D have_ policy asset < amt
    · rw [if_pos hlt]
      constructor
      · intro h
        exact absurd h (by simp)
      · intro h
        have := h (asset, amt) (List.mem_cons_self _ _)
        simp only at this
        omega
    · rw [if_neg hlt, ih]
      constructor
      · intro h ae2 hae
        rcases List.mem_cons.mp hae with heq | hmem
        · rw [heq]
          simp only
          omega
        · exact h ae2 hmem
      · intro h ae2 hae
        exact h ae2 (List.mem_cons_of_mem _ hae)

theorem enoughInner_some (have_ : Value) (policy : String) :
    ∀ (assets : List (String × Int)) (e : InsufficientErr),
    enoughInner have_ policy assets = some e →
    ∃ ae ∈ assets, e.assetName = ae.1 ∧ lookup2D have_ policy ae.1 < ae.2 ∧
      e.haveAmt = lookup2D have_ policy ae.1 ∧ e.wantAmt = ae.2 := by
  intro assets
  induction assets with
  | nil => intro e h; simp [enoughInner] at h
  | cons ae tl ih =>
    obtain ⟨asset, amt⟩ := ae
    intro e h
    simp only [enoughInner, haveAmt_eq] at h
    by_cases hlt : lookup2D have_ policy asset < amt
    · rw [if_pos hlt] at h
      injection h with h
      subst h
      exact ⟨(asset, amt), List.mem_cons_self _ _, rfl, hlt, rfl, rfl⟩
    · rw [if_neg hlt] at h
      obtain ⟨ae2, hmem, hrest⟩ := ih e h
      exact ⟨ae2, List.mem_cons_of_mem _ hmem, hrest⟩

theorem enoughOuter_none (have_ : Value) : ∀ want : Value,
    enoughOuter have_ want = none ↔
      ∀ pe ∈ want, ∀ ae ∈ pe.2, ae.2 ≤ lookup2D have_ pe.1 ae.1 := by
  intro want
  induction want with
  | nil => simp [enoughOuter]
  | cons pe tl ih =>
    obtain ⟨policy, assets⟩ := pe
    simp only [enoughOuter]
    cases hin : enoughInner have_ policy assets with
    | some e =>
      constructor
      · intro h
        exact absurd h (by simp)
      · intro h
        have h2 : enoughInner have_ policy assets = none := by
          rw [enoughInner_none]
          intro ae hae
          exact h (policy, assets) (List.mem_cons_self _ _) ae hae
        rw [hin] at h2
        exact absurd h2 (by simp)
    | none =>
      rw [ih]
      constructor
      · intro h pe2 hpe ae hae
        rcases List.mem_cons.mp hpe with heq | hmem
        · subst heq
          exact (enoughInner_none have_ policy assets).mp hin ae hae
        · exact h pe2 hmem ae hae
      · intro h pe2 hpe
        exact h pe2 (List.mem_cons_of_mem _ hpe)

theorem enoughOuter_some (have_ : Value) : ∀ (want : Value) (e : InsufficientErr),
    enoughOuter have_ want = some e →
    ∃ pe ∈ want, ∃ ae ∈ pe.2, e.assetName = ae.1 ∧ lookup2D have_ pe.1 ae.1 < ae.2 ∧
      e.haveAmt = lookup2D have_ pe.1 ae.1 ∧ e.wantAmt = ae.2 := by
  intro want
  induction want with
  | nil => intro e h; simp [enoughOuter] at h
  | cons pe tl ih =>
    obtain ⟨policy, assets⟩ := pe
    intro e h
    simp only [enoughOuter] at h
    cases hin : enoughInner have_ policy assets with
    | some e2 =>
      rw [hin] at h
      injection h with h
      subst h
      obtain ⟨ae, hmem, hrest⟩ := enoughInner_some have_ policy assets e2 hin
      exact ⟨(policy, assets), List.mem_cons_self _ _, ae, hmem, hrest⟩
    | none =>
      rw [hin] at h
      obtain ⟨pe2, hpe, hrest⟩ := ih e h
      exact ⟨pe2, List.mem_cons_of_mem _ hpe, hrest⟩

/-- C6: Enough(have, want) is false exactly when some wanted asset amount
strictly exceeds the corresponding (missing-as-zero) amount in have, and a
false result always carries an insufficient-funds error naming a deficient
asset together with the amounts involved; the boolean is thereby determined
by the key-indexed contents of the two values alone, not by any iteration
order. -/
theorem C6_enough_spec (have_ want : Value) :
    ((Enough have_ want).1 = false ↔
      ∃ pe ∈ want, ∃ ae ∈ pe.2, lookup2D have_ pe.1 ae.1 < ae.2) ∧
    ((Enough have_ want).1 = false →
      ∃ err, (Enough have_ want).2 = some err ∧
        ∃ pe ∈ want, ∃ ae ∈ pe.2, err.assetName = ae.1 ∧
          lookup2D have_ pe.1 ae.1 < ae.2 ∧
          err.haveAmt = lookup2D have_ pe.1 ae.1 ∧ err.wantAmt = ae.2) := by
  unfold Enough
  cases ho : enoughOuter have_ want with
  | none =>
    constructor
    · simp only [Prod.fst]
      constructor
      · intro h
        exact absurd h (by simp)
      · rintro ⟨pe, hpe, ae, hae, hlt⟩
        have := (enoughOuter_none have_ want).mp ho pe hpe ae hae
        omega
    · intro h
      exact absurd h (by simp)
  | some e =>
    constructor
    · constructor
      · intro _
        obtain ⟨pe, hpe, ae, hae, _, hlt, _, _⟩ := enoughOuter_some have_ want e ho
        exact ⟨pe, hpe, ae, hae, hlt⟩
      · intro _
        rfl
    · intro _
      obtain ⟨pe, hpe, ae, hae, hname, hlt, hhave, hwant⟩ :=
        enoughOuter_some have_ want e ho
      exact ⟨e, rfl, pe, hpe, ae, hae, hname, hlt, hhave, hwant⟩

/-- C7: with no stored and no caller-supplied points the handshake request's
points parameter is exactly the one-element origin list, and in every case
the submitted candidate list is sorted by the Points ordering and holds at
most 5 points. -/
theorem C7_handshake_request (loaded pp : List Point) :
    getInitPoints [] [] = [originPoint] ∧
    getInitRequest [] [] =
      .obj [("id", .obj [("step", .str "INIT")]),
            ("jsonrpc", .str "2.0"),
            ("method", .str "findIntersection"),
            ("params", .obj [("points", .arr [.str "origin"])])] ∧
    (getInitPoints loaded pp).length ≤ 5 ∧
    (getInitPoints loaded pp).Pairwise (fun a b => pointLe a b = true) := by
  have haux : ∀ l : List Point,
      (if l.length > 5 then l.take 5 else l).length ≤ 5 := by
    intro l
    by_cases h : l.length > 5
    · rw [if_pos h]
      simp [List.length_take]
    · rw [if_neg h]
      omega
  have haux2 : ∀ l : List Point, l.Pairwise (fun a b => pointLe a b = true) →
      (if l.length > 5 then l.take 5 else l).Pairwise (fun a b => pointLe a b = true) := by
    intro l hl
    by_cases h : l.length > 5
    · rw [if_pos h]
      exact List.Pairwise.sublist (List.take_sublist 5 l) hl
    · rw [if_neg h]
      exact hl
  refine ⟨rfl, rfl, ?_, ?_⟩
  · simp only [getInitPoints]
    exact haux _
  · simp only [getInitPoints]
    exact haux2 _ (sortPoints_sorted _)

/-- The failure shape of the two-attempt compatibility decoders: the result
is the failure carrying both attempts' errors exactly when neither
discriminant condition held. -/
theorem compat_failed_iff {α : Type} (c1 c2 : Bool) (ok1 : α) (mid : CompatResult α)
    (e1 e2 : Option GoErr) (hmid : ∀ x y, mid ≠ CompatResult.failed x y) :
    ((if c1 then CompatResult.ok ok1 else if c2 then mid else CompatResult.failed e1 e2) =
        CompatResult.failed e1 e2 ↔
      c1 = false ∧ c2 = false) := by
  by_cases h1 : c1 = true
  · rw [if_pos h1]
    constructor
    · intro h
      exact CompatResult.noConfusion h
    · rintro ⟨hc1, _⟩
      rw [h1] at hc1
      exact absurd hc1 (by simp)
  · rw [if_neg h1]
    by_cases h2 : c2 = true
    · rw [if_pos h2]
      constructor
      · intro h
        exact absurd h (hmid _ _)
      · rintro ⟨_, hc2⟩
        rw [h2] at hc2
        exact absurd hc2 (by simp)
    · rw [if_neg h2]
      exact ⟨fun _ => ⟨Bool.eq_false_iff.mpr h1, Bool.eq_false_iff.mpr h2⟩, fun _ => rfl⟩

/-- C8: each adaptive decoder ends in the failure that carries both attempts'
errors exactly when neither the v6 discriminant nor the v5 discriminant
matched, so a failed decode always reports both underlying errors and never
silently picks one schema. -/
theorem C8_report_both_errors (data : List Char) :
    (unmarshalCompatibleRFI data =
        .failed (goUnmarshalWith zeroRFIP decRFIP data).2
          (goUnmarshalWith zeroRFIV5 decRFIV5 data).2 ↔
      ((goUnmarshalWith zeroRFIP decRFIP data).2.isNone &&
        ((goUnmarshalWith zeroRFIP decRFIP data).1.intersection.isSome ||
         (goUnmarshalWith zeroRFIP decRFIP data).1.error.isSome)) = false ∧
      ((goUnmarshalWith zeroRFIV5 decRFIV5 data).2.isNone &&
        ((goUnmarshalWith zeroRFIV5 decRFIV5 data).1.intersectionFound.isSome ||
         (goUnmarshalWith zeroRFIV5 decRFIV5 data).1.intersectionNotFound.isSome)) = false) ∧
    (unmarshalCompatibleRNB data =
        .failed (goUnmarshalWith zeroRNBP decRNBP data).2
          (goUnmarshalWith zeroRNBV5 decRNBV5 data).2 ↔
      ((goUnmarshalWith zeroRNBP decRNBP data).2.isNone &&
        !((goUnmarshalWith zeroRNBP decRNBP data).1.direction == "")) = false ∧
      ((goUnmarshalWith zeroRNBV5 decRNBV5 data).2.isNone &&
        ((goUnmarshalWith zeroRNBV5 decRNBV5 data).1.rollBackward.isSome ||
         (goUnmarshalWith zeroRNBV5 decRNBV5 data).1.rollForward.isSome)) = false) := by
  simp only [unmarshalCompatibleRFI, unmarshalCompatibleRNB]
  constructor
  · refine compat_failed_iff _ _ _ _ _ _ ?_
    intro x y
    cases rfiV5ConvertToV6 (goUnmarshalWith zeroRFIV5 decRFIV5 data).1 <;>
      exact fun h => CompatResult.noConfusion h
  · refine compat_failed_iff _ _ _ _ _ _ ?_
    intro x y
    cases rnbV5ConvertToV6 (goUnmarshalWith zeroRNBV5 decRNBV5 data).1 <;>
      exact fun h => CompatResult.noConfusion h

/-- C9: a mempool-monitor text frame that fails to unmarshal as both the
acquireMempool response shape and the nextTransaction response shape makes
the reader step fatal with both parse errors, and conversely a fatal step
only arises from such a frame (every decodable frame continues the loop). -/
theorem C9_mempool_fatal (txs : List (Option Tx)) (slot : Nat) (data : List Char) :
    ((goUnmarshalWith zeroAMR decAMR data).2.isSome = true →
      (goUnmarshalWith zeroNTR decNTR data).2.isSome = true →
      mempoolReadStep txs slot data =
        .fatal ((goUnmarshalWith zeroAMR decAMR data).2.getD "")
               ((goUnmarshalWith zeroNTR decNTR data).2.getD "")) ∧
    (∀ e1 e2, mempoolReadStep txs slot data = .fatal e1 e2 →
      (goUnmarshalWith zeroAMR decAMR data).2.isSome = true ∧
      (goUnmarshalWith zeroNTR decNTR data).2.isSome = true) := by
  constructor
  · intro h1 h2
    simp only [mempoolReadStep]
    rw [if_pos (by rw [h1, h2]; rfl)]
  · intro e1 e2 h
    simp only [mempoolReadStep] at h
    by_cases hc : ((goUnmarshalWith zeroAMR decAMR data).2.isSome &&
        (goUnmarshalWith zeroNTR decNTR data).2.isSome) = true
    · exact ⟨(Bool.and_eq_true _ _ |>.mp hc).1, (Bool.and_eq_true _ _ |>.mp hc).2⟩
    · rw [if_neg hc] at h
      by_cases hc2 : ((goUnmarshalWith zeroAMR decAMR data).1.method == "acquireMempool" &&
          (goUnmarshalWith zeroAMR decAMR data).2.isNone) = true
      · rw [if_pos hc2] at h
        exact MempoolStep.noConfusion h
      · rw [if_neg hc2] at h
        by_cases hc3 : ((goUnmarshalWith zeroNTR decNTR data).1.method == "nextTransaction" &&
            (goUnmarshalWith zeroNTR decNTR data).1.result.transaction.isNone) = true
        · rw [if_pos hc3] at h
          exact MempoolStep.noConfusion h
        · rw [if_neg hc3] at h
          exact MempoolStep.noConfusion h

/-- C9 witness: the frame "5" decodes as neither response shape and is fatal
with both errors. -/
theorem C9_mempool_fatal_witness :
    (goUnmarshalWith zeroAMR decAMR ['5']).2.isSome = true ∧
    (goUnmarshalWith zeroNTR decNTR ['5']).2.isSome = true ∧
    mempoolReadStep [] 0 ['5'] =
      .fatal ((goUnmarshalWith zeroAMR decAMR ['5']).2.getD "")
             ((goUnmarshalWith zeroNTR decNTR ['5']).2.getD "") :=
  ⟨by decide, by decide, (C9_mempool_fatal [] 0 ['5']).1 (by decide) (by decide)⟩

/-- C10: both public point decoders panic on the empty payload (they index
the first byte unconditionally) and never panic on a non-empty payload,
where they either succeed or return an error. -/
theorem C10_empty_payload_panics (data : List Char) :
    (data = [] → unmarshalPointJSON data = .panics ∧ unmarshalPointV5JSON data = .panics) ∧
    (data ≠ [] → unmarshalPointJSON data ≠ .panics ∧ unmarshalPointV5JSON data ≠ .panics) := by
  constructor
  · intro h
    subst h
    exact ⟨rfl, rfl⟩
  · intro h
    cases data with
    | nil => exact absurd rfl h
    | cons c tl =>
      constructor
      · intro hcon
        simp only [unmarshalPointJSON] at hcon
        repeat' split at hcon
        all_goals exact UnmarshalRes.noConfusion hcon
      · intro hcon
        simp only [unmarshalPointV5JSON] at hcon
        repeat' split at hcon
        all_goals exact UnmarshalRes.noConfusion hcon

/-- C10 witness: the decoders at the empty payload and at the one-byte
payload "x". -/
theorem C10_empty_payload_panics_witness :
    unmarshalPointJSON [] = .panics ∧ unmarshalPointV5JSON [] = .panics ∧
    unmarshalPointJSON ['x'] ≠ .panics ∧ unmarshalPointV5JSON ['x'] ≠ .panics :=
  ⟨((C10_empty_payload_panics []).1 rfl).1,
   ((C10_empty_payload_panics []).1 rfl).2,
   ((C10_empty_payload_panics ['x']).2 (by decide)).1,
   ((C10_empty_payload_panics ['x']).2 (by decide)).2⟩
